import Mathlib

/-! The dumbvm frame directory and address spaces of os161-1.99.

A shallow embedding of `kern/arch/mips/vm/dumbvm.c` (the `OPT_A3` branches), of
`sys_fork` of `kern/syscall/proc_syscalls.c` (the `OPT_A2` branch) and of the intersection
of `kern/synchprobs/traffic_synch.c`.

* The frame directory (`coremap` in the source) is a table of C `int`s, one per
  frame of the managed region; it is embedded as a `List Int` next to the two
  physical bounds `coremap_firstaddr` and `coremap_lastaddr`.
* `paddr_t`, `vaddr_t` are 32-bit unsigned: they are embedded as `Nat` with an
  explicit `% 2 ^ 32` wherever the source computes with them.
* `for` loops over a fixed range are embedded as structural recursion on the
  number of iterations that remain.
* The state is the directory, the address-space structure and the translation
  cache.  The bytes of memory outside the table (what `bzero` and `memmove` write
  into a frame) are not part of the state; where a frame shares bytes with the
  table, `as_zero_region` clears the directory entries in it and `as_copy` records
  that its `memmove` has overwritten entries.  The spinlocks and interrupt levels
  have no effect in this sequential embedding.
-/

namespace DumbVM

/-! ## Constants of the platform headers -/

/-- Modelled from the spec: the header constant `PAGE_SIZE` (declared in the MIPS
`vm.h`, which is not among the sources); a frame is the fixed-size unit of physical
memory, 4096 bytes on this platform. -/
def PAGE_SIZE : Nat := 4096

/-- Modelled from the spec: the header constant `MIPS_KSEG0` (declared in the MIPS
`vm.h`, which is not among the sources), the base of the direct-mapped kernel
segment. -/
def MIPS_KSEG0 : Nat := 0x80000000

/-- The constant `DUMBVM_STACKPAGES` of the source: the stack has 12 pages. -/
def DUMBVM_STACKPAGES : Nat := 12

/-- Modelled from the spec: the header constant `ENOMEM` (declared in
`kern/errno.h`, which is not among the sources), the out-of-memory error code;
only its being non-zero matters. -/
def ENOMEM : Int := 3

/-- Modelled from the spec: the header macro `PADDR_TO_KVADDR` (MIPS `vm.h`, not
among the sources): the kernel virtual address of a physical address, 32-bit. -/
def PADDR_TO_KVADDR (paddr : Nat) : Nat := (paddr + MIPS_KSEG0) % 2 ^ 32

/-- Modelled from the spec: the header macro `KVADDR_TO_PADDR` (MIPS `vm.h`, not
among the sources): the physical address of a kernel virtual address, 32-bit. -/
def KVADDR_TO_PADDR (vaddr : Nat) : Nat := (vaddr + 2 ^ 32 - MIPS_KSEG0) % 2 ^ 32

/-! ## The frame directory -/

/-- The static variables `coremap`, `coremap_firstaddr`, `coremap_lastaddr`. -/
structure Coremap where
  coremap : List Int
  coremap_firstaddr : Nat
  coremap_lastaddr : Nat
deriving DecidableEq

/-- The local `valid_page_num` every function recomputes:
`(coremap_lastaddr - coremap_firstaddr) / PAGE_SIZE`, the subtraction unsigned 32-bit. -/
def valid_page_num (s : Coremap) : Nat :=
  ((s.coremap_lastaddr + 2 ^ 32 - s.coremap_firstaddr) % 2 ^ 32) / PAGE_SIZE

/-- The load `coremap[i]`. -/
def cm_read (cm : List Int) (i : Nat) : Int := cm.getD i 0

/-- The function `vm_bootstrap`: `ram_getsize` reports the bounds `first`, `last`
and every entry of the table is set to 0. -/
def vm_bootstrap (first last : Nat) : Coremap :=
  let s : Coremap := { coremap := [], coremap_firstaddr := first, coremap_lastaddr := last }
  { s with coremap := List.replicate (valid_page_num s) 0 }

/-- The loop of `write_to_coremap`: `fuel` iterations remain, `j` is the loop variable,
and the body is `coremap[start_idx + j - 1] = (int) j`. -/
def write_to_coremap_loop (start_idx : Nat) : Nat → Nat → List Int → List Int
  | 0, _, cm => cm
  | fuel + 1, j, cm =>
      write_to_coremap_loop start_idx fuel (j + 1) (cm.set (start_idx + j - 1) (j : Int))

/-- The function `write_to_coremap`: `for (j = 1; j <= npages; j++)`. -/
def write_to_coremap (cm : List Int) (npages : Nat) (start_idx : Nat) : List Int :=
  write_to_coremap_loop start_idx npages 1 cm

/-- The loop of `count_unused`: `fuel` iterations remain, `i` is the loop variable. -/
def count_unused_loop (cm : List Int) : Nat → Nat → Nat → Nat
  | 0, _, count => count
  | fuel + 1, i, count =>
      if cm_read cm i = 0 then count_unused_loop cm fuel (i + 1) (count + 1) else count

/-- The function `count_unused`: `for (i = start_idx + 1; i < valid_page_num; i++)`. -/
def count_unused (s : Coremap) (start_idx : Nat) : Nat :=
  count_unused_loop s.coremap (valid_page_num s - (start_idx + 1)) (start_idx + 1) 0

/-- The address `coremap_stealmem` returns for the run that starts at entry `i`:
`coremap_firstaddr + (i + 1) * PAGE_SIZE`, 32-bit. -/
def frame_paddr (s : Coremap) (i : Nat) : Nat :=
  (s.coremap_firstaddr + ((i + 1) * PAGE_SIZE) % 2 ^ 32) % 2 ^ 32

/-- The loop of `coremap_stealmem`: `fuel` iterations remain, `i` is the loop variable.
The result is the returned address and the directory afterwards. -/
def coremap_stealmem_loop (s : Coremap) (npages : Nat) : Nat → Nat → Nat × Coremap
  | 0, _ => (0, s)
  | fuel + 1, i =>
      if cm_read s.coremap i = 0 then
        if 1 + count_unused s i ≥ npages then
          (frame_paddr s i, { s with coremap := write_to_coremap s.coremap npages i })
        else coremap_stealmem_loop s npages fuel (i + 1)
      else coremap_stealmem_loop s npages fuel (i + 1)

/-- The function `coremap_stealmem`: `for (i = 0; i < valid_page_num; i++)`, then
`return 0`. -/
def coremap_stealmem (s : Coremap) (npages : Nat) : Nat × Coremap :=
  coremap_stealmem_loop s npages (valid_page_num s) 0

/-- The function `getppages` once `bootstrap` is set: it calls `coremap_stealmem`
under the spinlock. -/
def getppages (s : Coremap) (npages : Nat) : Nat × Coremap :=
  coremap_stealmem s npages

/-- The function `alloc_kpages`. -/
def alloc_kpages (s : Coremap) (npages : Nat) : Nat × Coremap :=
  let r := getppages s npages
  if r.1 = 0 then (0, r.2) else (PADDR_TO_KVADDR r.1, r.2)

/-- The store `coremap[i] = v` for a C `int` index; a store below the table
does not change the table. -/
def cm_write_int (cm : List Int) (i : Int) (v : Int) : List Int :=
  if 0 ≤ i then cm.set i.toNat v else cm

/-- The load `coremap[i]` for a C `int` index. The only load below the table is the one
at index -1 in the first iteration of `free_kpages`, whose value is not used. -/
def cm_read_int (cm : List Int) (i : Int) : Int :=
  if 0 ≤ i then cm_read cm i.toNat else 0

/-- The loop of `free_kpages`: `fuel` iterations remain, `i` is the loop variable and
`start` is `count - 1`. -/
def free_kpages_loop (start : Int) : Nat → Int → List Int → List Int
  | 0, _, cm => cm
  | fuel + 1, i, cm =>
      let curr := cm_read_int cm i
      if i = start ∨ curr > 1 then
        free_kpages_loop start fuel (i + 1) (cm_write_int cm i 0)
      else cm

/-- The function `free_kpages`: `count = (p_addr - coremap_firstaddr) / PAGE_SIZE`
(unsigned 32-bit), then `for (i = count - 1; i < valid_page_num; i++)`. -/
def free_kpages (s : Coremap) (addr : Nat) : Coremap :=
  let p_addr := KVADDR_TO_PADDR addr
  let count : Int := (((p_addr + 2 ^ 32 - s.coremap_firstaddr) % 2 ^ 32) / PAGE_SIZE : Nat)
  let fuel := ((valid_page_num s : Int) - (count - 1)).toNat
  { s with coremap := free_kpages_loop (count - 1) fuel (count - 1) s.coremap }

/-! ## The memory of the table -/

/-- The size in bytes of a C `int` on this platform (32-bit MIPS): the table is an
`int *`, so entry `i` occupies the 4 bytes from `coremap_firstaddr + 4 * i` on. -/
def SIZEOF_INT : Nat := 4

/-- The first physical address after the table: `vm_bootstrap` puts the table at
`coremap_firstaddr` and stores `valid_page_num` entries of type `int` there. -/
def coremap_table_end (s : Coremap) : Nat :=
  s.coremap_firstaddr + SIZEOF_INT * valid_page_num s

/-- The entries of the table after the bytes of physical memory from `lo` up to `hi` have
been set to 0: `k` is the index of the first entry of the list, entry `k` occupies the
`SIZEOF_INT` bytes from `first + SIZEOF_INT * k` on, and an entry whose bytes lie in the
range becomes 0. -/
def zero_entries (first lo hi : Nat) : Nat → List Int → List Int
  | _, [] => []
  | k, v :: rest =>
      (if lo ≤ first + SIZEOF_INT * k ∧ first + SIZEOF_INT * k + SIZEOF_INT ≤ hi then 0 else v)
        :: zero_entries first lo hi (k + 1) rest

/-- The function `as_zero_region`,
`bzero((void *)PADDR_TO_KVADDR(paddr), npages * PAGE_SIZE)`, as far as the directory is
concerned. The table is itself in physical memory, from `coremap_firstaddr` on
(`coremap = (int*) PADDR_TO_KVADDR(coremap_firstaddr)`), so the entries that lie in the
region are set to 0. The regions `as_prepare_load` passes are frames, which start a whole
number of entries after the start of the table, so an entry lies wholly inside or wholly
outside the region. What `bzero` stores outside the table is not part of the state; that
is so in particular for the frame of the last entry, which reaches past
`coremap_lastaddr`. -/
def as_zero_region (s : Coremap) (paddr npages : Nat) : Coremap :=
  { s with coremap :=
      zero_entries s.coremap_firstaddr paddr (paddr + npages * PAGE_SIZE) 0 s.coremap }

/-- A page that starts at `paddr` shares bytes with the table. -/
def page_in_table (s : Coremap) (paddr : Nat) : Bool :=
  decide (paddr < coremap_table_end s ∧ s.coremap_firstaddr < paddr + PAGE_SIZE)

/-! ## Address spaces -/

/-- The structure `struct addrspace` with the fields `as_create` initialises (its
declaration in `addrspace.h` is not among the sources). A frame array (`paddr_t *`) is
`none` when the pointer is NULL and otherwise lists the slots of the array it points to. -/
structure addrspace where
  as_vbase1 : Nat
  as_pbase1 : Option (List Nat)
  as_npages1 : Nat
  as_vbase2 : Nat
  as_pbase2 : Option (List Nat)
  as_npages2 : Nat
  as_stackpbase : Option (List Nat)
  as_loadelf_complete : Bool
deriving DecidableEq

/-- The function `as_create` when `kmalloc` returns the control structure. -/
def as_create : addrspace :=
  { as_vbase1 := 0, as_pbase1 := none, as_npages1 := 0,
    as_vbase2 := 0, as_pbase2 := none, as_npages2 := 0,
    as_stackpbase := none, as_loadelf_complete := false }

/-- The cast `(int)` of a 32-bit unsigned value. -/
def to_int (n : Nat) : Int :=
  if n % 2 ^ 32 < 2 ^ 31 then ((n % 2 ^ 32 : Nat) : Int) else ((n % 2 ^ 32 : Nat) : Int) - 2 ^ 32

/-- One loop of `as_prepare_load` over a frame array: `fuel` iterations remain, `i` is the
loop variable, and the body is `arr[i] = getppages(1); if (arr[i] == 0) return ENOMEM;`
followed by `as_zero_region(arr[i], 1)`, which zero-fills the frame and with it the
directory entries that lie in the frame. The result is `none` when the store falls outside
the array, and otherwise tells whether the loop ran to its end, with the directory and the
array afterwards. -/
def prepare_loop : Nat → Nat → Coremap → List Nat → Option (Bool × Coremap × List Nat)
  | 0, _, s, arr => some (true, s, arr)
  | fuel + 1, i, s, arr =>
      if i < arr.length then
        if (getppages s 1).1 = 0 then some (false, (getppages s 1).2, arr.set i (getppages s 1).1)
        else
          prepare_loop fuel (i + 1) (as_zero_region (getppages s 1).2 (getppages s 1).1 1)
            (arr.set i (getppages s 1).1)
      else none

/-- One loop of `as_prepare_load`, `for (i = 0; i < np; i++)`, through the array pointer:
with no iteration the pointer is not used, and a NULL pointer cannot be stored through. -/
def prepare_segment (np : Nat) (s : Coremap) (arr : Option (List Nat)) :
    Option (Bool × Coremap × Option (List Nat)) :=
  match np, arr with
  | 0, arr => some (true, s, arr)
  | _ + 1, none => none
  | np + 1, some a =>
      match prepare_loop (np + 1) 0 s a with
      | none => none
      | some (ok, s1, a1) => some (ok, s1, some a1)

/-- The function `as_prepare_load` (OPT_A3). `kmalloc_stack` is what `kmalloc` returns for
the stack frame array: `none` for NULL, or the initial contents of the new array; `kmalloc`
itself is not among the sources and is taken to leave the directory as it is. Every frame
is zero-filled right after it has been reserved (`as_zero_region` in `prepare_loop`), which
clears the directory entries that lie in the frame. The result is `none` when a store falls
outside a frame array, and otherwise the returned code with the directory and the address
space afterwards. -/
def as_prepare_load (s : Coremap) (as : addrspace) (kmalloc_stack : Option (List Nat)) :
    Option (Int × Coremap × addrspace) :=
  let np1 := (to_int as.as_npages1).toNat
  let np2 := (to_int as.as_npages2).toNat
  match prepare_segment np1 s as.as_pbase1 with
  | none => none
  | some (false, s1, a1) => some (ENOMEM, s1, { as with as_pbase1 := a1 })
  | some (true, s1, a1) =>
    match prepare_segment np2 s1 as.as_pbase2 with
    | none => none
    | some (false, s2, a2) => some (ENOMEM, s2, { as with as_pbase1 := a1, as_pbase2 := a2 })
    | some (true, s2, a2) =>
      match kmalloc_stack with
      | none =>
        some (ENOMEM, s2, { as with as_pbase1 := a1, as_pbase2 := a2, as_stackpbase := none })
      | some st =>
        match prepare_segment DUMBVM_STACKPAGES s2 (some st) with
        | none => none
        | some (false, s3, st1) =>
          some (ENOMEM, s3, { as with as_pbase1 := a1, as_pbase2 := a2, as_stackpbase := st1 })
        | some (true, s3, st1) =>
          some (0, s3, { as with as_pbase1 := a1, as_pbase2 := a2, as_stackpbase := st1 })

/-- What `as_destroy` has done so far: the directory, the arguments of its calls of
`free_kpages` in order, and whether it has read a slot of a frame array that is NULL or
too short, where the embedding stops following it. -/
structure DestroyTrace where
  cm : Coremap
  released : List Nat
  bad_read : Bool
deriving DecidableEq

/-- One loop of `as_destroy` over a frame array: `fuel` iterations remain, `i` is the loop
variable, and the body is `free_kpages(PADDR_TO_KVADDR(arr[i]))`. -/
def destroy_loop (arr : Option (List Nat)) : Nat → Nat → DestroyTrace → DestroyTrace
  | 0, _, t => t
  | fuel + 1, i, t =>
      match arr with
      | none => { t with bad_read := true }
      | some a =>
          if i < a.length then
            destroy_loop arr fuel (i + 1)
              { t with cm := free_kpages t.cm (PADDR_TO_KVADDR (a.getD i 0)),
                       released := t.released ++ [PADDR_TO_KVADDR (a.getD i 0)] }
          else { t with bad_read := true }

/-- The function `as_destroy` (OPT_A3): the three loops over `as_pbase1`, `as_pbase2` and
`as_stackpbase`; `kfree(as)` does not touch the directory. -/
def as_destroy (s : Coremap) (as : addrspace) : DestroyTrace :=
  let np1 := (to_int as.as_npages1).toNat
  let np2 := (to_int as.as_npages2).toNat
  let t1 := destroy_loop as.as_pbase1 np1 0 { cm := s, released := [], bad_read := false }
  if t1.bad_read then t1 else
  let t2 := destroy_loop as.as_pbase2 np2 0 t1
  if t2.bad_read then t2 else
  destroy_loop as.as_stackpbase DUMBVM_STACKPAGES 0 t2

/-! ## Segments: `as_define_region`, `as_complete_load`, `as_copy` -/

/-- Modelled from the spec: the header constant `PAGE_FRAME` (MIPS `vm.h`, not among the
sources), the mask of the frame bits of a 32-bit address. -/
def PAGE_FRAME : Nat := 0xfffff000

/-- Modelled from the spec: the header constant `EUNIMP` (`kern/errno.h`, not among the
sources), the unimplemented-feature error code; only its being non-zero matters. -/
def EUNIMP : Int := 2

/-- The function `as_define_region`; the three permission flags are cast to `void` and
left out. `kmalloc_arr` is what `kmalloc` returns for the frame array: `none` for NULL, or
the initial contents of the new array. The result is `none` when the function panics
(no array for the second segment), and otherwise the returned code with the address space
afterwards. -/
def as_define_region (as : addrspace) (vaddr sz : Nat) (kmalloc_arr : Option (List Nat)) :
    Option (Int × addrspace) :=
  let sz1 := (sz + (vaddr &&& (2 ^ 32 - 1 - PAGE_FRAME))) % 2 ^ 32
  let vaddr1 := vaddr &&& PAGE_FRAME
  let sz2 := ((sz1 + PAGE_SIZE - 1) % 2 ^ 32) &&& PAGE_FRAME
  let npages := sz2 / PAGE_SIZE
  if as.as_vbase1 = 0 then
    some (0, { as with as_vbase1 := vaddr1, as_npages1 := npages, as_pbase1 := kmalloc_arr })
  else if as.as_vbase2 = 0 then
    match kmalloc_arr with
    | none => none
    | some arr =>
      some (0, { as with as_vbase2 := vaddr1, as_npages2 := npages, as_pbase2 := some arr })
  else some (EUNIMP, as)

/-- The function `as_complete_load`: `(void)as; return 0;`. -/
def as_complete_load (as : addrspace) : Int × addrspace := (0, as)

/-- What `as_copy` hands back: the returned code, the directory, `*ret` when it has been
set, and, when `as_copy` has called `as_destroy` on the duplicate, the calls of
`free_kpages` made there and whether a missing slot was read. `table_overwritten` tells
whether a `memmove` of `as_copy` has stored into a page that shares bytes with the table:
the entries there then hold bytes of the source frame, which are not part of the state,
and `cm` is the directory as it was before the `memmove` loops. -/
structure CopyResult where
  code : Int
  cm : Coremap
  ret : Option addrspace
  released : List Nat
  bad_read : Bool
  table_overwritten : Bool
deriving DecidableEq

/-- The loads `arr[i]` for `i < np` of a `memmove` loop of `as_copy` stay inside the array. -/
def slots_readable (np : Nat) (arr : Option (List Nat)) : Bool :=
  match np, arr with
  | 0, _ => true
  | _ + 1, none => false
  | np + 1, some a => decide (np + 1 ≤ a.length)

/-- One `memmove` loop of `as_copy`, `for (i = 0; i < np; i++)`, stores into a page that
shares bytes with the table: the destinations are the frames in the first `np` slots of the
frame array of the duplicate. -/
def memmove_hits_table (s : Coremap) (np : Nat) (arr : Option (List Nat)) : Bool :=
  ((arr.getD []).take np).any (page_in_table s)

/-- The function `as_copy` (OPT_A3). `kmalloc_as` tells whether `as_create` gets its
structure; `k1`, `k2`, `k3` are what `kmalloc` returns for the three frame arrays of the
duplicate and `k4` what it returns inside `as_prepare_load`. The `memmove` loops store the
bytes of the frames of the source into the frames of the duplicate; the result records
whether one of these frames shares bytes with the table (`table_overwritten`). The result
is `none` when the kernel stops (a store or load outside a frame array, or a failed
`KASSERT`). -/
def as_copy (s : Coremap) (old : addrspace) (kmalloc_as : Bool)
    (k1 k2 k3 k4 : Option (List Nat)) : Option CopyResult :=
  if kmalloc_as = false then
    some { code := ENOMEM, cm := s, ret := none, released := [], bad_read := false,
           table_overwritten := false }
  else
    let new : addrspace :=
      { as_create with
        as_vbase1 := old.as_vbase1, as_npages1 := old.as_npages1,
        as_vbase2 := old.as_vbase2, as_npages2 := old.as_npages2,
        as_pbase1 := k1, as_pbase2 := k2, as_stackpbase := k3 }
    match as_prepare_load s new k4 with
    | none => none
    | some (code, s1, new1) =>
      if code ≠ 0 then
        some { code := ENOMEM, cm := (as_destroy s1 new1).cm, ret := none,
               released := (as_destroy s1 new1).released,
               bad_read := (as_destroy s1 new1).bad_read, table_overwritten := false }
      else if new1.as_pbase1 = none ∨ new1.as_pbase2 = none ∨ new1.as_stackpbase = none then
        none
      else if slots_readable (to_int old.as_npages1).toNat old.as_pbase1 = false ∨
          slots_readable (to_int old.as_npages2).toNat old.as_pbase2 = false ∨
          slots_readable DUMBVM_STACKPAGES old.as_stackpbase = false then
        none
      else
        some { code := 0, cm := s1, ret := some new1, released := [], bad_read := false,
               table_overwritten :=
                 memmove_hits_table s1 (to_int old.as_npages1).toNat new1.as_pbase1 ||
                 memmove_hits_table s1 (to_int old.as_npages2).toNat new1.as_pbase2 ||
                 memmove_hits_table s1 DUMBVM_STACKPAGES new1.as_stackpbase }

/-! ## The translation cache and `vm_fault` -/

/-- Modelled from the spec: the header constant `USERSTACK` (MIPS `vm.h`, not among the
sources), the top of the user stack, which is the top of user space. -/
def USERSTACK : Nat := 0x80000000

/-- Modelled from the spec: the header constant `NUM_TLB` (MIPS `tlb.h`, not among the
sources), the number of slots of the translation cache. -/
def NUM_TLB : Nat := 64

/-- Modelled from the spec: the header constant `TLBLO_VALID` (MIPS `tlb.h`, not among the
sources), the valid bit of the low word of an entry. -/
def TLBLO_VALID : Nat := 0x200

/-- Modelled from the spec: the header constant `TLBLO_DIRTY` (MIPS `tlb.h`, not among the
sources), the write-enable bit of the low word of an entry. -/
def TLBLO_DIRTY : Nat := 0x400

/-- Modelled from the spec: the header constant `VM_FAULT_READ` (`vm.h`, not among the
sources), the fault kind of a read miss. -/
def VM_FAULT_READ : Int := 0

/-- Modelled from the spec: the header constant `VM_FAULT_WRITE` (`vm.h`, not among the
sources), the fault kind of a write miss. -/
def VM_FAULT_WRITE : Int := 1

/-- Modelled from the spec: the header constant `VM_FAULT_READONLY` (`vm.h`, not among the
sources), the fault kind of a write to a read-only entry. -/
def VM_FAULT_READONLY : Int := 2

/-- Modelled from the spec: the header constant `EFAULT` (`kern/errno.h`, not among the
sources), the bad-memory-reference error code. -/
def EFAULT : Int := 6

/-- Modelled from the spec: the header constant `EINVAL` (`kern/errno.h`, not among the
sources), the invalid-argument error code. -/
def EINVAL : Int := 8

/-- Modelled from the spec: the hardware translation cache, one pair of words
(`entryhi`, `entrylo`) per slot. -/
abbrev TLB : Type := List (Nat × Nat)

/-- Modelled from the spec: the hardware operation `tlb_read` (MIPS `tlb.h`, not among the
sources), which loads the two words of slot `i`. -/
def tlb_read (tlb : TLB) (i : Nat) : Nat × Nat := tlb.getD i (0, 0)

/-- Modelled from the spec: the hardware operation `tlb_write` (MIPS `tlb.h`, not among the
sources), which stores the two words into slot `i`. -/
def tlb_write (tlb : TLB) (ehi elo : Nat) (i : Nat) : TLB := tlb.set i (ehi, elo)

/-- Modelled from the spec: the hardware operation `tlb_random` (MIPS `tlb.h`, not among
the sources), which stores the two words into a slot the hardware picks, here `rand`. -/
def tlb_random (tlb : TLB) (ehi elo : Nat) (rand : Nat) : TLB := tlb.set rand (ehi, elo)

/-- The load `arr[0]` of a frame array in `vm_fault`; `none` when there is no such slot. -/
def first_slot (arr : Option (List Nat)) : Option Nat :=
  match arr with
  | some (p :: _) => some p
  | _ => none

/-- The local `vtop1` of `vm_fault`: `vbase1 + as->as_npages1 * PAGE_SIZE`, 32-bit. -/
def vtop1 (as : addrspace) : Nat :=
  (as.as_vbase1 + (as.as_npages1 * PAGE_SIZE) % 2 ^ 32) % 2 ^ 32

/-- The local `vtop2` of `vm_fault`: `vbase2 + as->as_npages2 * PAGE_SIZE`, 32-bit. -/
def vtop2 (as : addrspace) : Nat :=
  (as.as_vbase2 + (as.as_npages2 * PAGE_SIZE) % 2 ^ 32) % 2 ^ 32

/-- The local `stackbase` of `vm_fault`: `USERSTACK - DUMBVM_STACKPAGES * PAGE_SIZE`. -/
def stackbase : Nat := (USERSTACK + 2 ^ 32 - DUMBVM_STACKPAGES * PAGE_SIZE) % 2 ^ 32

/-- The local `stacktop` of `vm_fault`. -/
def stacktop : Nat := USERSTACK

/-- The word `elo` `vm_fault` builds: `paddr | TLBLO_DIRTY | TLBLO_VALID`, and
`elo &= ~TLBLO_DIRTY` when `as->as_loadelf_complete && text_segment`. -/
def vm_fault_entrylo (paddr : Nat) (readonly : Bool) : Nat :=
  if readonly then (paddr ||| TLBLO_DIRTY ||| TLBLO_VALID) &&& (2 ^ 32 - 1 - TLBLO_DIRTY)
  else paddr ||| TLBLO_DIRTY ||| TLBLO_VALID

/-- The loop of `vm_fault` over the slots: `fuel` iterations remain, `i` is the loop
variable; a valid slot is skipped and the first other slot is written. The result is `none`
when the loop ends without a write. -/
def vm_fault_tlb_loop (tlb : TLB) (ehi elo : Nat) : Nat → Nat → Option TLB
  | 0, _ => none
  | fuel + 1, i =>
      if (tlb_read tlb i).2 &&& TLBLO_VALID ≠ 0 then vm_fault_tlb_loop tlb ehi elo fuel (i + 1)
      else some (tlb_write tlb ehi elo i)

/-- The translation cache after `vm_fault` has installed an entry: the loop
`for (i = 0; i < NUM_TLB; i++)`, and `tlb_random` when every slot is valid. -/
def tlb_install (tlb : TLB) (rand : Nat) (ehi elo : Nat) : TLB :=
  match vm_fault_tlb_loop tlb ehi elo NUM_TLB 0 with
  | some tlb1 => tlb1
  | none => tlb_random tlb ehi elo rand

/-- The end of `vm_fault`, from `KASSERT((paddr & PAGE_FRAME) == paddr)` on: the entry is
installed and 0 returned; `none` when the assertion fails. -/
def vm_fault_install (as : addrspace) (tlb : TLB) (rand : Nat) (faultaddress paddr : Nat)
    (text_segment : Bool) : Option (Int × TLB) :=
  if paddr &&& PAGE_FRAME ≠ paddr then none
  else some (0, tlb_install tlb rand faultaddress
    (vm_fault_entrylo paddr (as.as_loadelf_complete && text_segment)))

/-- The function `vm_fault` (OPT_A3). `curproc` is `none` when there is no current process
and `some none` when the process has no address space; `rand` is the slot `tlb_random`
would pick. The result is `none` when a `KASSERT` fails or a frame array has no first slot,
and otherwise the returned code with the translation cache afterwards. -/
def vm_fault (faulttype : Int) (faultaddress : Nat) (curproc : Option (Option addrspace))
    (tlb : TLB) (rand : Nat) : Option (Int × TLB) :=
  let faultaddress := faultaddress &&& PAGE_FRAME
  if faulttype = VM_FAULT_READONLY then some (EFAULT, tlb)
  else if faulttype = VM_FAULT_READ ∨ faulttype = VM_FAULT_WRITE then
    match curproc with
    | none => some (EFAULT, tlb)
    | some none => some (EFAULT, tlb)
    | some (some as) =>
      if as.as_vbase1 = 0 ∨ as.as_npages1 = 0 ∨ as.as_vbase2 = 0 ∨ as.as_npages2 = 0 ∨
          as.as_vbase1 &&& PAGE_FRAME ≠ as.as_vbase1 ∨
          as.as_vbase2 &&& PAGE_FRAME ≠ as.as_vbase2 then none
      else if as.as_vbase1 ≤ faultaddress ∧ faultaddress < vtop1 as then
        match first_slot as.as_pbase1 with
        | none => none
        | some p =>
          vm_fault_install as tlb rand faultaddress
            (((faultaddress + 2 ^ 32 - as.as_vbase1) % 2 ^ 32 + p) % 2 ^ 32) true
      else if as.as_vbase2 ≤ faultaddress ∧ faultaddress < vtop2 as then
        match first_slot as.as_pbase2 with
        | none => none
        | some p =>
          vm_fault_install as tlb rand faultaddress
            (((faultaddress + 2 ^ 32 - as.as_vbase2) % 2 ^ 32 + p) % 2 ^ 32) false
      else if stackbase ≤ faultaddress ∧ faultaddress < stacktop then
        match first_slot as.as_stackpbase with
        | none => none
        | some p =>
          vm_fault_install as tlb rand faultaddress
            (((faultaddress + 2 ^ 32 - stackbase) % 2 ^ 32 + p) % 2 ^ 32) false
      else some (EFAULT, tlb)
  else some (EINVAL, tlb)

/-! ## `as_activate`, `as_deactivate` -/

/-- Modelled from the spec: the header macro `TLBHI_INVALID` (MIPS `tlb.h`, not among the
sources), the high word of an invalid entry for slot `entryno`:
`(0x80000 + entryno) << 12`, 32-bit. -/
def TLBHI_INVALID (entryno : Nat) : Nat := ((0x80000 + entryno) * 2 ^ 12) % 2 ^ 32

/-- Modelled from the spec: the header macro `TLBLO_INVALID` (MIPS `tlb.h`, not among the
sources), the low word of an invalid entry: the valid bit is clear. -/
def TLBLO_INVALID : Nat := 0

/-- The state the functions of this file work on: the frame directory, the translation
cache and the address space of the current process (`curproc_getas()`, `none` for NULL). -/
structure KernelState where
  cm : Coremap
  tlb : TLB
  curproc_as : Option addrspace
deriving DecidableEq

/-- The loop of `as_activate`: `fuel` iterations remain, `i` is the loop variable, and the
body is `tlb_write(TLBHI_INVALID(i), TLBLO_INVALID(), i)`. -/
def as_activate_loop : Nat → Nat → TLB → TLB
  | 0, _, tlb => tlb
  | fuel + 1, i, tlb =>
      as_activate_loop fuel (i + 1) (tlb_write tlb (TLBHI_INVALID i) TLBLO_INVALID i)

/-- The function `as_activate`: `if (as == NULL) return;`, then
`for (i = 0; i < NUM_TLB; i++)`. -/
def as_activate (k : KernelState) : KernelState :=
  match k.curproc_as with
  | none => k
  | some _ => { k with tlb := as_activate_loop NUM_TLB 0 k.tlb }

/-- The function `as_deactivate`: its body is empty. -/
def as_deactivate (k : KernelState) : KernelState := k

/-! ## The scan of `reserve` in the words of the specification -/

/-- The length of the maximal run of free frames that starts at entry `i` (inclusive), at
most `fuel` entries long. -/
def reserve_run_length (cm : List Int) : Nat → Nat → Nat
  | 0, _ => 0
  | fuel + 1, i => if cm_read cm i = 0 then 1 + reserve_run_length cm fuel (i + 1) else 0

/-- The run markers 1, 2, 3, ... written for the `n` consumed frames from entry `i` on. -/
def reserve_write_markers (cm : List Int) (i n : Nat) : List Int :=
  (List.range cm.length).map
    (fun k => if i ≤ k ∧ k < i + n then ((k - i + 1 : Nat) : Int) else cm_read cm k)

/-- The scan of `reserve` as the specification words it, from entry `i` on: at a free
frame the length of the maximal free run that starts there is counted; when it meets the
requested size the markers are written and the address of the first frame of the run is
returned; otherwise the scan goes on past the whole examined run. At a used frame the scan
goes on with the next one. `fuel` bounds the number of steps; the result is 0 when no run
is found. -/
def reserve_scan (s : Coremap) (n : Nat) : Nat → Nat → Nat × Coremap
  | 0, _ => (0, s)
  | fuel + 1, i =>
      if valid_page_num s ≤ i then (0, s)
      else if cm_read s.coremap i = 0 then
        if n ≤ reserve_run_length s.coremap (valid_page_num s - i) i then
          (frame_paddr s i, { s with coremap := reserve_write_markers s.coremap i n })
        else reserve_scan s n fuel (i + reserve_run_length s.coremap (valid_page_num s - i) i)
      else reserve_scan s n fuel (i + 1)

/-- The operation `reserve(n)` of the specification on the directory: the scan from the
first frame, with one step for every frame of the region at most. -/
def reserve (s : Coremap) (n : Nat) : Nat × Coremap :=
  reserve_scan s n (valid_page_num s) 0

/-! ## `sys_fork` (`kern/syscall/proc_syscalls.c`) -/

/-- Modelled from the spec: the header constant `PID_MIN` (`limits.h`, not among the
sources), the lowest process id. -/
def PID_MIN : Int := 2

/-- Modelled from the spec: the header constant `PID_MAX` (`limits.h`, not among the
sources), the highest process id. -/
def PID_MAX : Int := 32767

/-- Modelled from the spec: the header constant `ENPROC` (`kern/errno.h`, not among the
sources), the error code for too many processes; only its being non-zero matters. -/
def ENPROC : Int := 12

/-- What a call of `sys_fork` that returns has done: the returned code, the value stored
through `retval` if any, the directory, the address space of the child
(`new_proc->p_addrspace`, which `as_copy` sets only on success), and whether the child was
added to `curproc->children`, the trap frame copied, and `thread_fork` called. -/
structure ForkResult where
  code : Int
  retval : Option Int
  cm : Coremap
  child_as : Option addrspace
  child_registered : Bool
  trapframe_copied : Bool
  thread_forked : Bool
deriving DecidableEq

/-- The function `sys_fork`. The calls that are not among the sources are taken by their
outcome: `new_proc` is the pid of the process `proc_create_runprogram` returns (`none` for
NULL), `kmalloc_child` and `kmalloc_tf` tell whether the two calls of `kmalloc` return a
block, `err2` is what `thread_fork` returns, and the remaining arguments are those of
`as_copy`. The result is `none` when an assertion fails or `panic` is called, which does
not return. -/
def sys_fork (s : Coremap) (curproc_as : addrspace) (pid_counter : Int)
    (new_proc : Option Int) (kmalloc_as : Bool) (k1 k2 k3 k4 : Option (List Nat))
    (kmalloc_child kmalloc_tf : Bool) (err2 : Int) : Option ForkResult :=
  if pid_counter < PID_MIN then none
  else if pid_counter > PID_MAX then
    some { code := ENPROC, retval := none, cm := s, child_as := none,
           child_registered := false, trapframe_copied := false, thread_forked := false }
  else
    match new_proc with
    | none => none
    | some pid =>
      match as_copy s curproc_as kmalloc_as k1 k2 k3 k4 with
      | none => none
      | some r =>
        let err1 := r.code
        if err1 = 1 then none
        else if kmalloc_child = false then none
        else if kmalloc_tf = false then none
        else if err2 = 1 then none
        else
          some { code := 0, retval := some pid, cm := r.cm, child_as := r.ret,
                 child_registered := true, trapframe_copied := true, thread_forked := true }

/-! ## The intersection (`kern/synchprobs/traffic_synch.c`) -/

/-- Modelled from the spec: the type `Direction` (declared in `synchprobs.h`, which is not
among the sources), the four directions a vehicle can come from and go to. -/
inductive Direction where
  | north
  | east
  | south
  | west
deriving DecidableEq, Fintype

/-- The function `int_to_dir`; the argument is one of the loop indices 0 to 3. -/
def int_to_dir (x : Nat) : Direction :=
  if x = 0 then Direction.north
  else if x = 1 then Direction.south
  else if x = 2 then Direction.west
  else Direction.east

/-- The function `dir_to_int`. -/
def dir_to_int (dir : Direction) : Nat :=
  if dir = Direction.north then 0
  else if dir = Direction.south then 1
  else if dir = Direction.west then 2
  else 3

/-- The function `checkTurnRight`. -/
def checkTurnRight (origin destination : Direction) : Bool :=
  if origin = Direction.north ∧ destination = Direction.west then true
  else if origin = Direction.south ∧ destination = Direction.east then true
  else if origin = Direction.west ∧ destination = Direction.south then true
  else if origin = Direction.east ∧ destination = Direction.north then true
  else false

/-- The function `checkConflict`: it returns true when the two vehicles may be in the
intersection together. -/
def checkConflict (o1 d1 o2 d2 : Direction) : Bool :=
  if o1 = o2 then true
  else if o1 = d2 ∧ d1 = o2 then true
  else if d1 ≠ d2 ∧ (checkTurnRight o1 d1 = true ∨ checkTurnRight o2 d2 = true) then true
  else false

/-- The static array `numVehiclesInInter[4][4]` of C `int`s: the entry at `i`, `j` counts the
vehicles inside that came from `int_to_dir i` and go to `int_to_dir j`. A vehicle inside is
a thread of the simulation, so the counts stay far below `2 ^ 31` and the additions are
taken without wrap-around. -/
abbrev Intersection : Type := Nat → Nat → Int

/-- The inner loop of `couldEnter`, `for (j = 0; j < 4; j++)` in row `i`: `fuel` iterations
remain, `j` is the loop variable; the result is false when the body returns false. -/
def couldEnter_inner (m : Intersection) (origin destination : Direction) (i : Nat) :
    Nat → Nat → Bool
  | 0, _ => true
  | fuel + 1, j =>
      if m i j > 0 ∧ checkConflict origin destination (int_to_dir i) (int_to_dir j) = false
      then false
      else couldEnter_inner m origin destination i fuel (j + 1)

/-- The outer loop of `couldEnter`, `for (i = 0; i < 4; i++)`: `fuel` iterations remain,
`i` is the loop variable. -/
def couldEnter_outer (m : Intersection) (origin destination : Direction) : Nat → Nat → Bool
  | 0, _ => true
  | fuel + 1, i =>
      if couldEnter_inner m origin destination i 4 0 = false then false
      else couldEnter_outer m origin destination fuel (i + 1)

/-- The function `couldEnter`. -/
def couldEnter (m : Intersection) (origin destination : Direction) : Bool :=
  couldEnter_outer m origin destination 4 0

/-- The array after `intersection_sync_init`: every count is 0. -/
def intersection_sync_init : Intersection := fun _ _ => 0

/-- The store `numVehiclesInInter[i][j] = v`. -/
def inter_write (m : Intersection) (i j : Nat) (v : Int) : Intersection :=
  fun a b => if a = i ∧ b = j then v else m a b

/-- The function `intersection_before_entry`, run with the lock held: while `couldEnter`
is false the thread waits on its condition variable and the array is not changed by it
(`none`); the loop tests `couldEnter` again each time the thread wakes, so the increment
`numVehiclesInInter[temp_origin][temp_destination] += 1` is made in a state in which
`couldEnter` is true. -/
def intersection_before_entry (m : Intersection) (origin destination : Direction) :
    Option Intersection :=
  let temp_origin := dir_to_int origin
  let temp_destination := dir_to_int destination
  if couldEnter m origin destination = false then none
  else some (inter_write m temp_origin temp_destination (m temp_origin temp_destination + 1))

/-- The function `intersection_after_exit`, run with the lock held: the broadcasts do not
change the array, and the count of the vehicle is decremented. -/
def intersection_after_exit (m : Intersection) (origin destination : Direction) :
    Intersection :=
  let temp_origin := dir_to_int origin
  let temp_destination := dir_to_int destination
  inter_write m temp_origin temp_destination (m temp_origin temp_destination - 1)

/-! ## Predicates on the frame directory -/

/-- A directory is well formed when the bounds are those `ram_getsize` can report
(`first ≤ last`, both 32-bit) and the table has one entry per frame of the region. -/
def Coremap.wf (s : Coremap) : Prop :=
  s.coremap_firstaddr ≤ s.coremap_lastaddr ∧ s.coremap_lastaddr < 2 ^ 32 ∧
    s.coremap.length = valid_page_num s

instance (s : Coremap) : Decidable s.wf := by
  unfold Coremap.wf; infer_instance

/-- Entries `i .. i + n - 1` exist and are all free. -/
def free_run (s : Coremap) (i n : Nat) : Prop :=
  i + n ≤ valid_page_num s ∧ ∀ k, k < n → cm_read s.coremap (i + k) = 0

instance (s : Coremap) (i n : Nat) : Decidable (free_run s i n) := by
  unfold free_run; infer_instance

/-- The frame-directory invariant: every entry is 0, 1, or exactly one more than its
predecessor (the first entry has no predecessor). -/
def run_invariant (cm : List Int) : Prop :=
  ∀ k, k < cm.length →
    cm_read cm k = 0 ∨ cm_read cm k = 1 ∨ (0 < k ∧ cm_read cm k = cm_read cm (k - 1) + 1)

instance (cm : List Int) : Decidable (run_invariant cm) := by
  unfold run_invariant; infer_instance

/-- The table `cm` with the entries `a .. e - 1` set to free. -/
def clear_range (cm : List Int) (a e : Nat) : List Int :=
  (List.range cm.length).map (fun k => if a ≤ k ∧ k < e then 0 else cm_read cm k)

/-- The number of free entries of the directory. -/
def free_count (s : Coremap) : Nat := s.coremap.count 0

/-- The directory `s` with the entries listed in `L` marked as runs of one frame. -/
def mark_used (s : Coremap) (L : List Nat) : Coremap :=
  { s with coremap := L.foldl (fun cm j => cm.set j 1) s.coremap }

/-- The entries listed in `L` are distinct entries of the table that are free in `s`. -/
def all_free (s : Coremap) (L : List Nat) : Prop :=
  L.Nodup ∧ ∀ j, j ∈ L → j < s.coremap.length ∧ cm_read s.coremap j = 0

/-! ## Sample states -/

/-- A directory of 7 frames with two allocated runs. -/
def sample_coremap : Coremap :=
  { coremap := [1, 0, 1, 2, 0, 0, 0], coremap_firstaddr := 0x40000, coremap_lastaddr := 0x47000 }

/-- A directory of 20 frames, the first two allocated. -/
def sample_coremap20 : Coremap :=
  { coremap := [1, 2] ++ List.replicate 18 0,
    coremap_firstaddr := 0x40000, coremap_lastaddr := 0x54000 }

/-- A directory of 4 frames with a single free frame, the last one. -/
def sample_coremap_full : Coremap :=
  { coremap := [1, 2, 1, 0], coremap_firstaddr := 0x40000, coremap_lastaddr := 0x44000 }

/-- An address space with segments of 3 and 2 pages, as two calls of `as_define_region`
leave it: the frame arrays exist and `as_prepare_load` has not run. -/
def sample_as : addrspace :=
  { as_vbase1 := 0x400000, as_pbase1 := some [0, 0, 0], as_npages1 := 3,
    as_vbase2 := 0x10000000, as_pbase2 := some [0, 0], as_npages2 := 2,
    as_stackpbase := none, as_loadelf_complete := false }

/-- The contents of a new stack frame array of 12 slots. -/
def sample_stack : List Nat := List.replicate 12 0

/-- The directory `sample_coremap20` after `as_prepare_load` on `sample_as`. -/
def sample_coremap20_loaded : Coremap :=
  { coremap := [1, 2] ++ List.replicate 17 1 ++ [0],
    coremap_firstaddr := 0x40000, coremap_lastaddr := 0x54000 }

/-- The address space `sample_as` after `as_prepare_load` on `sample_coremap20`. -/
def sample_as_loaded : addrspace :=
  { sample_as with
    as_pbase1 := some [0x43000, 0x44000, 0x45000],
    as_pbase2 := some [0x46000, 0x47000],
    as_stackpbase := some [0x48000, 0x49000, 0x4a000, 0x4b000, 0x4c000, 0x4d000, 0x4e000,
      0x4f000, 0x50000, 0x51000, 0x52000, 0x53000] }

/-- The frame addresses held in the three frame arrays of an address space. -/
def frames_of (as : addrspace) : List Nat :=
  as.as_pbase1.getD [] ++ as.as_pbase2.getD [] ++ as.as_stackpbase.getD []

/-- The address space passes the assertions of `vm_fault`: both segments are defined with
a page-aligned base, and each of the three frame arrays has a first slot that holds a
page-aligned 32-bit address. -/
def set_up (as : addrspace) (p1 p2 p3 : Nat) : Prop :=
  as.as_vbase1 ≠ 0 ∧ as.as_npages1 ≠ 0 ∧ as.as_vbase2 ≠ 0 ∧ as.as_npages2 ≠ 0 ∧
  as.as_vbase1 &&& PAGE_FRAME = as.as_vbase1 ∧ as.as_vbase2 &&& PAGE_FRAME = as.as_vbase2 ∧
  first_slot as.as_pbase1 = some p1 ∧ first_slot as.as_pbase2 = some p2 ∧
  first_slot as.as_stackpbase = some p3 ∧
  p1 &&& PAGE_FRAME = p1 ∧ p2 &&& PAGE_FRAME = p2 ∧ p3 &&& PAGE_FRAME = p3

instance (as : addrspace) (p1 p2 p3 : Nat) : Decidable (set_up as p1 p2 p3) := by
  unfold set_up; infer_instance

/-- The address space `sample_as_loaded` once image loading has been marked complete. -/
def sample_as_complete : addrspace :=
  { sample_as_loaded with as_loadelf_complete := true }

/-- A translation cache whose 64 slots are all invalid. -/
def sample_tlb : TLB := List.replicate 64 (0, 0)

/-- A translation cache whose 64 slots are all valid. -/
def sample_tlb_full : TLB := List.replicate 64 (0x1000, 0x1600)

/-- A directory of 40 frames in which `sample_as_loaded` is loaded (entries 2 to 18) and
21 frames are free. -/
def sample_coremap40 : Coremap :=
  { coremap := [1, 2] ++ List.replicate 17 1 ++ List.replicate 21 0,
    coremap_firstaddr := 0x40000, coremap_lastaddr := 0x68000 }

/-- What `as_copy` of `sample_as_loaded` hands back on `sample_coremap40`. -/
def sample_copy : CopyResult :=
  { code := 0,
    cm := { coremap := [1, 2] ++ List.replicate 34 1 ++ List.replicate 4 0,
            coremap_firstaddr := 0x40000, coremap_lastaddr := 0x68000 },
    ret := some
      { as_vbase1 := 0x400000, as_pbase1 := some [0x54000, 0x55000, 0x56000], as_npages1 := 3,
        as_vbase2 := 0x10000000, as_pbase2 := some [0x57000, 0x58000], as_npages2 := 2,
        as_stackpbase := some [0x59000, 0x5a000, 0x5b000, 0x5c000, 0x5d000, 0x5e000, 0x5f000,
          0x60000, 0x61000, 0x62000, 0x63000, 0x64000],
        as_loadelf_complete := false },
    released := [], bad_read := false, table_overwritten := false }

/-- The address space after one call of `as_define_region`, for 3 pages at `0x10000000`. -/
def sample_as_one_region : addrspace :=
  { as_create with
    as_vbase1 := 0x10000000, as_npages1 := 3, as_pbase1 := some [0, 0, 0] }

/-- The address space `sample_as_loaded` with its two segments defined in the other order:
the segment at `0x10000000` first, the segment at `0x400000` second. -/
def sample_as_swapped : addrspace :=
  { as_vbase1 := 0x10000000, as_pbase1 := some [0x43000, 0x44000, 0x45000], as_npages1 := 3,
    as_vbase2 := 0x400000, as_pbase2 := some [0x46000, 0x47000], as_npages2 := 2,
    as_stackpbase := some [0x48000, 0x49000, 0x4a000, 0x4b000, 0x4c000, 0x4d000, 0x4e000,
      0x4f000, 0x50000, 0x51000, 0x52000, 0x53000],
    as_loadelf_complete := false }

/-- A state in which the current thread is a kernel thread (no address space) and every
slot of the translation cache is valid. -/
def sample_kernel_thread : KernelState :=
  { cm := sample_coremap20_loaded, tlb := sample_tlb_full, curproc_as := none }

/-- A state in which the current process has the address space `sample_as_loaded` and every
slot of the translation cache is valid. -/
def sample_user_process : KernelState :=
  { cm := sample_coremap20_loaded, tlb := sample_tlb_full, curproc_as := some sample_as_loaded }

/-- The directory of 20 frames after two reservations of one frame and the release of the
first: entry 0 is free, entry 1 is allocated. -/
def sample_coremap_gap : Coremap :=
  { coremap := [0, 1] ++ List.replicate 18 0,
    coremap_firstaddr := 0x40000, coremap_lastaddr := 0x54000 }

/-- An address space with a first segment of 2 pages and a second segment of 1 page, as two
calls of `as_define_region` leave it. -/
def sample_as_small : addrspace :=
  { as_vbase1 := 0x400000, as_pbase1 := some [0, 0], as_npages1 := 2,
    as_vbase2 := 0x10000000, as_pbase2 := some [0], as_npages2 := 1,
    as_stackpbase := none, as_loadelf_complete := false }

/-- The address space `sample_as_small` after `as_prepare_load` on `sample_coremap_gap`:
the two frames of the first segment are those of entries 0 and 2. -/
def sample_as_small_loaded : addrspace :=
  { sample_as_small with
    as_pbase1 := some [0x41000, 0x43000],
    as_pbase2 := some [0x44000],
    as_stackpbase := some [0x45000, 0x46000, 0x47000, 0x48000, 0x49000, 0x4a000, 0x4b000,
      0x4c000, 0x4d000, 0x4e000, 0x4f000, 0x50000] }

/-- A directory of 6 frames with a run of 3 frames followed by a run of 1 frame. -/
def sample_coremap_run3 : Coremap :=
  { coremap := [1, 2, 3, 1, 0, 0], coremap_firstaddr := 0x40000, coremap_lastaddr := 0x46000 }

/-- The states of the intersection that can be reached: the one `intersection_sync_init`
leaves, a reachable state after a vehicle has entered through
`intersection_before_entry`, and a reachable state after a vehicle that is inside has
left through `intersection_after_exit`. -/
inductive Reachable : Intersection → Prop where
  | init : Reachable intersection_sync_init
  | entry (m m1 : Intersection) (origin destination : Direction) :
      Reachable m → intersection_before_entry m origin destination = some m1 → Reachable m1
  | exit (m : Intersection) (origin destination : Direction) :
      Reachable m → 0 < m (dir_to_int origin) (dir_to_int destination) →
      Reachable (intersection_after_exit m origin destination)

/-- The intersection with one vehicle inside, going from north to south. -/
def sample_inter1 : Intersection :=
  inter_write intersection_sync_init 0 1 1

/-- The intersection with two vehicles inside, one from north to south and one from south
to north. -/
def sample_inter2 : Intersection :=
  inter_write sample_inter1 1 0 1

/-- A directory of 1280 frames (the range `0x100000 .. 0x600000`, 5 MB): the first 16
entries are free and every other entry is an allocated run of one frame. The table
occupies the bytes `0x100000 .. 0x101400`, and the frame of entry 0 starts at `0x101000`,
where entry 1024 lies. -/
def sample_coremap_big16 : Coremap :=
  { coremap := List.replicate 16 0 ++ List.replicate 1264 1,
    coremap_firstaddr := 0x100000, coremap_lastaddr := 0x600000 }

/-- The directory `sample_coremap_big16` after `as_prepare_load` on `sample_as`: the
entries 0 to 15 and the entry 1024 are marked, and the entries 1025 to 1279 hold 0. -/
def sample_coremap_big16_loaded : Coremap :=
  { coremap := List.replicate 1025 1 ++ List.replicate 255 0,
    coremap_firstaddr := 0x100000, coremap_lastaddr := 0x600000 }

/-- The address space `sample_as` after `as_prepare_load` on `sample_coremap_big16`: the
frames of the entries 0 to 15 and, in the last slot of the stack, the frame of entry
1024. -/
def sample_as_big16_loaded : addrspace :=
  { sample_as with
    as_pbase1 := some [0x101000, 0x102000, 0x103000],
    as_pbase2 := some [0x104000, 0x105000],
    as_stackpbase := some [0x106000, 0x107000, 0x108000, 0x109000, 0x10a000, 0x10b000,
      0x10c000, 0x10d000, 0x10e000, 0x10f000, 0x110000, 0x501000] }

/-- An address space of the shape of `sample_as` whose 17 frames are those of the entries
1024 to 1040 of `sample_coremap_big16`, which are allocated there. -/
def sample_as_high : addrspace :=
  { sample_as with
    as_pbase1 := some [0x501000, 0x502000, 0x503000],
    as_pbase2 := some [0x504000, 0x505000],
    as_stackpbase := some [0x506000, 0x507000, 0x508000, 0x509000, 0x50a000, 0x50b000,
      0x50c000, 0x50d000, 0x50e000, 0x50f000, 0x510000, 0x511000] }

/-- The directory `sample_coremap_big16` after 11 of the 12 iterations of the stack loop of
`as_prepare_load` on `sample_as`: the lowest free entry is now entry 1024. -/
def sample_coremap_big16_stack11 : Coremap :=
  { coremap := List.replicate 1024 1 ++ List.replicate 256 0,
    coremap_firstaddr := 0x100000, coremap_lastaddr := 0x600000 }

/-- A directory of 1280 frames (the range `0x100000 .. 0x600000`, 5 MB) with 17 free
entries, the first 17: the state after `vm_bootstrap`, 1280 reservations of one frame and
the release of the first 17 of them. The entries 1024 to 1279 lie in the frame of entry 0,
which starts at `0x101000`. -/
def sample_coremap_big17 : Coremap :=
  { coremap := List.replicate 17 0 ++ List.replicate 1263 1,
    coremap_firstaddr := 0x100000, coremap_lastaddr := 0x600000 }

/-- The directory `sample_coremap_big17` after `as_prepare_load` on `sample_as`: the entries
0 to 16 are marked and the entries 1024 to 1279 hold 0. -/
def sample_coremap_big17_loaded : Coremap :=
  { coremap := List.replicate 1024 1 ++ List.replicate 256 0,
    coremap_firstaddr := 0x100000, coremap_lastaddr := 0x600000 }

/-- The address space `sample_as` after `as_prepare_load` on `sample_coremap_big17`: the
frames of the entries 0 to 16. -/
def sample_as_big17_loaded : addrspace :=
  { sample_as with
    as_pbase1 := some [0x101000, 0x102000, 0x103000],
    as_pbase2 := some [0x104000, 0x105000],
    as_stackpbase := some [0x106000, 0x107000, 0x108000, 0x109000, 0x10a000, 0x10b000,
      0x10c000, 0x10d000, 0x10e000, 0x10f000, 0x110000, 0x111000] }

/-- The directory `sample_coremap_big17_loaded` after `as_destroy` on
`sample_as_big17_loaded`: the entries 0 to 16 are free again, and the entries 1024 to 1279
still hold 0. -/
def sample_coremap_big17_destroyed : Coremap :=
  { coremap := List.replicate 17 0 ++ List.replicate 1007 1 ++ List.replicate 256 0,
    coremap_firstaddr := 0x100000, coremap_lastaddr := 0x600000 }

/-- What `as_copy` of `sample_as_high` hands back on `sample_coremap_big16`. -/
def sample_copy_big16 : CopyResult :=
  { code := 0, cm := sample_coremap_big16_loaded, ret := some sample_as_big16_loaded,
    released := [], bad_read := false, table_overwritten := true }

/-- A directory of 40 frames in which `sample_as_loaded` is loaded (entries 2 to 18), the
entries 19 to 21 are free and every other entry, the last one included, is allocated. -/
def sample_coremap40_tight : Coremap :=
  { coremap := [1, 2] ++ List.replicate 17 1 ++ [0, 0, 0] ++ List.replicate 18 1,
    coremap_firstaddr := 0x40000, coremap_lastaddr := 0x68000 }

/-- The frame array `arr` after the addresses `ps` have been stored in the slots `i`,
`i + 1`, ... in turn. -/
def set_slots : List Nat → Nat → List Nat → List Nat
  | arr, _, [] => arr
  | arr, i, p :: ps => set_slots (arr.set i p) (i + 1) ps

/-! ## Theorems -/

/-! ## Arithmetic of the bounds -/

theorem valid_page_num_eq (s : Coremap) (h : s.wf) :
    valid_page_num s = (s.coremap_lastaddr - s.coremap_firstaddr) / 4096 := by
  obtain ⟨h1, h2, -⟩ := h
  unfold valid_page_num PAGE_SIZE
  congr 1
  omega

theorem frame_paddr_eq (s : Coremap) (h : s.wf) (i : Nat) (hi : i < valid_page_num s) :
    frame_paddr s i = s.coremap_firstaddr + (i + 1) * 4096 ∧
      frame_paddr s i ≤ s.coremap_lastaddr := by
  have hv := valid_page_num_eq s h
  obtain ⟨h1, h2, -⟩ := h
  unfold frame_paddr PAGE_SIZE
  have : (i + 1) * 4096 ≤ s.coremap_lastaddr - s.coremap_firstaddr := by
    have := Nat.div_mul_le_self (s.coremap_lastaddr - s.coremap_firstaddr) 4096
    rw [← hv] at this
    nlinarith
  omega

/-! ## The loops of the allocator -/

theorem cm_read_set (cm : List Int) (i k : Nat) (v : Int) :
    cm_read (cm.set i v) k = if i = k ∧ k < cm.length then v else cm_read cm k := by
  unfold cm_read
  simp only [List.getD_eq_getElem?_getD, List.getElem?_set]
  by_cases h : i = k
  · subst h
    by_cases h2 : i < cm.length
    · simp [h2]
    · simp [h2, List.getElem?_eq_none (Nat.le_of_not_lt h2)]
  · simp [h]

theorem count_unused_loop_spec (cm : List Int) : ∀ fuel i c,
    c ≤ count_unused_loop cm fuel i c ∧ count_unused_loop cm fuel i c ≤ c + fuel ∧
    (∀ k, k < count_unused_loop cm fuel i c - c → cm_read cm (i + k) = 0) ∧
    (count_unused_loop cm fuel i c < c + fuel →
      cm_read cm (i + (count_unused_loop cm fuel i c - c)) ≠ 0) := by
  intro fuel
  induction fuel with
  | zero => intro i c; simp [count_unused_loop]
  | succ fuel ih =>
    intro i c
    unfold count_unused_loop
    by_cases h : cm_read cm i = 0
    · simp only [h, if_true]
      obtain ⟨h1, h2, h3, h4⟩ := ih (i + 1) (c + 1)
      refine ⟨by omega, by omega, ?_, ?_⟩
      · intro k hk
        cases k with
        | zero => simpa using h
        | succ k =>
          have := h3 k (by omega)
          rwa [show i + (k + 1) = i + 1 + k by omega]
      · intro hlt
        have := h4 (by omega)
        rwa [show i + (count_unused_loop cm fuel (i + 1) (c + 1) - c)
          = i + 1 + (count_unused_loop cm fuel (i + 1) (c + 1) - (c + 1)) by omega]
    · simp only [h, if_false]
      refine ⟨le_refl _, by omega, by intro k hk; omega, ?_⟩
      intro _
      simpa using h

theorem count_unused_iff (s : Coremap) (i n : Nat) (hi : i < valid_page_num s)
    (h0 : cm_read s.coremap i = 0) :
    1 + count_unused s i ≥ n ↔ free_run s i n := by
  unfold count_unused free_run
  obtain ⟨h1, h2, h3, h4⟩ :=
    count_unused_loop_spec s.coremap (valid_page_num s - (i + 1)) (i + 1) 0
  constructor
  · intro h
    refine ⟨by omega, ?_⟩
    intro k hk
    cases k with
    | zero => simpa using h0
    | succ k =>
      have := h3 k (by omega)
      rwa [show i + (k + 1) = i + 1 + k by omega]
  · rintro ⟨ha, hb⟩
    by_contra hlt
    have hne := h4 (by omega)
    apply hne
    have := hb (1 + count_unused_loop s.coremap (valid_page_num s - (i + 1)) (i + 1) 0)
      (by omega)
    rw [← this]
    congr 1
    omega

theorem write_to_coremap_loop_spec (start : Nat) : ∀ fuel j cm, 1 ≤ j →
    (write_to_coremap_loop start fuel j cm).length = cm.length ∧
    ∀ k, cm_read (write_to_coremap_loop start fuel j cm) k =
      if start + j - 1 ≤ k ∧ k < start + j - 1 + fuel ∧ k < cm.length
      then ((k - start + 1 : Nat) : Int) else cm_read cm k := by
  intro fuel
  induction fuel with
  | zero =>
    intro j cm _
    refine ⟨rfl, ?_⟩
    intro k
    rw [if_neg (by omega)]
    rfl
  | succ fuel ih =>
    intro j cm hj
    unfold write_to_coremap_loop
    obtain ⟨hl, hr⟩ := ih (j + 1) (cm.set (start + j - 1) (j : Int)) (by omega)
    refine ⟨by simpa using hl, ?_⟩
    intro k
    rw [hr k, cm_read_set, List.length_set]
    by_cases hk : start + j - 1 = k
    · subst hk
      rw [if_neg (by omega)]
      by_cases hlen : start + j - 1 < cm.length
      · have e : start + j - 1 - start + 1 = j := by omega
        rw [if_pos ⟨rfl, hlen⟩, if_pos (by omega), e]
      · rw [if_neg (by omega), if_neg (by omega)]
    · by_cases hc : start + (j + 1) - 1 ≤ k ∧ k < start + (j + 1) - 1 + fuel ∧ k < cm.length
      · rw [if_pos hc, if_pos (by omega)]
      · rw [if_neg hc, if_neg (fun h => hk h.1), if_neg (by omega)]

theorem write_to_coremap_spec (cm : List Int) (n i : Nat) :
    (write_to_coremap cm n i).length = cm.length ∧
    ∀ k, cm_read (write_to_coremap cm n i) k =
      if i ≤ k ∧ k < i + n ∧ k < cm.length then ((k - i + 1 : Nat) : Int) else cm_read cm k := by
  unfold write_to_coremap
  obtain ⟨h1, h2⟩ := write_to_coremap_loop_spec i n 1 cm (le_refl _)
  refine ⟨h1, ?_⟩
  intro k
  rw [h2 k]
  simp only [Nat.add_sub_cancel]

theorem cm_read_eq_getElem (cm : List Int) (i : Nat) (h : i < cm.length) :
    cm_read cm i = cm[i] := by
  unfold cm_read
  simp [h]

theorem count_set_used (cm : List Int) (i : Nat) (v : Int) (h : i < cm.length)
    (h0 : cm_read cm i = 0) (hv : v ≠ 0) :
    (cm.set i v).count 0 + 1 = cm.count 0 := by
  rw [cm_read_eq_getElem cm i h] at h0
  have hpos : 0 < cm.count 0 := by
    rw [List.count_pos_iff]
    rw [← h0]
    exact List.getElem_mem h
  rw [List.count_set _ _ _ _ h]
  simp [h0, hv]
  omega

theorem write_to_coremap_loop_count (start : Nat) : ∀ fuel j cm, 1 ≤ j →
    start + j - 1 + fuel ≤ cm.length →
    (∀ k, k < fuel → cm_read cm (start + j - 1 + k) = 0) →
    (write_to_coremap_loop start fuel j cm).count 0 + fuel = cm.count 0 := by
  intro fuel
  induction fuel with
  | zero => intro j cm _ _ _; rfl
  | succ fuel ih =>
    intro j cm hj hlen hfree
    unfold write_to_coremap_loop
    have h1 := ih (j + 1) (cm.set (start + j - 1) (j : Int)) (by omega)
      (by rw [List.length_set]; omega)
      (by
        intro k hk
        rw [cm_read_set, if_neg (by omega)]
        have := hfree (k + 1) (by omega)
        rwa [show start + j - 1 + (k + 1) = start + (j + 1) - 1 + k by omega] at this)
    have h2 := count_set_used cm (start + j - 1) (j : Int) (by omega)
      (by simpa using hfree 0 (by omega)) (by omega)
    omega

theorem coremap_stealmem_loop_none (s : Coremap) (n : Nat) : ∀ fuel i,
    i + fuel = valid_page_num s → (∀ j, i ≤ j → ¬ free_run s j n) →
    coremap_stealmem_loop s n fuel i = (0, s) := by
  intro fuel
  induction fuel with
  | zero => intro i _ _; rfl
  | succ fuel ih =>
    intro i hi hno
    unfold coremap_stealmem_loop
    have hrec := ih (i + 1) (by omega) (fun j hj => hno j (by omega))
    by_cases h0 : cm_read s.coremap i = 0
    · rw [if_pos h0]
      have : ¬ (1 + count_unused s i ≥ n) := by
        rw [count_unused_iff s i n (by omega) h0]
        exact hno i (le_refl _)
      rw [if_neg this, hrec]
    · rw [if_neg h0, hrec]

theorem coremap_stealmem_loop_some (s : Coremap) (n i0 : Nat) (hn : 1 ≤ n)
    (hrun : free_run s i0 n) : ∀ fuel i,
    i + fuel = valid_page_num s → i ≤ i0 → (∀ j, i ≤ j → j < i0 → ¬ free_run s j n) →
    coremap_stealmem_loop s n fuel i =
      (frame_paddr s i0, { s with coremap := write_to_coremap s.coremap n i0 }) := by
  intro fuel
  induction fuel with
  | zero =>
    intro i hi hle _
    have := hrun.1
    omega
  | succ fuel ih =>
    intro i hi hle hmin
    unfold coremap_stealmem_loop
    by_cases heq : i = i0
    · subst heq
      have h0 : cm_read s.coremap i = 0 := by simpa using hrun.2 0 (by omega)
      rw [if_pos h0, if_pos ((count_unused_iff s i n (by omega) h0).2 hrun)]
    · have hrec := ih (i + 1) (by omega) (by omega) (fun j hj hj2 => hmin j (by omega) hj2)
      by_cases h0 : cm_read s.coremap i = 0
      · rw [if_pos h0]
        have : ¬ (1 + count_unused s i ≥ n) := by
          rw [count_unused_iff s i n (by omega) h0]
          exact hmin i (le_refl _) (by omega)
        rw [if_neg this, hrec]
      · rw [if_neg h0, hrec]

/-- What `coremap_stealmem` does when entry `i` starts the lowest free run of length `n`. -/
theorem coremap_stealmem_at (s : Coremap) (n i : Nat) (hn : 1 ≤ n)
    (hrun : free_run s i n) (hmin : ∀ j, j < i → ¬ free_run s j n) :
    coremap_stealmem s n =
      (frame_paddr s i, { s with coremap := write_to_coremap s.coremap n i }) :=
  coremap_stealmem_loop_some s n i hn hrun (valid_page_num s) 0 (by omega) (by omega)
    (fun j _ hj => hmin j hj)

/-- What `coremap_stealmem` does when no free run of length `n` exists. -/
theorem coremap_stealmem_fail (s : Coremap) (n : Nat)
    (hno : ∀ j, ¬ free_run s j n) : coremap_stealmem s n = (0, s) :=
  coremap_stealmem_loop_none s n (valid_page_num s) 0 (by omega) (fun j _ => hno j)

theorem frame_paddr_ne_zero (s : Coremap) (h : s.wf) (i : Nat) (hi : i < valid_page_num s) :
    frame_paddr s i ≠ 0 := by
  have := (frame_paddr_eq s h i hi).1
  omega

/-- Either some entry starts a lowest free run of length `n`, or there is none. -/
theorem lowest_free_run_cases (s : Coremap) (n : Nat) :
    (∃ i, free_run s i n ∧ ∀ j, j < i → ¬ free_run s j n) ∨ ∀ i, ¬ free_run s i n := by
  by_cases h : ∃ i, free_run s i n
  · left
    exact ⟨Nat.find h, Nat.find_spec h, fun j hj => Nat.find_min h hj⟩
  · right
    exact fun i hi => h ⟨i, hi⟩

/-! ## The loop of `free_kpages` -/

theorem cm_read_of_length_le (cm : List Int) (k : Nat) (h : cm.length ≤ k) :
    cm_read cm k = 0 := by
  unfold cm_read
  simp [List.getElem?_eq_none h]

theorem cm_ext (l1 l2 : List Int) (hl : l1.length = l2.length)
    (h : ∀ k, k < l1.length → cm_read l1 k = cm_read l2 k) : l1 = l2 := by
  apply List.ext_getElem hl
  intro k h1 h2
  have := h k h1
  rwa [cm_read_eq_getElem l1 k h1, cm_read_eq_getElem l2 k h2] at this

theorem length_clear_range (cm : List Int) (a e : Nat) :
    (clear_range cm a e).length = cm.length := by
  simp [clear_range]

theorem cm_read_clear_range (cm : List Int) (a e k : Nat) :
    cm_read (clear_range cm a e) k = if a ≤ k ∧ k < e then 0 else cm_read cm k := by
  by_cases hk : k < cm.length
  · rw [cm_read_eq_getElem _ _ (by rw [length_clear_range]; exact hk)]
    simp [clear_range]
  · rw [cm_read_of_length_le _ _ (by rw [length_clear_range]; omega),
      cm_read_of_length_le cm k (by omega)]
    simp

theorem clear_range_empty (cm : List Int) (a : Nat) : clear_range cm a a = cm := by
  apply cm_ext _ _ (length_clear_range _ _ _)
  intro k _
  rw [cm_read_clear_range, if_neg (by omega)]

theorem clear_range_set (cm : List Int) (c e : Nat) (hc : c < e) :
    clear_range (cm.set c 0) (c + 1) e = clear_range cm c e := by
  apply cm_ext
  · rw [length_clear_range, length_clear_range, List.length_set]
  · intro k _
    rw [cm_read_clear_range, cm_read_clear_range, cm_read_set]
    by_cases hk : c = k
    · subst hk
      by_cases hl : c < cm.length
      · simp [hl, hc]
      · have := cm_read_of_length_le cm c (by omega)
        simp [hl, hc, this]
    · have : (c + 1 ≤ k ∧ k < e) ↔ (c ≤ k ∧ k < e) := by omega
      simp [hk, this]

/-- The iterations of `free_kpages` after the first one clear the entries from `i` on
as long as they hold a value greater than 1. -/
theorem free_kpages_loop_tail (start : Int) : ∀ fuel (i : Nat) (cm : List Int) (e : Nat),
    start < (i : Int) → i ≤ e → e ≤ i + fuel →
    (∀ k, i ≤ k → k < e → 1 < cm_read cm k) →
    (e = i + fuel ∨ cm_read cm e ≤ 1) →
    free_kpages_loop start fuel (i : Int) cm = clear_range cm i e := by
  intro fuel
  induction fuel with
  | zero =>
    intro i cm e _ h1 h2 _ _
    have : e = i := by omega
    subst this
    rw [clear_range_empty]
    rfl
  | succ fuel ih =>
    intro i cm e hs h1 h2 hch hstop
    unfold free_kpages_loop
    have hread : cm_read_int cm (i : Int) = cm_read cm i := by
      unfold cm_read_int
      simp
    simp only [hread]
    by_cases hie : i = e
    · subst hie
      have hle : cm_read cm i ≤ 1 := by
        rcases hstop with h | h
        · omega
        · exact h
      rw [if_neg (by omega), clear_range_empty]
    · have hgt := hch i (le_refl _) (by omega)
      rw [if_pos (Or.inr hgt)]
      have hw : cm_write_int cm (i : Int) 0 = cm.set i 0 := by
        unfold cm_write_int
        simp
      rw [hw, show ((i : Int) + 1) = ((i + 1 : Nat) : Int) by push_cast; rfl]
      rw [ih (i + 1) (cm.set i 0) e (by push_cast; omega) (by omega) (by omega)
        (by
          intro k hk1 hk2
          rw [cm_read_set, if_neg (by omega)]
          exact hch k (by omega) hk2)
        (by
          rcases hstop with h | h
          · left; omega
          · right
            rw [cm_read_set, if_neg (by omega)]
            exact h)]
      exact clear_range_set cm i e (by omega)

/-- The entry index `free_kpages` computes for `addr`: the local `count`. -/
theorem free_kpages_eq (s : Coremap) (addr : Nat) (c e : Nat)
    (hcount : ((KVADDR_TO_PADDR addr + 2 ^ 32 - s.coremap_firstaddr) % 2 ^ 32) / PAGE_SIZE = c + 1)
    (hc : c < e) (he : e ≤ valid_page_num s)
    (hch : ∀ k, c < k → k < e → 1 < cm_read s.coremap k)
    (hstop : e = valid_page_num s ∨ cm_read s.coremap e ≤ 1) :
    free_kpages s addr = { s with coremap := clear_range s.coremap c e } := by
  unfold free_kpages
  simp only [hcount]
  have e1 : (((c + 1 : Nat) : Int) - 1) = (c : Int) := by push_cast; omega
  have e2 : ((valid_page_num s : Int) - (c : Int)).toNat = (valid_page_num s - (c + 1)) + 1 := by
    omega
  rw [e1, e2]
  unfold free_kpages_loop
  simp only [true_or, if_true]
  have hw : cm_write_int s.coremap (c : Int) 0 = s.coremap.set c 0 := by
    unfold cm_write_int
    simp
  rw [hw, show ((c : Int) + 1) = ((c + 1 : Nat) : Int) by push_cast; rfl]
  rw [free_kpages_loop_tail (c : Int) (valid_page_num s - (c + 1)) (c + 1) (s.coremap.set c 0) e
    (by push_cast; omega) (by omega) (by omega)
    (by
      intro k hk1 hk2
      rw [cm_read_set, if_neg (by omega)]
      exact hch k (by omega) hk2)
    (by
      rcases hstop with h | h
      · left; omega
      · right
        rw [cm_read_set, if_neg (by omega)]
        exact h)]
  rw [clear_range_set s.coremap c e hc]

theorem kvaddr_roundtrip (p : Nat) (h : p < 2 ^ 32) :
    KVADDR_TO_PADDR (PADDR_TO_KVADDR p) = p := by
  unfold KVADDR_TO_PADDR PADDR_TO_KVADDR MIPS_KSEG0
  omega

theorem free_count_of_frame (s : Coremap) (h : s.wf) (i : Nat) (hi : i < valid_page_num s) :
    ((KVADDR_TO_PADDR (PADDR_TO_KVADDR (frame_paddr s i)) + 2 ^ 32 - s.coremap_firstaddr)
      % 2 ^ 32) / PAGE_SIZE = i + 1 := by
  obtain ⟨h1, h2⟩ := frame_paddr_eq s h i hi
  have h3 := h.2.1
  rw [kvaddr_roundtrip _ (by omega), h1]
  unfold PAGE_SIZE
  omega

/-! ## Reservation: `coremap_stealmem` -/

theorem coremap_stealmem_success (s : Coremap) (n : Nat) (hn : 1 ≤ n)
    (hok : (coremap_stealmem s n).1 ≠ 0) :
    ∃ i, free_run s i n ∧ (∀ j, j < i → ¬ free_run s j n) ∧
      coremap_stealmem s n =
        (frame_paddr s i, { s with coremap := write_to_coremap s.coremap n i }) := by
  rcases lowest_free_run_cases s n with ⟨i, hrun, hmin⟩ | hno
  · exact ⟨i, hrun, hmin, coremap_stealmem_at s n i hn hrun hmin⟩
  · rw [coremap_stealmem_fail s n hno] at hok
    exact absurd rfl hok

theorem cm_read_write_to_coremap (s : Coremap) (hwf : s.wf) (n i : Nat)
    (hrun : free_run s i n) (k : Nat) :
    cm_read (write_to_coremap s.coremap n i) k =
      if i ≤ k ∧ k < i + n then ((k - i + 1 : Nat) : Int) else cm_read s.coremap k := by
  rw [(write_to_coremap_spec s.coremap n i).2 k]
  have hlen := hwf.2.2
  have := hrun.1
  by_cases hc : i ≤ k ∧ k < i + n
  · rw [if_pos hc, if_pos ⟨hc.1, hc.2, by omega⟩]
  · rw [if_neg hc, if_neg (fun h => hc ⟨h.1, h.2.1⟩)]

theorem free_count_write_to_coremap (s : Coremap) (hwf : s.wf) (n i : Nat)
    (hrun : free_run s i n) :
    (write_to_coremap s.coremap n i).count 0 + n = s.coremap.count 0 := by
  unfold write_to_coremap
  have hlen := hwf.2.2
  have := hrun.1
  apply write_to_coremap_loop_count i n 1 s.coremap (le_refl _) (by omega)
  intro k hk
  have := hrun.2 k hk
  rwa [show i + 1 - 1 + k = i + k by omega]

/-- C2: for every well-formed directory and every `n ≥ 1`, `coremap_stealmem n` either
returns the address of the lowest-indexed entry `i` whose `n` entries `i .. i+n-1` were all
free, writes the markers `1 .. n` into exactly those entries and leaves every other entry
(and the bounds) unchanged, so that exactly `n` entries stop being free; or no run of `n`
consecutive free entries exists and it returns 0 with the directory unchanged. -/
theorem coremap_stealmem_lowest_run_or_fail (s : Coremap) (n : Nat) (hwf : s.wf)
    (hn : 1 ≤ n) :
    (∃ i, free_run s i n ∧ (∀ j, j < i → ¬ free_run s j n) ∧
      (coremap_stealmem s n).1 = frame_paddr s i ∧ (coremap_stealmem s n).1 ≠ 0 ∧
      (coremap_stealmem s n).2.coremap_firstaddr = s.coremap_firstaddr ∧
      (coremap_stealmem s n).2.coremap_lastaddr = s.coremap_lastaddr ∧
      (coremap_stealmem s n).2.coremap.length = s.coremap.length ∧
      (∀ k, cm_read (coremap_stealmem s n).2.coremap k =
        if i ≤ k ∧ k < i + n then ((k - i + 1 : Nat) : Int) else cm_read s.coremap k) ∧
      free_count (coremap_stealmem s n).2 + n = free_count s)
    ∨ ((∀ i, ¬ free_run s i n) ∧ coremap_stealmem s n = (0, s)) := by
  rcases lowest_free_run_cases s n with ⟨i, hrun, hmin⟩ | hno
  · left
    refine ⟨i, hrun, hmin, ?_⟩
    rw [coremap_stealmem_at s n i hn hrun hmin]
    have := hrun.1
    refine ⟨rfl, frame_paddr_ne_zero s hwf i (by omega), rfl, rfl,
      (write_to_coremap_spec s.coremap n i).1, cm_read_write_to_coremap s hwf n i hrun, ?_⟩
    exact free_count_write_to_coremap s hwf n i hrun
  · right
    exact ⟨hno, coremap_stealmem_fail s n hno⟩

/-- C6: for every directory, whatever its entries hold, `coremap_stealmem` asked for
one frame more than the directory has (`valid_page_num + 1`) returns 0 and leaves the
directory unchanged. -/
theorem coremap_stealmem_all_plus_one_fails (s : Coremap) :
    coremap_stealmem s (valid_page_num s + 1) = (0, s) := by
  apply coremap_stealmem_fail
  rintro j ⟨h, -⟩
  omega

/-! ## Release: `free_kpages` -/

theorem run_invariant_nonneg (cm : List Int) (hinv : run_invariant cm) :
    ∀ k, 0 ≤ cm_read cm k := by
  intro k
  induction k with
  | zero =>
    by_cases h : 0 < cm.length
    · rcases hinv 0 h with h1 | h1 | h1
      · omega
      · omega
      · omega
    · rw [cm_read_of_length_le cm 0 (by omega)]
  | succ k ih =>
    by_cases h : k + 1 < cm.length
    · rcases hinv (k + 1) h with h1 | h1 | ⟨-, h1⟩
      · omega
      · omega
      · rw [h1]
        simp only [Nat.add_sub_cancel]
        omega
    · rw [cm_read_of_length_le cm (k + 1) (by omega)]

/-- Under the invariant an entry that follows a free entry holds 0 or 1. -/
theorem run_invariant_after_free (cm : List Int) (hinv : run_invariant cm) (k : Nat)
    (h0 : cm_read cm k = 0) : cm_read cm (k + 1) ≤ 1 := by
  by_cases h : k + 1 < cm.length
  · rcases hinv (k + 1) h with h1 | h1 | ⟨-, h1⟩
    · omega
    · omega
    · rw [h1]
      simp only [Nat.add_sub_cancel]
      omega
  · rw [cm_read_of_length_le cm (k + 1) (by omega)]
    omega

theorem coremap_eq_of (s : Coremap) (cm : List Int) (h : cm = s.coremap) :
    ({ s with coremap := cm } : Coremap) = s := by
  subst h
  rfl

/-- C1: for every well-formed directory that satisfies the run invariant and every
`n ≥ 1` for which `coremap_stealmem n` succeeds, `free_kpages` on the kernel address of the
returned base restores the directory to its state before the reservation, and a
subsequent `coremap_stealmem n` succeeds and returns the same address. -/
theorem free_kpages_undoes_coremap_stealmem (s : Coremap) (n : Nat) (hwf : s.wf)
    (hinv : run_invariant s.coremap) (hn : 1 ≤ n) (hok : (coremap_stealmem s n).1 ≠ 0) :
    free_kpages (coremap_stealmem s n).2 (PADDR_TO_KVADDR (coremap_stealmem s n).1) = s ∧
    (coremap_stealmem
      (free_kpages (coremap_stealmem s n).2 (PADDR_TO_KVADDR (coremap_stealmem s n).1)) n).1
        = (coremap_stealmem s n).1 ∧
    (coremap_stealmem
      (free_kpages (coremap_stealmem s n).2 (PADDR_TO_KVADDR (coremap_stealmem s n).1)) n).1
        ≠ 0 := by
  have key : free_kpages (coremap_stealmem s n).2
      (PADDR_TO_KVADDR (coremap_stealmem s n).1) = s := by
    obtain ⟨i, hrun, -, heq⟩ := coremap_stealmem_success s n hn hok
    rw [heq]
    have hlen := hwf.2.2
    have hb := hrun.1
    have hrd := cm_read_write_to_coremap s hwf n i hrun
    have hcount := free_count_of_frame s hwf i (by omega)
    rw [free_kpages_eq { s with coremap := write_to_coremap s.coremap n i }
      (PADDR_TO_KVADDR (frame_paddr s i)) i (i + n) hcount (by omega) hb
      (by
        intro k hk1 hk2
        show 1 < cm_read (write_to_coremap s.coremap n i) k
        rw [hrd k, if_pos ⟨by omega, hk2⟩]
        omega)
      (by
        show i + n = valid_page_num s ∨ cm_read (write_to_coremap s.coremap n i) (i + n) ≤ 1
        right
        rw [hrd (i + n), if_neg (by omega)]
        have h0 := hrun.2 (n - 1) (by omega)
        have := run_invariant_after_free s.coremap hinv (i + (n - 1)) h0
        rwa [show i + (n - 1) + 1 = i + n by omega] at this)]
    refine coremap_eq_of s (clear_range (write_to_coremap s.coremap n i) i (i + n)) ?_
    apply cm_ext
    · rw [length_clear_range, (write_to_coremap_spec s.coremap n i).1]
    · intro k _
      rw [cm_read_clear_range, hrd k]
      by_cases hc : i ≤ k ∧ k < i + n
      · rw [if_pos hc]
        have := hrun.2 (k - i) (by omega)
        rw [show i + (k - i) = k by omega] at this
        exact this.symm
      · rw [if_neg hc, if_neg hc]
  rw [key]
  exact ⟨rfl, rfl, hok⟩

/-- C3: for every well-formed directory that satisfies the run invariant and every
entry `i` that is the base of an active run of length `k` (entries `i .. i+k-1` hold
`1 .. k` and the run is not continued by `k+1`), `free_kpages` on the kernel address of
that base sets exactly those `k` entries to free and leaves every other entry and the bounds
unchanged, also when entry `i+k` starts another allocated run. -/
theorem free_kpages_frees_exactly_the_run (s : Coremap) (i k : Nat) (hwf : s.wf)
    (hinv : run_invariant s.coremap) (hk : 1 ≤ k) (hik : i + k ≤ valid_page_num s)
    (hrun : ∀ j, j < k → cm_read s.coremap (i + j) = ((j + 1 : Nat) : Int))
    (hmax : cm_read s.coremap (i + k) ≠ ((k + 1 : Nat) : Int)) :
    (free_kpages s (PADDR_TO_KVADDR (frame_paddr s i))).coremap_firstaddr
        = s.coremap_firstaddr ∧
    (free_kpages s (PADDR_TO_KVADDR (frame_paddr s i))).coremap_lastaddr
        = s.coremap_lastaddr ∧
    (free_kpages s (PADDR_TO_KVADDR (frame_paddr s i))).coremap.length = s.coremap.length ∧
    ∀ m, cm_read (free_kpages s (PADDR_TO_KVADDR (frame_paddr s i))).coremap m =
      if i ≤ m ∧ m < i + k then 0 else cm_read s.coremap m := by
  have hlen := hwf.2.2
  have hcount := free_count_of_frame s hwf i (by omega)
  rw [free_kpages_eq s (PADDR_TO_KVADDR (frame_paddr s i)) i (i + k) hcount (by omega) hik
    (by
      intro m hm1 hm2
      have := hrun (m - i) (by omega)
      rw [show i + (m - i) = m by omega] at this
      rw [this]
      omega)
    (by
      by_cases hend : i + k = valid_page_num s
      · exact Or.inl hend
      · right
        rcases hinv (i + k) (by omega) with h1 | h1 | ⟨-, h1⟩
        · omega
        · omega
        · exfalso
          apply hmax
          rw [h1]
          have := hrun (k - 1) (by omega)
          rw [show i + k - 1 = i + (k - 1) by omega, this]
          omega)]
  exact ⟨rfl, rfl, length_clear_range _ _ _, cm_read_clear_range _ _ _⟩

/-- Every call of `free_kpages` either leaves the directory unchanged or clears a
non-empty range `a .. e - 1` whose entries after `a` were all greater than 1 and which
stops at the end of the table or at an entry that holds at most 1. -/
theorem free_kpages_cases (s : Coremap) (addr : Nat) :
    free_kpages s addr = s ∨
    ∃ a e, a < e ∧ e ≤ valid_page_num s ∧
      (∀ k, a < k → k < e → 1 < cm_read s.coremap k) ∧
      (e = valid_page_num s ∨ cm_read s.coremap e ≤ 1) ∧
      free_kpages s addr = { s with coremap := clear_range s.coremap a e } := by
  rcases Nat.eq_zero_or_eq_succ_pred
    (((KVADDR_TO_PADDR addr + 2 ^ 32 - s.coremap_firstaddr) % 2 ^ 32) / PAGE_SIZE)
    with hz | hs
  · -- `count = 0`: the first store is at index -1, below the table
    have hex : ∃ e, e = valid_page_num s ∨ cm_read s.coremap e ≤ 1 :=
      ⟨valid_page_num s, Or.inl rfl⟩
    have hfind := Nat.find_spec hex
    have hmin : ∀ k, k < Nat.find hex → 1 < cm_read s.coremap k := by
      intro k hk
      have := Nat.find_min hex hk
      push_neg at this
      omega
    have hle : Nat.find hex ≤ valid_page_num s := Nat.find_min' hex (Or.inl rfl)
    have heq : free_kpages s addr =
        { s with coremap := clear_range s.coremap 0 (Nat.find hex) } := by
      unfold free_kpages
      simp only [hz]
      have e2 : ((valid_page_num s : Int) - (((0 : Nat) : Int) - 1)).toNat
          = valid_page_num s + 1 := by omega
      rw [e2]
      unfold free_kpages_loop
      simp only [true_or, if_true]
      have hw : cm_write_int s.coremap (((0 : Nat) : Int) - 1) 0 = s.coremap := by
        unfold cm_write_int
        simp
      rw [hw, show (((0 : Nat) : Int) - 1 + 1) = ((0 : Nat) : Int) by simp]
      rw [free_kpages_loop_tail (((0 : Nat) : Int) - 1) (valid_page_num s) 0 s.coremap
        (Nat.find hex) (by simp) (by omega) (by omega) (fun k _ hk => hmin k hk)
        (by
          rcases hfind with h | h
          · left; omega
          · right; exact h)]
    by_cases he0 : Nat.find hex = 0
    · left
      rw [heq, he0, clear_range_empty]
    · right
      exact ⟨0, Nat.find hex, by omega, hle, fun k _ hk => hmin k hk, hfind, heq⟩
  · by_cases hc : (((KVADDR_TO_PADDR addr + 2 ^ 32 - s.coremap_firstaddr) % 2 ^ 32)
        / PAGE_SIZE).pred < valid_page_num s
    · right
      generalize (((KVADDR_TO_PADDR addr + 2 ^ 32 - s.coremap_firstaddr) % 2 ^ 32)
        / PAGE_SIZE).pred = c at hs hc
      have hex : ∃ e, c < e ∧ (e = valid_page_num s ∨ cm_read s.coremap e ≤ 1) :=
        ⟨valid_page_num s, hc, Or.inl rfl⟩
      have hfind := Nat.find_spec hex
      have hmin : ∀ k, c < k → k < Nat.find hex → 1 < cm_read s.coremap k := by
        intro k hk1 hk
        have := Nat.find_min hex hk
        push_neg at this
        have := this hk1
        omega
      have hle : Nat.find hex ≤ valid_page_num s := Nat.find_min' hex ⟨hc, Or.inl rfl⟩
      exact ⟨c, Nat.find hex, hfind.1, hle, hmin, hfind.2,
        free_kpages_eq s addr c (Nat.find hex) hs hfind.1 hle hmin hfind.2⟩
    · left
      generalize (((KVADDR_TO_PADDR addr + 2 ^ 32 - s.coremap_firstaddr) % 2 ^ 32)
        / PAGE_SIZE).pred = c at hs hc
      unfold free_kpages
      simp only [hs]
      have e2 : ((valid_page_num s : Int) - (((c.succ : Nat) : Int) - 1)).toNat = 0 := by
        simp only [Nat.succ_eq_add_one]
        omega
      rw [e2]
      rfl

theorem run_invariant_clear_range (cm : List Int) (hinv : run_invariant cm) (a e : Nat)
    (hstop : cm.length ≤ e ∨ cm_read cm e ≤ 1) : run_invariant (clear_range cm a e) := by
  intro k hk
  rw [length_clear_range] at hk
  rw [cm_read_clear_range]
  by_cases hc : a ≤ k ∧ k < e
  · left
    rw [if_pos hc]
  · rw [if_neg hc]
    rcases hinv k hk with h1 | h1 | ⟨hpos, h1⟩
    · exact Or.inl h1
    · exact Or.inr (Or.inl h1)
    · by_cases hke : k = e
      · subst hke
        have hnn := run_invariant_nonneg cm hinv (k - 1)
        right; left
        rcases hstop with h | h
        · omega
        · omega
      · right; right
        refine ⟨hpos, ?_⟩
        rw [cm_read_clear_range, if_neg (by omega)]
        exact h1

theorem run_invariant_write_to_coremap (s : Coremap) (hwf : s.wf)
    (hinv : run_invariant s.coremap) (n i : Nat) (hrun : free_run s i n) :
    run_invariant (write_to_coremap s.coremap n i) := by
  have hrd := cm_read_write_to_coremap s hwf n i hrun
  intro k hk
  rw [(write_to_coremap_spec s.coremap n i).1] at hk
  rw [hrd k]
  by_cases hc : i ≤ k ∧ k < i + n
  · rw [if_pos hc]
    by_cases hki : k = i
    · right; left
      subst hki
      simp
    · right; right
      refine ⟨by omega, ?_⟩
      rw [hrd (k - 1), if_pos (by omega)]
      have : k - i + 1 = (k - 1 - i + 1) + 1 := by omega
      rw [this]
      push_cast
      rfl
  · rw [if_neg hc]
    rcases hinv k hk with h1 | h1 | ⟨hpos, h1⟩
    · exact Or.inl h1
    · exact Or.inr (Or.inl h1)
    · by_cases hke : k = i + n ∧ 1 ≤ n
      · right; left
        have h0 := hrun.2 (n - 1) (by omega)
        rw [h1, show k - 1 = i + (n - 1) by omega, h0]
        rfl
      · right; right
        refine ⟨hpos, ?_⟩
        rw [hrd (k - 1), if_neg (by omega)]
        exact h1

theorem vm_bootstrap_coremap (first last : Nat) :
    (vm_bootstrap first last).coremap =
      List.replicate (valid_page_num (vm_bootstrap first last)) 0 := rfl

theorem cm_read_replicate (n k : Nat) : cm_read (List.replicate n 0) k = 0 := by
  by_cases h : k < n
  · rw [cm_read_eq_getElem _ _ (by simpa using h)]
    simp
  · rw [cm_read_of_length_le _ _ (by simp; omega)]

theorem wf_with_coremap (s : Coremap) (hwf : s.wf) (cm : List Int)
    (h : cm.length = s.coremap.length) : ({ s with coremap := cm } : Coremap).wf :=
  ⟨hwf.1, hwf.2.1, h.trans hwf.2.2⟩

theorem coremap_stealmem_wf (s : Coremap) (n : Nat) (hwf : s.wf) (hn : 1 ≤ n) :
    (coremap_stealmem s n).2.wf := by
  rcases lowest_free_run_cases s n with ⟨i, hrun, hmin⟩ | hno
  · rw [coremap_stealmem_at s n i hn hrun hmin]
    exact wf_with_coremap s hwf _ (write_to_coremap_spec s.coremap n i).1
  · rw [coremap_stealmem_fail s n hno]
    exact hwf

theorem free_kpages_wf (s : Coremap) (addr : Nat) (hwf : s.wf) : (free_kpages s addr).wf := by
  rcases free_kpages_cases s addr with h | ⟨a, e, -, -, -, -, h⟩
  · rw [h]; exact hwf
  · rw [h]
    exact wf_with_coremap s hwf _ (length_clear_range _ _ _)

/-- C4: the frame-directory invariant (every entry is 0, 1, or exactly one more than
its predecessor) holds after `vm_bootstrap`, and every `coremap_stealmem n` with `n ≥ 1`
and every `free_kpages`, whatever the address, takes a well-formed directory that
satisfies it to a well-formed directory that satisfies it. -/
theorem run_invariant_preserved :
    (∀ first last, run_invariant (vm_bootstrap first last).coremap) ∧
    (∀ s n, s.wf → run_invariant s.coremap → 1 ≤ n →
      (coremap_stealmem s n).2.wf ∧ run_invariant (coremap_stealmem s n).2.coremap) ∧
    (∀ s addr, s.wf → run_invariant s.coremap →
      (free_kpages s addr).wf ∧ run_invariant (free_kpages s addr).coremap) := by
  refine ⟨?_, ?_, ?_⟩
  · intro first last k _
    left
    rw [vm_bootstrap_coremap, cm_read_replicate]
  · intro s n hwf hinv hn
    refine ⟨coremap_stealmem_wf s n hwf hn, ?_⟩
    rcases lowest_free_run_cases s n with ⟨i, hrun, hmin⟩ | hno
    · rw [coremap_stealmem_at s n i hn hrun hmin]
      exact run_invariant_write_to_coremap s hwf hinv n i hrun
    · rw [coremap_stealmem_fail s n hno]
      exact hinv
  · intro s addr hwf hinv
    refine ⟨free_kpages_wf s addr hwf, ?_⟩
    rcases free_kpages_cases s addr with h | ⟨a, e, -, -, -, hstop, h⟩
    · rw [h]; exact hinv
    · rw [h]
      apply run_invariant_clear_range s.coremap hinv a e
      rcases hstop with h1 | h1
      · left
        rw [hwf.2.2, h1]
      · exact Or.inr h1

/-- C5: for every well-formed directory and all `n, m ≥ 1`, when `coremap_stealmem n`
and then `coremap_stealmem m` both succeed with no release in between, the two returned
ranges `[a, a + n*PAGE_SIZE)` and `[b, b + m*PAGE_SIZE)` are disjoint, and the frame of
every entry that was allocated before the two calls lies outside both ranges. -/
theorem consecutive_reservations_disjoint (s : Coremap) (n m : Nat) (hwf : s.wf)
    (hn : 1 ≤ n) (hm : 1 ≤ m) (h1 : (coremap_stealmem s n).1 ≠ 0)
    (h2 : (coremap_stealmem (coremap_stealmem s n).2 m).1 ≠ 0) :
    ((coremap_stealmem s n).1 + n * PAGE_SIZE ≤ (coremap_stealmem (coremap_stealmem s n).2 m).1 ∨
      (coremap_stealmem (coremap_stealmem s n).2 m).1 + m * PAGE_SIZE ≤ (coremap_stealmem s n).1) ∧
    ∀ k, k < valid_page_num s → cm_read s.coremap k ≠ 0 →
      (frame_paddr s k + PAGE_SIZE ≤ (coremap_stealmem s n).1 ∨
        (coremap_stealmem s n).1 + n * PAGE_SIZE ≤ frame_paddr s k) ∧
      (frame_paddr s k + PAGE_SIZE ≤ (coremap_stealmem (coremap_stealmem s n).2 m).1 ∨
        (coremap_stealmem (coremap_stealmem s n).2 m).1 + m * PAGE_SIZE ≤ frame_paddr s k) := by
  obtain ⟨i, hrun, -, heq⟩ := coremap_stealmem_success s n hn h1
  have hwf1 := coremap_stealmem_wf s n hwf hn
  obtain ⟨j, hrun2, -, heq2⟩ := coremap_stealmem_success _ m hm h2
  rw [heq2]
  rw [heq] at hrun2 hwf1 ⊢
  have hrd := cm_read_write_to_coremap s hwf n i hrun
  have hb1 := hrun.1
  have hb2 : j + m ≤ valid_page_num s := hrun2.1
  have hfree2 : ∀ k, k < m → cm_read (write_to_coremap s.coremap n i) (j + k) = 0 := hrun2.2
  have hout : ∀ k, k < m → ¬ (i ≤ j + k ∧ j + k < i + n) := by
    intro k hk hc
    have := hfree2 k hk
    rw [hrd, if_pos hc] at this
    omega
  have hdisj : i + n ≤ j ∨ j + m ≤ i := by
    by_contra hcon
    push_neg at hcon
    by_cases hij : i ≤ j
    · exact hout 0 hm (by omega)
    · exact hout (i - j) (by omega) (by omega)
  have hfi := (frame_paddr_eq s hwf i (by omega)).1
  have hfj : frame_paddr s j = s.coremap_firstaddr + (j + 1) * 4096 :=
    (frame_paddr_eq s hwf j (by omega)).1
  have hfj2 : frame_paddr { s with coremap := write_to_coremap s.coremap n i } j
      = frame_paddr s j := rfl
  simp only [hfj2, hfi, hfj]
  unfold PAGE_SIZE
  refine ⟨by rcases hdisj with h | h <;> [left; right] <;> nlinarith, ?_⟩
  intro k hk hused
  have hfk := (frame_paddr_eq s hwf k hk).1
  rw [hfk]
  have hk1 : ¬ (i ≤ k ∧ k < i + n) := by
    intro hc
    have := hrun.2 (k - i) (by omega)
    rw [show i + (k - i) = k by omega] at this
    exact hused this
  have hk2 : ¬ (j ≤ k ∧ k < j + m) := by
    intro hc
    have := hfree2 (k - j) (by omega)
    rw [show j + (k - j) = k by omega, hrd, if_neg hk1] at this
    exact hused this
  constructor
  · by_cases hki : k < i
    · left; nlinarith
    · right; nlinarith [show i + n ≤ k by omega]
  · by_cases hkj : k < j
    · left; nlinarith
    · right; nlinarith [show j + m ≤ k by omega]

/-! ## Runs of single-frame reservations -/

theorem mark_used_nil (s : Coremap) : mark_used s [] = s := rfl

theorem mark_used_cons (s : Coremap) (j : Nat) (L : List Nat) :
    mark_used s (j :: L) = mark_used (mark_used s [j]) L := rfl

theorem mark_used_append (s : Coremap) (L1 L2 : List Nat) :
    mark_used s (L1 ++ L2) = mark_used (mark_used s L1) L2 := by
  unfold mark_used
  simp [List.foldl_append]

theorem frame_paddr_mark_used (s : Coremap) (L : List Nat) (j : Nat) :
    frame_paddr (mark_used s L) j = frame_paddr s j := rfl

theorem length_mark_used (s : Coremap) (L : List Nat) :
    (mark_used s L).coremap.length = s.coremap.length := by
  induction L generalizing s with
  | nil => rfl
  | cons j L ih =>
    rw [mark_used_cons, ih]
    simp [mark_used]

theorem mark_used_wf (s : Coremap) (L : List Nat) (hwf : s.wf) : (mark_used s L).wf :=
  ⟨hwf.1, hwf.2.1, (length_mark_used s L).trans hwf.2.2⟩

theorem cm_read_mark_used (s : Coremap) (L : List Nat) (k : Nat) :
    cm_read (mark_used s L).coremap k =
      if k ∈ L ∧ k < s.coremap.length then 1 else cm_read s.coremap k := by
  induction L generalizing s with
  | nil => simp [mark_used]
  | cons j L ih =>
    rw [mark_used_cons, ih, length_mark_used]
    have h1 : cm_read (mark_used s [j]).coremap k
        = if j = k ∧ k < s.coremap.length then 1 else cm_read s.coremap k := by
      show cm_read (s.coremap.set j 1) k = _
      exact cm_read_set s.coremap j k 1
    rw [h1]
    by_cases hk : k < s.coremap.length
    · by_cases hj : j = k
      · subst hj
        simp [hk]
      · have hj2 : ¬ k = j := fun h => hj h.symm
        simp [hk, hj, hj2]
    · simp [hk]

theorem all_free_cons (s : Coremap) (j : Nat) (L : List Nat) (hj : j < s.coremap.length)
    (h0 : cm_read s.coremap j = 0) (h : all_free (mark_used s [j]) L) :
    all_free s (j :: L) := by
  obtain ⟨hnd, hfree⟩ := h
  have hnot : j ∉ L := by
    intro hmem
    have := (hfree j hmem).2
    rw [cm_read_mark_used, if_pos ⟨by simp, hj⟩] at this
    omega
  refine ⟨List.nodup_cons.2 ⟨hnot, hnd⟩, ?_⟩
  intro k hk
  rcases List.mem_cons.1 hk with h | h
  · subst h
    exact ⟨hj, h0⟩
  · have := hfree k h
    rw [length_mark_used] at this
    refine ⟨this.1, ?_⟩
    have h2 := this.2
    rw [cm_read_mark_used, if_neg] at h2
    · exact h2
    · rintro ⟨hm, -⟩
      rw [List.mem_singleton] at hm
      subst hm
      exact hnot h

theorem all_free_tail (s : Coremap) (j : Nat) (L : List Nat) (h : all_free s (j :: L)) :
    j < s.coremap.length ∧ cm_read s.coremap j = 0 ∧ j ∉ L ∧ all_free s L ∧
      all_free (mark_used s [j]) L := by
  obtain ⟨hnd, hfree⟩ := h
  have hnd2 := List.nodup_cons.1 hnd
  refine ⟨(hfree j (by simp)).1, (hfree j (by simp)).2, hnd2.1,
    ⟨hnd2.2, fun k hk => hfree k (List.mem_cons_of_mem _ hk)⟩, hnd2.2, ?_⟩
  intro k hk
  have := hfree k (List.mem_cons_of_mem _ hk)
  rw [length_mark_used]
  refine ⟨this.1, ?_⟩
  rw [cm_read_mark_used, if_neg]
  · exact this.2
  · rintro ⟨hm, -⟩
    rw [List.mem_singleton] at hm
    subst hm
    exact hnd2.1 hk

theorem all_free_append (s : Coremap) (L1 L2 : List Nat) (h1 : all_free s L1)
    (h2 : all_free (mark_used s L1) L2) : all_free s (L1 ++ L2) := by
  induction L1 generalizing s with
  | nil => simpa [mark_used_nil] using h2
  | cons j L ih =>
    obtain ⟨hj, h0, -, -, htail⟩ := all_free_tail s j L h1
    rw [mark_used_cons] at h2
    exact all_free_cons s j (L ++ L2) hj h0 (ih (mark_used s [j]) htail h2)

theorem free_count_mark_used (s : Coremap) (L : List Nat) (h : all_free s L) :
    free_count (mark_used s L) + L.length = free_count s := by
  induction L generalizing s with
  | nil => rfl
  | cons j L ih =>
    obtain ⟨hj, h0, -, -, htail⟩ := all_free_tail s j L h
    rw [mark_used_cons]
    have h1 := ih (mark_used s [j]) htail
    have h2 : free_count (mark_used s [j]) + 1 = free_count s :=
      count_set_used s.coremap j 1 hj h0 (by omega)
    simp only [List.length_cons]
    omega

theorem free_count_le (s : Coremap) : free_count s ≤ s.coremap.length :=
  List.count_le_length _ _

/-- A single-frame reservation either finds no free entry, or marks the lowest free
entry and returns its frame. -/
theorem getppages_one (s : Coremap) (hwf : s.wf) :
    (free_count s = 0 ∧ getppages s 1 = (0, s)) ∨
    ∃ j, j < s.coremap.length ∧ cm_read s.coremap j = 0 ∧ frame_paddr s j ≠ 0 ∧
      getppages s 1 = (frame_paddr s j, mark_used s [j]) := by
  unfold getppages
  rcases lowest_free_run_cases s 1 with ⟨i, hrun, hmin⟩ | hno
  · right
    have hi : i < s.coremap.length := by
      have := hrun.1
      rw [hwf.2.2]
      omega
    refine ⟨i, hi, by simpa using hrun.2 0 (by omega),
      frame_paddr_ne_zero s hwf i (by rw [← hwf.2.2]; exact hi), ?_⟩
    rw [coremap_stealmem_at s 1 i (le_refl _) hrun hmin]
    simp [mark_used, write_to_coremap, write_to_coremap_loop]
  · left
    refine ⟨?_, coremap_stealmem_fail s 1 hno⟩
    unfold free_count
    rw [List.count_eq_zero]
    intro hmem
    obtain ⟨k, hk, hget⟩ := List.getElem_of_mem hmem
    apply hno k
    refine ⟨by rw [← hwf.2.2]; omega, ?_⟩
    intro m hm
    have : m = 0 := by omega
    subst this
    rw [Nat.add_zero, cm_read_eq_getElem _ _ hk, hget]

/-! ## Zero-filling a frame -/

theorem zero_entries_below (first lo hi : Nat) : ∀ (l : List Int) (k : Nat),
    first + SIZEOF_INT * (k + l.length) ≤ lo → zero_entries first lo hi k l = l := by
  intro l
  induction l with
  | nil => intro k _; rfl
  | cons v rest ih =>
    intro k h
    unfold zero_entries
    simp only [List.length_cons] at h
    unfold SIZEOF_INT at h
    rw [if_neg (by unfold SIZEOF_INT; omega), ih (k + 1) (by unfold SIZEOF_INT; omega)]

/-- When the table has at most 1024 entries it ends at or before
`coremap_firstaddr + PAGE_SIZE`, where the first frame starts: zero-filling a frame then
leaves the directory as it is. -/
theorem as_zero_region_of_small_table (s : Coremap) (hlen : s.coremap.length ≤ 1024)
    (paddr npages : Nat) (hp : s.coremap_firstaddr + PAGE_SIZE ≤ paddr) :
    as_zero_region s paddr npages = s := by
  unfold as_zero_region
  rw [zero_entries_below _ _ _ _ _ (by unfold SIZEOF_INT; unfold PAGE_SIZE at hp; omega)]

/-! ## The loops of `as_prepare_load` -/

theorem set_after_pre (pre a : List Nat) (x v : Nat) :
    (pre ++ x :: a).set pre.length v = (pre ++ [v]) ++ a := by
  simp

/-- A loop of `as_prepare_load` over the slots `a` that follow the slots `pre`: it
reserves the lowest free entries one by one, as many as there are slots or free entries,
and stores 0 in the slot at which the directory has run out. -/
theorem prepare_loop_spec : ∀ (a pre : List Nat) (s : Coremap), s.wf →
    valid_page_num s ≤ 1024 →
    ∃ L, L.length = min a.length (free_count s) ∧ all_free s L ∧
      prepare_loop a.length pre.length s (pre ++ a) =
        some (decide (a.length ≤ free_count s), mark_used s L,
          pre ++ (L.map (frame_paddr s) ++
            (if a.length ≤ free_count s then [] else 0 :: a.drop (L.length + 1)))) := by
  intro a
  induction a with
  | nil =>
    intro pre s _ _
    refine ⟨[], by simp, ⟨List.nodup_nil, by simp⟩, ?_⟩
    simp [prepare_loop, mark_used_nil]
  | cons x a ih =>
    intro pre s hwf htab
    have hlt : pre.length < (pre ++ x :: a).length := by simp
    rcases getppages_one s hwf with ⟨hz, hg⟩ | ⟨j, hj, h0, hne, hg⟩
    · refine ⟨[], by simp [hz], ⟨List.nodup_nil, by simp⟩, ?_⟩
      simp only [List.length_cons]
      unfold prepare_loop
      rw [if_pos hlt, hg, if_pos rfl, set_after_pre]
      simp [hz, mark_used_nil]
    · have hwf1 : (mark_used s [j]).wf := mark_used_wf s [j] hwf
      have hfc : free_count (mark_used s [j]) + 1 = free_count s :=
        count_set_used s.coremap j 1 hj h0 (by omega)
      obtain ⟨L, hlen, hfree, heq⟩ :=
        ih (pre ++ [frame_paddr s j]) (mark_used s [j]) hwf1 htab
      have hzero : as_zero_region (mark_used s [j]) (frame_paddr s j) 1 = mark_used s [j] := by
        apply as_zero_region_of_small_table
        · rw [length_mark_used, hwf.2.2]
          exact htab
        · have := (frame_paddr_eq s hwf j (by rw [← hwf.2.2]; exact hj)).1
          rw [this]
          show s.coremap_firstaddr + PAGE_SIZE ≤ _
          unfold PAGE_SIZE
          omega
      refine ⟨j :: L, ?_, all_free_cons s j L hj h0 hfree, ?_⟩
      · simp only [List.length_cons, hlen]
        omega
      · simp only [List.length_cons]
        unfold prepare_loop
        rw [if_pos hlt, hg, if_neg hne, set_after_pre]
        simp only
        rw [hzero]
        have hl2 : (pre ++ [frame_paddr s j]).length = pre.length + 1 := by simp
        rw [hl2] at heq
        rw [heq, ← mark_used_cons]
        have hiff : a.length ≤ free_count (mark_used s [j]) ↔ a.length + 1 ≤ free_count s := by
          omega
        by_cases hc : a.length + 1 ≤ free_count s
        · simp [hc, hiff.2 hc, frame_paddr_mark_used]
        · have hc2 : ¬ a.length ≤ free_count (mark_used s [j]) := fun h => hc (hiff.1 h)
          simp [hc, hc2, frame_paddr_mark_used]

/-- A loop of `as_prepare_load` over a frame array that has one slot per page. -/
theorem prepare_segment_spec (np : Nat) (a : List Nat) (s : Coremap) (hwf : s.wf)
    (htab : valid_page_num s ≤ 1024) (ha : a.length = np) :
    ∃ L, L.length = min np (free_count s) ∧ all_free s L ∧
      prepare_segment np s (some a) =
        some (decide (np ≤ free_count s), mark_used s L,
          some (L.map (frame_paddr s) ++
            (if np ≤ free_count s then [] else 0 :: a.drop (L.length + 1)))) := by
  subst ha
  obtain ⟨L, hlen, hfree, heq⟩ := prepare_loop_spec a [] s hwf htab
  refine ⟨L, hlen, hfree, ?_⟩
  cases a with
  | nil =>
    have : L = [] := by
      apply List.eq_nil_of_length_eq_zero
      simpa using hlen
    subst this
    simp [prepare_segment, mark_used_nil]
  | cons x a =>
    simp only [List.length_cons, List.length_nil, List.nil_append] at heq ⊢
    unfold prepare_segment
    simp only [heq]

/-! ## `as_prepare_load` -/

theorem to_int_toNat (n : Nat) (h : n < 2 ^ 31) : (to_int n).toNat = n := by
  unfold to_int
  have h1 : n % 2 ^ 32 = n := Nat.mod_eq_of_lt (by omega)
  rw [h1, if_pos h]
  simp

theorem valid_page_num_lt (s : Coremap) : valid_page_num s < 2 ^ 20 := by
  unfold valid_page_num PAGE_SIZE
  omega

theorem free_count_lt (s : Coremap) (hwf : s.wf) : free_count s < 2 ^ 20 := by
  have h1 := free_count_le s
  have h2 := valid_page_num_lt s
  rw [hwf.2.2] at h1
  omega

theorem frame_paddr_fn_mark_used (s : Coremap) (L : List Nat) :
    frame_paddr (mark_used s L) = frame_paddr s := rfl

theorem frame_paddr_injOn (s : Coremap) (hwf : s.wf) (i j : Nat)
    (hi : i < s.coremap.length) (hj : j < s.coremap.length)
    (h : frame_paddr s i = frame_paddr s j) : i = j := by
  rw [hwf.2.2] at hi hj
  have h1 := (frame_paddr_eq s hwf i hi).1
  have h2 := (frame_paddr_eq s hwf j hj).1
  omega

/-- When the directory has enough free entries, `as_prepare_load` fills the three frame
arrays with the frames of distinct free entries `L1`, `L2`, `L3`, which it marks. -/
theorem as_prepare_load_success (s : Coremap) (as : addrspace) (a1 a2 st : List Nat)
    (hwf : s.wf) (htab : valid_page_num s ≤ 1024)
    (h1 : as.as_pbase1 = some a1) (hl1 : a1.length = as.as_npages1)
    (h2 : as.as_pbase2 = some a2) (hl2 : a2.length = as.as_npages2)
    (hst : st.length = DUMBVM_STACKPAGES)
    (hfree : as.as_npages1 + as.as_npages2 + DUMBVM_STACKPAGES ≤ free_count s) :
    ∃ L1 L2 L3, L1.length = as.as_npages1 ∧ L2.length = as.as_npages2 ∧
      L3.length = DUMBVM_STACKPAGES ∧ all_free s (L1 ++ L2 ++ L3) ∧
      as_prepare_load s as (some st) =
        some (0, mark_used s (L1 ++ L2 ++ L3),
          { as with as_pbase1 := some (L1.map (frame_paddr s)),
                    as_pbase2 := some (L2.map (frame_paddr s)),
                    as_stackpbase := some (L3.map (frame_paddr s)) }) := by
  have hlt := free_count_lt s hwf
  have e1 : (to_int as.as_npages1).toNat = as.as_npages1 := to_int_toNat _ (by omega)
  have e2 : (to_int as.as_npages2).toNat = as.as_npages2 := to_int_toNat _ (by omega)
  obtain ⟨L1, hlen1, hf1, hs1⟩ := prepare_segment_spec as.as_npages1 a1 s hwf htab hl1
  have hc1 : as.as_npages1 ≤ free_count s := by omega
  have hL1 : L1.length = as.as_npages1 := by omega
  have hwf1 := mark_used_wf s L1 hwf
  have hfc1 := free_count_mark_used s L1 hf1
  obtain ⟨L2, hlen2, hf2, hs2⟩ :=
    prepare_segment_spec as.as_npages2 a2 (mark_used s L1) hwf1 htab hl2
  have hc2 : as.as_npages2 ≤ free_count (mark_used s L1) := by omega
  have hL2 : L2.length = as.as_npages2 := by omega
  have hwf2 := mark_used_wf _ L2 hwf1
  have hfc2 := free_count_mark_used _ L2 hf2
  obtain ⟨L3, hlen3, hf3, hs3⟩ :=
    prepare_segment_spec DUMBVM_STACKPAGES st (mark_used (mark_used s L1) L2) hwf2 htab hst
  have hc3 : DUMBVM_STACKPAGES ≤ free_count (mark_used (mark_used s L1) L2) := by omega
  have hL3 : L3.length = DUMBVM_STACKPAGES := by omega
  refine ⟨L1, L2, L3, hL1, hL2, hL3, ?_, ?_⟩
  · apply all_free_append s (L1 ++ L2) L3 (all_free_append s L1 L2 hf1 hf2)
    rw [mark_used_append]
    exact hf3
  · unfold as_prepare_load
    simp only [e1, e2, h1, h2, hs1, hs2, hs3, hc1, hc2, hc3, decide_True, if_true,
      List.append_nil, frame_paddr_fn_mark_used, mark_used_append]

/-- On a well-formed directory of at most 1024 entries, whose table ends before the first
frame, with at least `np1 + np2 + 12` free entries, and for an address space whose two
frame arrays have one slot per page, `as_prepare_load` (the stack array allocated) returns
0, the number of free entries drops by exactly `np1 + np2 + DUMBVM_STACKPAGES`, every slot
of the three frame arrays holds the non-zero address of a frame that was free before and
is marked afterwards, and the recorded addresses are pairwise distinct. On a longer table
the zero-fill of a frame can clear entries of the table, and this need not hold. -/
theorem as_prepare_load_reserves_every_page (s : Coremap) (as : addrspace)
    (a1 a2 st : List Nat) (hwf : s.wf) (htab : valid_page_num s ≤ 1024)
    (h1 : as.as_pbase1 = some a1) (hl1 : a1.length = as.as_npages1)
    (h2 : as.as_pbase2 = some a2) (hl2 : a2.length = as.as_npages2)
    (hst : st.length = DUMBVM_STACKPAGES)
    (hfree : as.as_npages1 + as.as_npages2 + DUMBVM_STACKPAGES ≤ free_count s) :
    ∃ s1 as1 b1 b2 b3, as_prepare_load s as (some st) = some (0, s1, as1) ∧
      free_count s1 + (as.as_npages1 + as.as_npages2 + DUMBVM_STACKPAGES) = free_count s ∧
      as1.as_pbase1 = some b1 ∧ b1.length = as.as_npages1 ∧
      as1.as_pbase2 = some b2 ∧ b2.length = as.as_npages2 ∧
      as1.as_stackpbase = some b3 ∧ b3.length = DUMBVM_STACKPAGES ∧
      (∀ x, x ∈ b1 ++ b2 ++ b3 → x ≠ 0 ∧ ∃ j, x = frame_paddr s j ∧
        cm_read s.coremap j = 0 ∧ cm_read s1.coremap j = 1) ∧
      (b1 ++ b2 ++ b3).Nodup := by
  obtain ⟨L1, L2, L3, hL1, hL2, hL3, hfr, heq⟩ :=
    as_prepare_load_success s as a1 a2 st hwf htab h1 hl1 h2 hl2 hst hfree
  refine ⟨_, _, L1.map (frame_paddr s), L2.map (frame_paddr s), L3.map (frame_paddr s),
    heq, ?_, rfl, by simp [hL1], rfl, by simp [hL2], rfl, by simp [hL3], ?_, ?_⟩
  · have := free_count_mark_used s (L1 ++ L2 ++ L3) hfr
    simp only [List.length_append, hL1, hL2, hL3] at this
    omega
  · intro x hx
    rw [← List.map_append, ← List.map_append, List.mem_map] at hx
    obtain ⟨j, hj, rfl⟩ := hx
    have hjf := hfr.2 j hj
    refine ⟨frame_paddr_ne_zero s hwf j (by rw [← hwf.2.2]; exact hjf.1), j, rfl, hjf.2, ?_⟩
    rw [cm_read_mark_used, if_pos ⟨hj, hjf.1⟩]
  · rw [← List.map_append, ← List.map_append]
    apply List.Nodup.map_on _ hfr.1
    intro x hx y hy hxy
    exact frame_paddr_injOn s hwf x y (hfr.2 x hx).1 (hfr.2 y hy).1 hxy

theorem drop_succ_append_left (a b : List Nat) (k : Nat) (h : k < a.length) :
    (a ++ b).drop (k + 1) = a.drop (k + 1) ++ b := by
  rw [List.drop_append_of_le_length (by omega)]

theorem drop_succ_append_right (a b : List Nat) (k : Nat) (h : a.length ≤ k) :
    (a ++ b).drop (k + 1) = b.drop (k - a.length + 1) := by
  rw [List.drop_append_eq_append_drop, List.drop_eq_nil_of_le (by omega), List.nil_append]
  congr 1
  omega

/-- What `as_prepare_load` does when the directory has fewer free entries than the
address space needs. -/
theorem as_prepare_load_failure (s : Coremap) (as : addrspace)
    (a1 a2 st : List Nat) (hwf : s.wf) (htab : valid_page_num s ≤ 1024)
    (h1 : as.as_pbase1 = some a1) (hl1 : a1.length = as.as_npages1)
    (h2 : as.as_pbase2 = some a2) (hl2 : a2.length = as.as_npages2)
    (hst : st.length = DUMBVM_STACKPAGES)
    (hn1 : as.as_npages1 < 2 ^ 31) (hn2 : as.as_npages2 < 2 ^ 31)
    (hfew : free_count s < as.as_npages1 + as.as_npages2 + DUMBVM_STACKPAGES) :
    ∃ L as1 b1 b2 b3,
      as_prepare_load s as (some st) = some (ENOMEM, mark_used s L, as1) ∧ ENOMEM ≠ 0 ∧
      L.length = free_count s ∧ all_free s L ∧ free_count (mark_used s L) = 0 ∧
      (∀ j, j ∈ L → cm_read (mark_used s L).coremap j = 1 ∧ frame_paddr s j ≠ 0) ∧
      as1.as_pbase1 = some b1 ∧ b1.length = as.as_npages1 ∧
      as1.as_pbase2 = some b2 ∧ b2.length = as.as_npages2 ∧
      b3.length = DUMBVM_STACKPAGES ∧
      (free_count s < as.as_npages1 + as.as_npages2 →
        as1.as_stackpbase = as.as_stackpbase ∧ b3 = st) ∧
      (as.as_npages1 + as.as_npages2 ≤ free_count s → as1.as_stackpbase = some b3) ∧
      b1 ++ b2 ++ b3 =
        L.map (frame_paddr s) ++ 0 :: (a1 ++ a2 ++ st).drop (free_count s + 1) := by
  have e1 : (to_int as.as_npages1).toNat = as.as_npages1 := to_int_toNat _ hn1
  have e2 : (to_int as.as_npages2).toNat = as.as_npages2 := to_int_toNat _ hn2
  have hmarked : ∀ L, all_free s L → free_count (mark_used s L) + L.length = free_count s →
      ∀ j, j ∈ L → cm_read (mark_used s L).coremap j = 1 ∧ frame_paddr s j ≠ 0 := by
    intro L hfr _ j hj
    have hjf := hfr.2 j hj
    refine ⟨?_, frame_paddr_ne_zero s hwf j (by rw [← hwf.2.2]; exact hjf.1)⟩
    rw [cm_read_mark_used, if_pos ⟨hj, hjf.1⟩]
  obtain ⟨L1, hlen1, hf1, hs1⟩ := prepare_segment_spec as.as_npages1 a1 s hwf htab hl1
  have hfc1 := free_count_mark_used s L1 hf1
  by_cases hc1 : as.as_npages1 ≤ free_count s
  · have hL1 : L1.length = as.as_npages1 := by omega
    have hwf1 := mark_used_wf s L1 hwf
    obtain ⟨L2, hlen2, hf2, hs2⟩ :=
      prepare_segment_spec as.as_npages2 a2 (mark_used s L1) hwf1 htab hl2
    have hfc2 := free_count_mark_used _ L2 hf2
    have hf12 := all_free_append s L1 L2 hf1 hf2
    by_cases hc2 : as.as_npages2 ≤ free_count (mark_used s L1)
    · have hL2 : L2.length = as.as_npages2 := by omega
      have hwf2 := mark_used_wf _ L2 hwf1
      obtain ⟨L3, hlen3, hf3, hs3⟩ :=
        prepare_segment_spec DUMBVM_STACKPAGES st (mark_used (mark_used s L1) L2) hwf2 htab hst
      have hfc3 := free_count_mark_used _ L3 hf3
      have hc3 : ¬ DUMBVM_STACKPAGES ≤ free_count (mark_used (mark_used s L1) L2) := by omega
      have hL3 : L3.length = free_count (mark_used (mark_used s L1) L2) := by omega
      have hf123 : all_free s (L1 ++ L2 ++ L3) := by
        apply all_free_append s (L1 ++ L2) L3 hf12
        rw [mark_used_append]
        exact hf3
      have hlen : (L1 ++ L2 ++ L3).length = free_count s := by
        simp only [List.length_append]
        omega
      have hzero : free_count (mark_used s (L1 ++ L2 ++ L3)) = 0 := by
        have := free_count_mark_used s _ hf123
        omega
      refine ⟨L1 ++ L2 ++ L3,
        { as with as_pbase1 := some (L1.map (frame_paddr s)),
                  as_pbase2 := some (L2.map (frame_paddr s)),
                  as_stackpbase := some (L3.map (frame_paddr s) ++ 0 :: st.drop (L3.length + 1)) },
        L1.map (frame_paddr s), L2.map (frame_paddr s),
        L3.map (frame_paddr s) ++ 0 :: st.drop (L3.length + 1), ?_, by decide, hlen, hf123,
        hzero, hmarked _ hf123 (by omega), rfl, by simp [hL1], rfl, by simp [hL2], ?_, ?_,
        fun _ => rfl, ?_⟩
      · unfold as_prepare_load
        simp only [e1, e2, h1, h2, hs1, hs2, hs3, hc1, hc2, hc3, decide_True, decide_False,
          if_true, if_false, List.append_nil, frame_paddr_fn_mark_used, mark_used_append]
      · simp only [List.length_append, List.length_map, List.length_cons, List.length_drop]
        omega
      · intro h
        omega
      · have hk : a1.length + a2.length ≤ free_count s := by omega
        rw [List.append_assoc a1 a2 st, drop_succ_append_right a1 _ _ (by omega),
          drop_succ_append_right a2 _ _ (by omega)]
        have : free_count s - a1.length - a2.length = L3.length := by omega
        rw [this]
        simp [List.map_append, List.append_assoc]
    · have hL2 : L2.length = free_count (mark_used s L1) := by omega
      have hlen : (L1 ++ L2).length = free_count s := by
        simp only [List.length_append]
        omega
      have hzero : free_count (mark_used s (L1 ++ L2)) = 0 := by
        have := free_count_mark_used s _ hf12
        omega
      refine ⟨L1 ++ L2,
        { as with as_pbase1 := some (L1.map (frame_paddr s)),
                  as_pbase2 := some (L2.map (frame_paddr s) ++ 0 :: a2.drop (L2.length + 1)) },
        L1.map (frame_paddr s),
        L2.map (frame_paddr s) ++ 0 :: a2.drop (L2.length + 1), st, ?_, by decide, hlen, hf12,
        hzero, hmarked _ hf12 (by omega), rfl, by simp [hL1], rfl, ?_, hst, fun _ => ⟨rfl, rfl⟩,
        ?_, ?_⟩
      · unfold as_prepare_load
        simp only [e1, e2, h1, h2, hs1, hs2, hc1, hc2, decide_True, decide_False,
          if_true, if_false, List.append_nil, frame_paddr_fn_mark_used, mark_used_append]
      · simp only [List.length_append, List.length_map, List.length_cons, List.length_drop]
        omega
      · intro h
        omega
      · rw [List.append_assoc a1 a2 st, drop_succ_append_right a1 _ _ (by omega),
          drop_succ_append_left a2 _ _ (by omega)]
        have : free_count s - a1.length = L2.length := by omega
        rw [this]
        simp [List.map_append, List.append_assoc]
  · have hL1 : L1.length = free_count s := by omega
    have hzero : free_count (mark_used s L1) = 0 := by omega
    refine ⟨L1,
      { as with as_pbase1 := some (L1.map (frame_paddr s) ++ 0 :: a1.drop (L1.length + 1)) },
      L1.map (frame_paddr s) ++ 0 :: a1.drop (L1.length + 1), a2, st, ?_,
      by decide, hL1, hf1, hzero, hmarked _ hf1 (by omega), rfl, ?_, h2, hl2, hst,
      fun _ => ⟨rfl, rfl⟩, ?_, ?_⟩
    · unfold as_prepare_load
      simp only [e1, e2, h1, h2, hs1, hc1, decide_False, if_false]
    · simp only [List.length_append, List.length_map, List.length_cons, List.length_drop]
      omega
    · intro h
      omega
    · rw [List.append_assoc a1 a2 st, drop_succ_append_left a1 _ _ (by omega), ← hL1]
      simp [List.append_assoc]

/-- On a well-formed directory of at most 1024 entries with fewer free entries than the
`np1 + np2 + 12` the address space needs, `as_prepare_load` returns `ENOMEM`; it has
reserved the frames of exactly the entries `L` that were free, which all stay marked; read
in the order of the three loops, the slots hold the addresses of those frames, then 0 in
the slot of the failed reservation, and every later slot is as it was before (the stack
array is not even installed when the failure happens in a segment loop): nothing is
reserved after the failure and nothing is rolled back. On a longer table the zero-fill of
a frame can clear entries of the table, and this need not hold. -/
theorem as_prepare_load_enomem_keeps_frames (s : Coremap) (as : addrspace)
    (a1 a2 st : List Nat) (hwf : s.wf) (htab : valid_page_num s ≤ 1024)
    (h1 : as.as_pbase1 = some a1) (hl1 : a1.length = as.as_npages1)
    (h2 : as.as_pbase2 = some a2) (hl2 : a2.length = as.as_npages2)
    (hst : st.length = DUMBVM_STACKPAGES)
    (hn1 : as.as_npages1 < 2 ^ 31) (hn2 : as.as_npages2 < 2 ^ 31)
    (hfew : free_count s < as.as_npages1 + as.as_npages2 + DUMBVM_STACKPAGES) :
    ∃ L as1 b1 b2 b3,
      as_prepare_load s as (some st) = some (ENOMEM, mark_used s L, as1) ∧ ENOMEM ≠ 0 ∧
      L.length = free_count s ∧ all_free s L ∧ free_count (mark_used s L) = 0 ∧
      (∀ j, j ∈ L → cm_read (mark_used s L).coremap j = 1 ∧ frame_paddr s j ≠ 0) ∧
      as1.as_pbase1 = some b1 ∧ b1.length = as.as_npages1 ∧
      as1.as_pbase2 = some b2 ∧ b2.length = as.as_npages2 ∧
      b3.length = DUMBVM_STACKPAGES ∧
      (free_count s < as.as_npages1 + as.as_npages2 →
        as1.as_stackpbase = as.as_stackpbase ∧ b3 = st) ∧
      (as.as_npages1 + as.as_npages2 ≤ free_count s → as1.as_stackpbase = some b3) ∧
      b1 ++ b2 ++ b3 =
        L.map (frame_paddr s) ++ 0 :: (a1 ++ a2 ++ st).drop (free_count s + 1) :=
  as_prepare_load_failure s as a1 a2 st hwf htab h1 hl1 h2 hl2 hst hn1 hn2 hfew

/-! ## `as_destroy` -/

theorem coremap_ext (a b : Coremap) (h1 : a.coremap = b.coremap)
    (h2 : a.coremap_firstaddr = b.coremap_firstaddr)
    (h3 : a.coremap_lastaddr = b.coremap_lastaddr) : a = b := by
  cases a
  cases b
  simp_all

/-- Releasing the frame of a marked entry `j` while the other entries of `L` are still
marked clears exactly entry `j`. -/
theorem free_kpages_marked (s : Coremap) (hwf : s.wf) (hinv : run_invariant s.coremap)
    (j : Nat) (L : List Nat) (h : all_free s (j :: L)) :
    free_kpages (mark_used s (j :: L)) (PADDR_TO_KVADDR (frame_paddr s j)) = mark_used s L := by
  obtain ⟨hj, h0, hnot, -, -⟩ := all_free_tail s j L h
  have hwfM := mark_used_wf s (j :: L) hwf
  have hjv : j < valid_page_num s := by rw [← hwf.2.2]; exact hj
  have hcount := free_count_of_frame (mark_used s (j :: L)) hwfM j hjv
  rw [free_kpages_eq (mark_used s (j :: L)) (PADDR_TO_KVADDR (frame_paddr s j)) j (j + 1)
    hcount (by omega) (by show j + 1 ≤ valid_page_num s; omega) (by intro k hk1 hk2; omega)
    (by
      by_cases hend : j + 1 = valid_page_num s
      · exact Or.inl hend
      · right
        rw [cm_read_mark_used]
        by_cases hc : j + 1 ∈ j :: L ∧ j + 1 < s.coremap.length
        · rw [if_pos hc]
        · rw [if_neg hc]
          exact run_invariant_after_free s.coremap hinv j h0)]
  refine coremap_ext _ _ ?_ rfl rfl
  show clear_range (mark_used s (j :: L)).coremap j (j + 1) = (mark_used s L).coremap
  apply cm_ext
  · rw [length_clear_range, length_mark_used, length_mark_used]
  · intro k _
    rw [cm_read_clear_range, cm_read_mark_used, cm_read_mark_used]
    by_cases hk : k = j
    · subst hk
      rw [if_pos (by omega), if_neg (fun hc => hnot hc.1), h0]
    · rw [if_neg (by omega)]
      simp [hk]

theorem foldl_free_kpages_marked (s : Coremap) (hwf : s.wf) (hinv : run_invariant s.coremap)
    (L : List Nat) (h : all_free s L) :
    (L.map (fun j => PADDR_TO_KVADDR (frame_paddr s j))).foldl free_kpages (mark_used s L)
      = s := by
  induction L with
  | nil => rfl
  | cons j L ih =>
    rw [List.map_cons, List.foldl_cons, free_kpages_marked s hwf hinv j L h]
    exact ih (all_free_tail s j L h).2.2.2.1

/-- A loop of `as_destroy` over the slots `rest` that follow the slots `pre` calls
`free_kpages` on each slot in turn. -/
theorem destroy_loop_spec : ∀ (rest pre : List Nat) (t : DestroyTrace),
    destroy_loop (some (pre ++ rest)) rest.length pre.length t =
      { cm := (rest.map PADDR_TO_KVADDR).foldl free_kpages t.cm,
        released := t.released ++ rest.map PADDR_TO_KVADDR,
        bad_read := t.bad_read } := by
  intro rest
  induction rest with
  | nil => intro pre t; simp [destroy_loop]
  | cons x rest ih =>
    intro pre t
    have hlt : pre.length < (pre ++ x :: rest).length := by simp
    have hget : (pre ++ x :: rest).getD pre.length 0 = x := by
      rw [List.getD_eq_getElem?_getD, List.getElem?_append_right (le_refl _)]
      simp
    simp only [List.length_cons]
    unfold destroy_loop
    simp only [hlt, if_true, hget]
    have := ih (pre ++ [x])
      { t with cm := free_kpages t.cm (PADDR_TO_KVADDR x),
               released := t.released ++ [PADDR_TO_KVADDR x] }
    simp only [List.length_append, List.length_singleton, List.append_assoc,
      List.singleton_append] at this
    rw [this]
    simp

theorem destroy_loop_all (a : List Nat) (t : DestroyTrace) :
    destroy_loop (some a) a.length 0 t =
      { cm := (a.map PADDR_TO_KVADDR).foldl free_kpages t.cm,
        released := t.released ++ a.map PADDR_TO_KVADDR,
        bad_read := t.bad_read } := by
  have := destroy_loop_spec a [] t
  simpa using this

theorem as_prepare_load_zero_enough (s : Coremap) (as : addrspace) (a1 a2 st : List Nat)
    (hwf : s.wf) (htab : valid_page_num s ≤ 1024)
    (h1 : as.as_pbase1 = some a1) (hl1 : a1.length = as.as_npages1)
    (h2 : as.as_pbase2 = some a2) (hl2 : a2.length = as.as_npages2)
    (hst : st.length = DUMBVM_STACKPAGES)
    (hn1 : as.as_npages1 < 2 ^ 31) (hn2 : as.as_npages2 < 2 ^ 31)
    (s1 : Coremap) (as1 : addrspace)
    (hprep : as_prepare_load s as (some st) = some (0, s1, as1)) :
    as.as_npages1 + as.as_npages2 + DUMBVM_STACKPAGES ≤ free_count s := by
  by_contra hfew
  obtain ⟨L, as2, -, -, -, heq, hne, -⟩ :=
    as_prepare_load_failure s as a1 a2 st hwf htab h1 hl1 h2 hl2 hst hn1 hn2 (by omega)
  rw [heq] at hprep
  simp only [Option.some.injEq, Prod.mk.injEq] at hprep
  exact hne hprep.1

/-- On a well-formed directory of at most 1024 entries that satisfies the run invariant,
for an address space (frame arrays with one slot per page) on which `as_prepare_load`
returned 0, `as_destroy` reads no missing slot, calls `free_kpages` once per reserved frame
(`np1 + np2 + 12` calls) and leaves the directory exactly as it was before
`as_prepare_load`, so that all those frames are free again and the same `as_prepare_load`
succeeds again with the same result. -/
theorem as_destroy_undoes_as_prepare_load (s : Coremap) (as : addrspace)
    (a1 a2 st : List Nat) (hwf : s.wf) (htab : valid_page_num s ≤ 1024)
    (hinv : run_invariant s.coremap)
    (h1 : as.as_pbase1 = some a1) (hl1 : a1.length = as.as_npages1)
    (h2 : as.as_pbase2 = some a2) (hl2 : a2.length = as.as_npages2)
    (hst : st.length = DUMBVM_STACKPAGES)
    (hn1 : as.as_npages1 < 2 ^ 31) (hn2 : as.as_npages2 < 2 ^ 31)
    (s1 : Coremap) (as1 : addrspace)
    (hprep : as_prepare_load s as (some st) = some (0, s1, as1)) :
    (as_destroy s1 as1).bad_read = false ∧
    (as_destroy s1 as1).released.length
      = as.as_npages1 + as.as_npages2 + DUMBVM_STACKPAGES ∧
    (as_destroy s1 as1).cm = s ∧
    free_count (as_destroy s1 as1).cm
      = free_count s1 + (as.as_npages1 + as.as_npages2 + DUMBVM_STACKPAGES) ∧
    as_prepare_load (as_destroy s1 as1).cm as (some st) = some (0, s1, as1) := by
  have hen := as_prepare_load_zero_enough s as a1 a2 st hwf htab h1 hl1 h2 hl2 hst hn1 hn2 s1 as1
    hprep
  obtain ⟨L1, L2, L3, hL1, hL2, hL3, hfr, heq⟩ :=
    as_prepare_load_success s as a1 a2 st hwf htab h1 hl1 h2 hl2 hst hen
  have hprep0 := hprep
  rw [heq] at hprep
  simp only [Option.some.injEq, Prod.mk.injEq, true_and] at hprep
  obtain ⟨hs1, has1⟩ := hprep
  have e1 : (to_int as.as_npages1).toNat = (L1.map (frame_paddr s)).length := by
    rw [to_int_toNat _ hn1, List.length_map, hL1]
  have e2 : (to_int as.as_npages2).toNat = (L2.map (frame_paddr s)).length := by
    rw [to_int_toNat _ hn2, List.length_map, hL2]
  have e3 : DUMBVM_STACKPAGES = (L3.map (frame_paddr s)).length := by
    rw [List.length_map, hL3]
  have hd : as_destroy s1 as1 =
      { cm := s,
        released := ((L1 ++ L2 ++ L3).map (frame_paddr s)).map PADDR_TO_KVADDR,
        bad_read := false } := by
    rw [← has1, ← hs1]
    unfold as_destroy
    simp only [e1, e2]
    rw [e3, destroy_loop_all, destroy_loop_all, destroy_loop_all]
    simp only [Bool.false_eq_true, if_false, List.nil_append]
    have hfold : (((L1 ++ L2 ++ L3).map (frame_paddr s)).map PADDR_TO_KVADDR).foldl
        free_kpages (mark_used s (L1 ++ L2 ++ L3)) = s := by
      rw [List.map_map]
      exact foldl_free_kpages_marked s hwf hinv (L1 ++ L2 ++ L3) hfr
    simp only [List.map_append, List.foldl_append, List.append_assoc] at hfold ⊢
    rw [hfold]
  have hcount := free_count_mark_used s (L1 ++ L2 ++ L3) hfr
  rw [hs1] at hcount
  simp only [List.length_append, hL1, hL2, hL3] at hcount
  rw [hd]
  refine ⟨rfl, ?_, rfl, ?_, hprep0⟩
  · simp only [List.length_map, List.length_append, hL1, hL2, hL3]
  · show free_count s = _
    omega

/-- C9 (the code does not do this): the address space `sample_as` on the directory
`sample_coremap_full`, which has one free frame. `as_prepare_load` returns `ENOMEM` after
one reservation, with the other slots zero and no stack array. `as_destroy` then calls
`free_kpages` on every slot of the two segment arrays, the four zero slots included
(argument `PADDR_TO_KVADDR 0`), and goes on to read the stack array that was never
allocated; on a fresh `as_create` space it reads that missing array at once. -/
theorem as_destroy_releases_zero_slots_and_reads_missing_stack :
    (as_prepare_load sample_coremap_full sample_as (some sample_stack)).map
        (fun r => (r.1, (as_destroy r.2.1 r.2.2).released, (as_destroy r.2.1 r.2.2).bad_read))
      = some (ENOMEM,
          [PADDR_TO_KVADDR 0x44000, PADDR_TO_KVADDR 0, PADDR_TO_KVADDR 0, PADDR_TO_KVADDR 0,
            PADDR_TO_KVADDR 0], true) ∧
    (as_destroy sample_coremap as_create).bad_read = true := by
  decide

/-! ## The theorems at sample states -/

/-- A reservation of 2 frames on `sample_coremap` and its release. -/
theorem free_kpages_undoes_coremap_stealmem_witness :
    sample_coremap.wf ∧ run_invariant sample_coremap.coremap ∧ 1 ≤ 2 ∧
    (coremap_stealmem sample_coremap 2).1 ≠ 0 ∧
    (free_kpages (coremap_stealmem sample_coremap 2).2
        (PADDR_TO_KVADDR (coremap_stealmem sample_coremap 2).1) = sample_coremap ∧
      (coremap_stealmem
        (free_kpages (coremap_stealmem sample_coremap 2).2
          (PADDR_TO_KVADDR (coremap_stealmem sample_coremap 2).1)) 2).1
          = (coremap_stealmem sample_coremap 2).1 ∧
      (coremap_stealmem
        (free_kpages (coremap_stealmem sample_coremap 2).2
          (PADDR_TO_KVADDR (coremap_stealmem sample_coremap 2).1)) 2).1 ≠ 0) :=
  ⟨by decide, by decide, by decide, by decide,
    free_kpages_undoes_coremap_stealmem sample_coremap 2 (by decide) (by decide) (by decide)
      (by decide)⟩

/-- A reservation of 2 frames on `sample_coremap`. -/
theorem coremap_stealmem_lowest_run_or_fail_witness :
    sample_coremap.wf ∧ 1 ≤ 2 ∧
    ((∃ i, free_run sample_coremap i 2 ∧ (∀ j, j < i → ¬ free_run sample_coremap j 2) ∧
      (coremap_stealmem sample_coremap 2).1 = frame_paddr sample_coremap i ∧
      (coremap_stealmem sample_coremap 2).1 ≠ 0 ∧
      (coremap_stealmem sample_coremap 2).2.coremap_firstaddr
        = sample_coremap.coremap_firstaddr ∧
      (coremap_stealmem sample_coremap 2).2.coremap_lastaddr
        = sample_coremap.coremap_lastaddr ∧
      (coremap_stealmem sample_coremap 2).2.coremap.length = sample_coremap.coremap.length ∧
      (∀ k, cm_read (coremap_stealmem sample_coremap 2).2.coremap k =
        if i ≤ k ∧ k < i + 2 then ((k - i + 1 : Nat) : Int)
        else cm_read sample_coremap.coremap k) ∧
      free_count (coremap_stealmem sample_coremap 2).2 + 2 = free_count sample_coremap)
    ∨ ((∀ i, ¬ free_run sample_coremap i 2) ∧
      coremap_stealmem sample_coremap 2 = (0, sample_coremap))) :=
  ⟨by decide, by decide,
    coremap_stealmem_lowest_run_or_fail sample_coremap 2 (by decide) (by decide)⟩

/-- A release on `sample_coremap_full`: the run of 2 frames at entry 0 is followed by
another allocated run. -/
theorem free_kpages_frees_exactly_the_run_witness :
    sample_coremap_full.wf ∧ run_invariant sample_coremap_full.coremap ∧ 1 ≤ 2 ∧
    0 + 2 ≤ valid_page_num sample_coremap_full ∧
    (∀ j, j < 2 → cm_read sample_coremap_full.coremap (0 + j) = ((j + 1 : Nat) : Int)) ∧
    cm_read sample_coremap_full.coremap (0 + 2) ≠ ((2 + 1 : Nat) : Int) ∧
    ((free_kpages sample_coremap_full
        (PADDR_TO_KVADDR (frame_paddr sample_coremap_full 0))).coremap_firstaddr
        = sample_coremap_full.coremap_firstaddr ∧
      (free_kpages sample_coremap_full
        (PADDR_TO_KVADDR (frame_paddr sample_coremap_full 0))).coremap_lastaddr
        = sample_coremap_full.coremap_lastaddr ∧
      (free_kpages sample_coremap_full
        (PADDR_TO_KVADDR (frame_paddr sample_coremap_full 0))).coremap.length
        = sample_coremap_full.coremap.length ∧
      ∀ m, cm_read (free_kpages sample_coremap_full
          (PADDR_TO_KVADDR (frame_paddr sample_coremap_full 0))).coremap m =
        if 0 ≤ m ∧ m < 0 + 2 then 0 else cm_read sample_coremap_full.coremap m) :=
  ⟨by decide, by decide, by decide, by decide, by decide, by decide,
    free_kpages_frees_exactly_the_run sample_coremap_full 0 2 (by decide) (by decide)
      (by decide) (by decide) (by decide) (by decide)⟩

/-- The invariant on `sample_coremap`: after bootstrap, after a reservation of 2 frames
and after a release of the frame of entry 3. -/
theorem run_invariant_preserved_witness :
    run_invariant (vm_bootstrap 0x40000 0x47000).coremap ∧
    (sample_coremap.wf ∧ run_invariant sample_coremap.coremap ∧ 1 ≤ 2 ∧
      (coremap_stealmem sample_coremap 2).2.wf ∧
      run_invariant (coremap_stealmem sample_coremap 2).2.coremap) ∧
    ((free_kpages sample_coremap (PADDR_TO_KVADDR (frame_paddr sample_coremap 3))).wf ∧
      run_invariant
        (free_kpages sample_coremap (PADDR_TO_KVADDR (frame_paddr sample_coremap 3))).coremap) :=
  ⟨run_invariant_preserved.1 0x40000 0x47000,
    ⟨by decide, by decide, by decide,
      run_invariant_preserved.2.1 sample_coremap 2 (by decide) (by decide) (by decide)⟩,
    run_invariant_preserved.2.2 sample_coremap _ (by decide) (by decide)⟩

/-- Two reservations on `sample_coremap`: one of 2 frames, then one of 1 frame. -/
theorem consecutive_reservations_disjoint_witness :
    sample_coremap.wf ∧ 1 ≤ 2 ∧ 1 ≤ 1 ∧ (coremap_stealmem sample_coremap 2).1 ≠ 0 ∧
    (coremap_stealmem (coremap_stealmem sample_coremap 2).2 1).1 ≠ 0 ∧
    (((coremap_stealmem sample_coremap 2).1 + 2 * PAGE_SIZE
          ≤ (coremap_stealmem (coremap_stealmem sample_coremap 2).2 1).1 ∨
        (coremap_stealmem (coremap_stealmem sample_coremap 2).2 1).1 + 1 * PAGE_SIZE
          ≤ (coremap_stealmem sample_coremap 2).1) ∧
      ∀ k, k < valid_page_num sample_coremap → cm_read sample_coremap.coremap k ≠ 0 →
        (frame_paddr sample_coremap k + PAGE_SIZE ≤ (coremap_stealmem sample_coremap 2).1 ∨
          (coremap_stealmem sample_coremap 2).1 + 2 * PAGE_SIZE
            ≤ frame_paddr sample_coremap k) ∧
        (frame_paddr sample_coremap k + PAGE_SIZE
            ≤ (coremap_stealmem (coremap_stealmem sample_coremap 2).2 1).1 ∨
          (coremap_stealmem (coremap_stealmem sample_coremap 2).2 1).1 + 1 * PAGE_SIZE
            ≤ frame_paddr sample_coremap k)) :=
  ⟨by decide, by decide, by decide, by decide, by decide,
    consecutive_reservations_disjoint sample_coremap 2 1 (by decide) (by decide) (by decide)
      (by decide) (by decide)⟩

/-- Loading `sample_as` on `sample_coremap20`: 18 free frames, 3 + 2 + 12 needed. -/
theorem as_prepare_load_reserves_every_page_witness :
    sample_coremap20.wf ∧ valid_page_num sample_coremap20 ≤ 1024 ∧
    sample_as.as_pbase1 = some [0, 0, 0] ∧
    [0, 0, 0].length = sample_as.as_npages1 ∧ sample_as.as_pbase2 = some [0, 0] ∧
    [0, 0].length = sample_as.as_npages2 ∧ sample_stack.length = DUMBVM_STACKPAGES ∧
    sample_as.as_npages1 + sample_as.as_npages2 + DUMBVM_STACKPAGES
      ≤ free_count sample_coremap20 ∧
    ∃ s1 as1 b1 b2 b3,
      as_prepare_load sample_coremap20 sample_as (some sample_stack) = some (0, s1, as1) ∧
      free_count s1 + (sample_as.as_npages1 + sample_as.as_npages2 + DUMBVM_STACKPAGES)
        = free_count sample_coremap20 ∧
      as1.as_pbase1 = some b1 ∧ b1.length = sample_as.as_npages1 ∧
      as1.as_pbase2 = some b2 ∧ b2.length = sample_as.as_npages2 ∧
      as1.as_stackpbase = some b3 ∧ b3.length = DUMBVM_STACKPAGES ∧
      (∀ x, x ∈ b1 ++ b2 ++ b3 → x ≠ 0 ∧ ∃ j, x = frame_paddr sample_coremap20 j ∧
        cm_read sample_coremap20.coremap j = 0 ∧ cm_read s1.coremap j = 1) ∧
      (b1 ++ b2 ++ b3).Nodup :=
  ⟨by decide, by decide, by decide, by decide, by decide, by decide, by decide, by decide,
    as_prepare_load_reserves_every_page sample_coremap20 sample_as [0, 0, 0] [0, 0]
      sample_stack (by decide) (by decide) (by decide) (by decide) (by decide) (by decide)
      (by decide) (by decide)⟩

/-- Loading `sample_as` on `sample_coremap_full`: 1 free frame, 3 + 2 + 12 needed. -/
theorem as_prepare_load_enomem_keeps_frames_witness :
    sample_coremap_full.wf ∧ valid_page_num sample_coremap_full ≤ 1024 ∧
    sample_as.as_pbase1 = some [0, 0, 0] ∧
    [0, 0, 0].length = sample_as.as_npages1 ∧ sample_as.as_pbase2 = some [0, 0] ∧
    [0, 0].length = sample_as.as_npages2 ∧ sample_stack.length = DUMBVM_STACKPAGES ∧
    sample_as.as_npages1 < 2 ^ 31 ∧ sample_as.as_npages2 < 2 ^ 31 ∧
    free_count sample_coremap_full
      < sample_as.as_npages1 + sample_as.as_npages2 + DUMBVM_STACKPAGES ∧
    ∃ L as1 b1 b2 b3,
      as_prepare_load sample_coremap_full sample_as (some sample_stack)
        = some (ENOMEM, mark_used sample_coremap_full L, as1) ∧ ENOMEM ≠ 0 ∧
      L.length = free_count sample_coremap_full ∧ all_free sample_coremap_full L ∧
      free_count (mark_used sample_coremap_full L) = 0 ∧
      (∀ j, j ∈ L → cm_read (mark_used sample_coremap_full L).coremap j = 1 ∧
        frame_paddr sample_coremap_full j ≠ 0) ∧
      as1.as_pbase1 = some b1 ∧ b1.length = sample_as.as_npages1 ∧
      as1.as_pbase2 = some b2 ∧ b2.length = sample_as.as_npages2 ∧
      b3.length = DUMBVM_STACKPAGES ∧
      (free_count sample_coremap_full < sample_as.as_npages1 + sample_as.as_npages2 →
        as1.as_stackpbase = sample_as.as_stackpbase ∧ b3 = sample_stack) ∧
      (sample_as.as_npages1 + sample_as.as_npages2 ≤ free_count sample_coremap_full →
        as1.as_stackpbase = some b3) ∧
      b1 ++ b2 ++ b3 =
        L.map (frame_paddr sample_coremap_full) ++
          0 :: ([0, 0, 0] ++ [0, 0] ++ sample_stack).drop (free_count sample_coremap_full + 1) :=
  ⟨by decide, by decide, by decide, by decide, by decide, by decide, by decide, by decide,
    by decide, by decide,
    as_prepare_load_enomem_keeps_frames sample_coremap_full sample_as [0, 0, 0] [0, 0]
      sample_stack (by decide) (by decide) (by decide) (by decide) (by decide) (by decide)
      (by decide) (by decide) (by decide) (by decide)⟩

/-- The two-segment space with 3 and 2 pages: the 5 + 12 = 17 frames reserved on
`sample_coremap20` are free again after `as_destroy`. -/
theorem as_destroy_undoes_as_prepare_load_witness :
    sample_coremap20.wf ∧ valid_page_num sample_coremap20 ≤ 1024 ∧
    run_invariant sample_coremap20.coremap ∧
    sample_as.as_pbase1 = some [0, 0, 0] ∧ [0, 0, 0].length = sample_as.as_npages1 ∧
    sample_as.as_pbase2 = some [0, 0] ∧ [0, 0].length = sample_as.as_npages2 ∧
    sample_stack.length = DUMBVM_STACKPAGES ∧
    sample_as.as_npages1 < 2 ^ 31 ∧ sample_as.as_npages2 < 2 ^ 31 ∧
    as_prepare_load sample_coremap20 sample_as (some sample_stack)
      = some (0, sample_coremap20_loaded, sample_as_loaded) ∧
    ((as_destroy sample_coremap20_loaded sample_as_loaded).bad_read = false ∧
      (as_destroy sample_coremap20_loaded sample_as_loaded).released.length
        = sample_as.as_npages1 + sample_as.as_npages2 + DUMBVM_STACKPAGES ∧
      (as_destroy sample_coremap20_loaded sample_as_loaded).cm = sample_coremap20 ∧
      free_count (as_destroy sample_coremap20_loaded sample_as_loaded).cm
        = free_count sample_coremap20_loaded
          + (sample_as.as_npages1 + sample_as.as_npages2 + DUMBVM_STACKPAGES) ∧
      as_prepare_load (as_destroy sample_coremap20_loaded sample_as_loaded).cm sample_as
          (some sample_stack)
        = some (0, sample_coremap20_loaded, sample_as_loaded)) :=
  ⟨by decide, by decide, by decide, by decide, by decide, by decide, by decide, by decide,
    by decide, by decide, by decide,
    as_destroy_undoes_as_prepare_load sample_coremap20 sample_as [0, 0, 0] [0, 0]
      sample_stack (by decide) (by decide) (by decide) (by decide) (by decide) (by decide)
      (by decide) (by decide) (by decide) (by decide) sample_coremap20_loaded sample_as_loaded
      (by decide)⟩

/-! ## Masks -/

theorem land_PAGE_FRAME (x : Nat) (h : x < 2 ^ 32) :
    x &&& PAGE_FRAME = x / 4096 * 4096 := by
  unfold PAGE_FRAME
  apply Nat.eq_of_testBit_eq
  intro i
  rw [Nat.testBit_and, show (4096 : Nat) = 2 ^ 12 from rfl, Nat.mul_comm,
    Nat.testBit_mul_pow_two, ← Nat.shiftRight_eq_div_pow, Nat.testBit_shiftRight]
  by_cases hi : 12 ≤ i
  · by_cases hi2 : i < 32
    · have : (0xfffff000 : Nat).testBit i = true := by
        interval_cases i <;> rfl
      simp [this, hi]
    · have h1 : x.testBit i = false :=
        Nat.testBit_lt_two_pow
          (lt_of_lt_of_le h (Nat.pow_le_pow_right (by norm_num) (by omega)))
      simp [h1, hi]
  · have : (0xfffff000 : Nat).testBit i = false := by
      have : i < 12 := by omega
      interval_cases i <;> rfl
    simp [this, hi]

theorem land_low (x : Nat) : x &&& (2 ^ 32 - 1 - PAGE_FRAME) = x % 4096 :=
  Nat.and_pow_two_sub_one_eq_mod x 12

theorem land_PAGE_FRAME_lt (x : Nat) : x &&& PAGE_FRAME < 2 ^ 32 := by
  have : x &&& PAGE_FRAME ≤ PAGE_FRAME := Nat.and_le_right
  unfold PAGE_FRAME at this ⊢
  omega

/-- A value passes the test `(x & PAGE_FRAME) == x` exactly when it is a 32-bit multiple
of the page size. -/
theorem land_PAGE_FRAME_eq_iff (x : Nat) :
    x &&& PAGE_FRAME = x ↔ x < 2 ^ 32 ∧ x % 4096 = 0 := by
  constructor
  · intro h
    have hlt := land_PAGE_FRAME_lt x
    rw [h] at hlt
    have := land_PAGE_FRAME x hlt
    rw [h] at this
    exact ⟨hlt, by omega⟩
  · rintro ⟨h1, h2⟩
    rw [land_PAGE_FRAME x h1]
    omega

/-! ## `as_define_region` and `as_complete_load` -/

/-- The base and the page count `as_define_region` computes when the sum does not
overflow. -/
theorem as_define_region_values (vaddr sz : Nat) (hv : vaddr < 2 ^ 32)
    (hov : vaddr % 4096 + sz + 4096 - 1 < 2 ^ 32) :
    vaddr &&& PAGE_FRAME = vaddr / 4096 * 4096 ∧
    ((((sz + (vaddr &&& (2 ^ 32 - 1 - PAGE_FRAME))) % 2 ^ 32 + PAGE_SIZE - 1) % 2 ^ 32)
      &&& PAGE_FRAME) / PAGE_SIZE = (vaddr % 4096 + sz + 4095) / 4096 := by
  refine ⟨land_PAGE_FRAME vaddr hv, ?_⟩
  rw [land_low]
  unfold PAGE_SIZE
  have h1 : (sz + vaddr % 4096) % 2 ^ 32 = sz + vaddr % 4096 := Nat.mod_eq_of_lt (by omega)
  rw [h1]
  have h2 : (sz + vaddr % 4096 + 4096 - 1) % 2 ^ 32 = sz + vaddr % 4096 + 4095 :=
    by rw [Nat.mod_eq_of_lt (by omega)]; omega
  rw [h2, land_PAGE_FRAME _ (by omega)]
  omega

/-- C13: for every address space with a free segment slot (and, for the second slot,
a frame array from `kmalloc`) and every 32-bit `vaddr` and `sz` whose sum
`(vaddr mod PAGE_SIZE) + sz + PAGE_SIZE - 1` does not overflow 32 bits, `as_define_region`
returns 0 and records, in the first free slot, base = `vaddr` rounded down to a page
boundary and page count = the ceiling of `((vaddr mod PAGE_SIZE) + sz) / PAGE_SIZE`,
leaving the other slot as it was; `[base, base + npages*PAGE_SIZE)` is page-aligned,
contains `[vaddr, vaddr + sz)`, and lies inside every page-aligned range that does. -/
theorem as_define_region_records_aligned_range (as : addrspace) (vaddr sz : Nat)
    (k : Option (List Nat)) (hv : vaddr < 2 ^ 32)
    (hov : vaddr % PAGE_SIZE + sz + PAGE_SIZE - 1 < 2 ^ 32)
    (hslot : as.as_vbase1 = 0 ∨ (as.as_vbase2 = 0 ∧ k ≠ none)) :
    ∃ as1, as_define_region as vaddr sz k = some (0, as1) ∧
      (as.as_vbase1 = 0 →
        as1.as_vbase1 = vaddr / PAGE_SIZE * PAGE_SIZE ∧
        as1.as_npages1 = (vaddr % PAGE_SIZE + sz + (PAGE_SIZE - 1)) / PAGE_SIZE ∧
        as1.as_pbase1 = k ∧
        as1.as_vbase2 = as.as_vbase2 ∧ as1.as_npages2 = as.as_npages2 ∧
        as1.as_pbase2 = as.as_pbase2) ∧
      (as.as_vbase1 ≠ 0 →
        as1.as_vbase2 = vaddr / PAGE_SIZE * PAGE_SIZE ∧
        as1.as_npages2 = (vaddr % PAGE_SIZE + sz + (PAGE_SIZE - 1)) / PAGE_SIZE ∧
        as1.as_pbase2 = k ∧
        as1.as_vbase1 = as.as_vbase1 ∧ as1.as_npages1 = as.as_npages1 ∧
        as1.as_pbase1 = as.as_pbase1) ∧
      as1.as_stackpbase = as.as_stackpbase ∧
      as1.as_loadelf_complete = as.as_loadelf_complete ∧
      (vaddr / PAGE_SIZE * PAGE_SIZE) % PAGE_SIZE = 0 ∧
      vaddr / PAGE_SIZE * PAGE_SIZE ≤ vaddr ∧
      vaddr + sz ≤ vaddr / PAGE_SIZE * PAGE_SIZE
        + (vaddr % PAGE_SIZE + sz + (PAGE_SIZE - 1)) / PAGE_SIZE * PAGE_SIZE ∧
      ∀ b m, b % PAGE_SIZE = 0 → b ≤ vaddr → vaddr + sz ≤ b + m * PAGE_SIZE →
        b ≤ vaddr / PAGE_SIZE * PAGE_SIZE ∧
        vaddr / PAGE_SIZE * PAGE_SIZE
          + (vaddr % PAGE_SIZE + sz + (PAGE_SIZE - 1)) / PAGE_SIZE * PAGE_SIZE
          ≤ b + m * PAGE_SIZE := by
  have hp : PAGE_SIZE = 4096 := rfl
  rw [hp] at hov
  obtain ⟨e1, e2⟩ := as_define_region_values vaddr sz hv hov
  have harith : (vaddr / 4096 * 4096) % 4096 = 0 ∧ vaddr / 4096 * 4096 ≤ vaddr ∧
      vaddr + sz ≤ vaddr / 4096 * 4096 + (vaddr % 4096 + sz + (4096 - 1)) / 4096 * 4096 ∧
      ∀ b m, b % 4096 = 0 → b ≤ vaddr → vaddr + sz ≤ b + m * 4096 →
        b ≤ vaddr / 4096 * 4096 ∧
        vaddr / 4096 * 4096 + (vaddr % 4096 + sz + (4096 - 1)) / 4096 * 4096
          ≤ b + m * 4096 := by
    refine ⟨by omega, by omega, by omega, ?_⟩
    intro b m hb1 hb2 hb3
    constructor <;> omega
  by_cases h1 : as.as_vbase1 = 0
  · refine ⟨{ as with
        as_vbase1 := vaddr &&& PAGE_FRAME,
        as_npages1 := ((((sz + (vaddr &&& (2 ^ 32 - 1 - PAGE_FRAME))) % 2 ^ 32 + PAGE_SIZE - 1)
          % 2 ^ 32) &&& PAGE_FRAME) / PAGE_SIZE,
        as_pbase1 := k },
      by unfold as_define_region; simp only [h1, if_true], ?_, ?_, rfl, rfl, ?_⟩
    · intro _
      exact ⟨by rw [hp]; exact e1, by rw [hp]; exact e2, rfl, rfl, rfl, rfl⟩
    · intro h; exact absurd h1 h
    · rw [hp]; exact harith
  · rcases hslot with h | ⟨h2, hk⟩
    · exact absurd h h1
    · obtain ⟨arr, rfl⟩ := Option.ne_none_iff_exists'.1 hk
      refine ⟨{ as with
          as_vbase2 := vaddr &&& PAGE_FRAME,
          as_npages2 := ((((sz + (vaddr &&& (2 ^ 32 - 1 - PAGE_FRAME))) % 2 ^ 32 + PAGE_SIZE - 1)
            % 2 ^ 32) &&& PAGE_FRAME) / PAGE_SIZE,
          as_pbase2 := some arr },
        by unfold as_define_region; simp only [h1, h2, if_true, if_false], ?_, ?_,
        rfl, rfl, ?_⟩
      · intro h; exact absurd h h1
      · intro _
        exact ⟨by rw [hp]; exact e1, by rw [hp]; exact e2, rfl, rfl, rfl, rfl⟩
      · rw [hp]; exact harith

/-- Once both recorded bases are non-zero, `as_define_region` returns `EUNIMP` and leaves
the address space as it is. -/
theorem as_define_region_third (as : addrspace) (vaddr sz : Nat) (k : Option (List Nat))
    (h1 : as.as_vbase1 ≠ 0) (h2 : as.as_vbase2 ≠ 0) :
    as_define_region as vaddr sz k = some (EUNIMP, as) := by
  unfold as_define_region
  simp only [h1, h2, if_false]

/-- C14 (the code does not do this): on a fresh address space a first region at
`vaddr = 0x10` is recorded with base 0, so the first slot still counts as free; the second
call overwrites its descriptor, and the third call returns 0, not `EUNIMP`, and fills the
second slot. -/
theorem as_define_region_third_call_accepted :
    as_define_region as_create 0x10 0x100 (some [0])
      = some (0, { as_create with as_vbase1 := 0, as_npages1 := 1, as_pbase1 := some [0] }) ∧
    as_define_region { as_create with as_vbase1 := 0, as_npages1 := 1, as_pbase1 := some [0] }
        0x400000 0x2000 (some [0, 0])
      = some (0, { as_create with
          as_vbase1 := 0x400000, as_npages1 := 2, as_pbase1 := some [0, 0] }) ∧
    as_define_region
        { as_create with as_vbase1 := 0x400000, as_npages1 := 2, as_pbase1 := some [0, 0] }
        0x10000000 0x1000 (some [0])
      = some (0, { as_create with
          as_vbase1 := 0x400000, as_npages1 := 2, as_pbase1 := some [0, 0],
          as_vbase2 := 0x10000000, as_npages2 := 1, as_pbase2 := some [0] }) ∧
    (0 : Int) ≠ EUNIMP := by
  decide

/-- C15 (the code does not do this): `as_define_region` with `vaddr = 0x10`, `sz = 0x100`
returns 0 and records the base 0, on a fresh address space for the first segment and,
after a first region at `0x400000`, for the second segment; 0 is the value `vm_fault`
asserts `as_vbase1` and `as_vbase2` not to be, and with the second address space `vm_fault`
fails that assertion, while it returns 0 once the base is `0x10000000` instead. -/
theorem as_define_region_records_zero_base :
    (as_define_region as_create 0x10 0x100 (some [0])).map
      (fun r => (r.1, r.2.as_vbase1, r.2.as_npages1)) = some (0, 0, 1) ∧
    as_define_region
        { as_create with
          as_vbase1 := 0x400000, as_npages1 := 2, as_pbase1 := some [0x43000, 0x44000] }
        0x10 0x100 (some [0x45000])
      = some (0, { as_create with
          as_vbase1 := 0x400000, as_npages1 := 2, as_pbase1 := some [0x43000, 0x44000],
          as_vbase2 := 0, as_npages2 := 1, as_pbase2 := some [0x45000] }) ∧
    vm_fault VM_FAULT_READ 0x400000
      (some (some { as_create with
          as_vbase1 := 0x400000, as_npages1 := 2, as_pbase1 := some [0x43000, 0x44000],
          as_vbase2 := 0, as_npages2 := 1, as_pbase2 := some [0x45000] }))
      sample_tlb 0 = none ∧
    (vm_fault VM_FAULT_READ 0x400000
      (some (some { as_create with
          as_vbase1 := 0x400000, as_npages1 := 2, as_pbase1 := some [0x43000, 0x44000],
          as_vbase2 := 0x10000000, as_npages2 := 1, as_pbase2 := some [0x45000] }))
      sample_tlb 0).map Prod.fst = some 0 := by
  decide

/-- C16 (as amended): for every address space, `as_complete_load` returns 0 and changes
no field of the address space, the flag `as_loadelf_complete` included. -/
theorem as_complete_load_changes_nothing (as : addrspace) :
    (as_complete_load as).1 = 0 ∧ (as_complete_load as).2 = as ∧
    (as_complete_load as).2.as_loadelf_complete = as.as_loadelf_complete :=
  ⟨rfl, rfl, rfl⟩

/-- The flag is still false after `as_complete_load` on a fresh address space. -/
theorem as_complete_load_leaves_flag_false :
    (as_complete_load as_create).2.as_loadelf_complete = false ∧
    ¬ ((as_complete_load as_create).2.as_loadelf_complete = true) := by
  decide

/-! ## The entry `vm_fault` installs -/

theorem land_two_pow_ne_zero (a k : Nat) : a &&& 2 ^ k ≠ 0 ↔ a.testBit k = true := by
  constructor
  · intro h
    by_contra hb
    apply h
    apply Nat.eq_of_testBit_eq
    intro i
    rw [Nat.testBit_and, Nat.testBit_two_pow, Nat.zero_testBit]
    by_cases hik : k = i
    · subst hik; simp [hb]
    · simp [hik]
  · intro h hz
    have := congrArg (fun n => Nat.testBit n k) hz
    simp [Nat.testBit_and, h] at this

theorem testBit_valid_9 : Nat.testBit 0x200 9 = true := by decide

theorem testBit_dirty_10 : Nat.testBit 0x400 10 = true := by decide

theorem testBit_mask_9 : Nat.testBit 0xfffffbff 9 = true := by decide

theorem testBit_mask_10 : Nat.testBit 0xfffffbff 10 = false := by decide

/-- Every entry `vm_fault` builds has the valid bit set. -/
theorem vm_fault_entrylo_valid (paddr : Nat) (ro : Bool) :
    vm_fault_entrylo paddr ro &&& TLBLO_VALID ≠ 0 := by
  unfold vm_fault_entrylo TLBLO_VALID TLBLO_DIRTY
  rw [show (0x200 : Nat) = 2 ^ 9 from rfl, land_two_pow_ne_zero,
    ← show (0x200 : Nat) = 2 ^ 9 from rfl, show (2 : Nat) ^ 32 - 1 - 0x400 = 0xfffffbff from rfl]
  cases ro
  · simp only [Bool.false_eq_true, if_false, Nat.testBit_or, testBit_valid_9, Bool.or_true]
  · simp only [if_true, Nat.testBit_or, Nat.testBit_and, testBit_valid_9, testBit_mask_9,
      Bool.or_true, Bool.and_true]

/-- The entry `vm_fault` builds has the write-enable bit clear exactly when it was built
read-only. -/
theorem vm_fault_entrylo_dirty (paddr : Nat) (ro : Bool) :
    vm_fault_entrylo paddr ro &&& TLBLO_DIRTY = 0 ↔ ro = true := by
  unfold vm_fault_entrylo TLBLO_VALID TLBLO_DIRTY
  rw [show (2 : Nat) ^ 32 - 1 - 0x400 = 0xfffffbff from rfl]
  cases ro
  · simp only [Bool.false_eq_true, if_false, iff_false]
    have h2 : (paddr ||| 0x400 ||| 0x200) &&& 2 ^ 10 ≠ 0 := by
      rw [land_two_pow_ne_zero]
      simp only [Nat.testBit_or, testBit_dirty_10, Bool.or_true, Bool.true_or]
    exact h2
  · simp only [if_true, iff_true]
    by_contra h
    have h2 : ((paddr ||| 0x400 ||| 0x200) &&& 0xfffffbff) &&& 2 ^ 10 ≠ 0 := h
    rw [land_two_pow_ne_zero] at h2
    simp only [Nat.testBit_and, testBit_mask_10, Bool.and_false] at h2
    exact absurd h2 (by decide)

theorem tlb_read_set (tlb : TLB) (j k : Nat) (e : Nat × Nat) (hj : j < tlb.length) :
    tlb_read (tlb.set j e) k = if j = k then e else tlb_read tlb k := by
  unfold tlb_read
  simp only [List.getD_eq_getElem?_getD, List.getElem?_set]
  by_cases h : j = k
  · subst h
    simp [hj]
  · simp [h]

/-- The loop of `vm_fault` over the slots writes the first slot that is not valid, and
ends without a write exactly when every slot is valid. -/
theorem vm_fault_tlb_loop_spec (tlb : TLB) (ehi elo : Nat) : ∀ fuel i,
    (∀ t, vm_fault_tlb_loop tlb ehi elo fuel i = some t →
      ∃ j, i ≤ j ∧ j < i + fuel ∧ (∀ k, i ≤ k → k < j → (tlb_read tlb k).2 &&& TLBLO_VALID ≠ 0) ∧
        (tlb_read tlb j).2 &&& TLBLO_VALID = 0 ∧ t = tlb.set j (ehi, elo)) ∧
    (vm_fault_tlb_loop tlb ehi elo fuel i = none →
      ∀ k, i ≤ k → k < i + fuel → (tlb_read tlb k).2 &&& TLBLO_VALID ≠ 0) := by
  intro fuel
  induction fuel with
  | zero =>
    intro i
    refine ⟨fun t h => ?_, fun _ k h1 h2 => ?_⟩
    · simp [vm_fault_tlb_loop] at h
    · omega
  | succ fuel ih =>
    intro i
    obtain ⟨ih1, ih2⟩ := ih (i + 1)
    unfold vm_fault_tlb_loop
    by_cases hv : (tlb_read tlb i).2 &&& TLBLO_VALID ≠ 0
    · rw [if_pos hv]
      refine ⟨fun t h => ?_, fun h k h1 h2 => ?_⟩
      · obtain ⟨j, hj1, hj2, hj3, hj4, hj5⟩ := ih1 t h
        refine ⟨j, by omega, by omega, ?_, hj4, hj5⟩
        intro k hk1 hk2
        by_cases hki : k = i
        · subst hki; exact hv
        · exact hj3 k (by omega) hk2
      · by_cases hki : k = i
        · subst hki; exact hv
        · exact ih2 h k (by omega) (by omega)
    · rw [if_neg hv]
      refine ⟨fun t h => ?_, fun h => by simp at h⟩
      simp only [Option.some.injEq] at h
      refine ⟨i, le_refl _, by omega, fun k h1 h2 => by omega, ?_, ?_⟩
      · simpa using hv
      · rw [← h]; rfl

/-- The slot `vm_fault` writes: the lowest slot that is not valid, or the slot
`tlb_random` picks when all are valid; no other slot changes. -/
theorem tlb_install_spec (tlb : TLB) (rand ehi elo : Nat) (hlen : tlb.length = NUM_TLB)
    (hrand : rand < NUM_TLB) :
    ∃ slot, slot < NUM_TLB ∧ tlb_install tlb rand ehi elo = tlb.set slot (ehi, elo) ∧
      tlb_read (tlb_install tlb rand ehi elo) slot = (ehi, elo) ∧
      (∀ k, k ≠ slot → tlb_read (tlb_install tlb rand ehi elo) k = tlb_read tlb k) ∧
      (((tlb_read tlb slot).2 &&& TLBLO_VALID = 0 ∧
          ∀ k, k < slot → (tlb_read tlb k).2 &&& TLBLO_VALID ≠ 0) ∨
        ((∀ k, k < NUM_TLB → (tlb_read tlb k).2 &&& TLBLO_VALID ≠ 0) ∧ slot = rand)) := by
  obtain ⟨h1, h2⟩ := vm_fault_tlb_loop_spec tlb ehi elo NUM_TLB 0
  unfold tlb_install
  cases hloop : vm_fault_tlb_loop tlb ehi elo NUM_TLB 0 with
  | some t =>
    obtain ⟨j, -, hj2, hj3, hj4, hj5⟩ := h1 t hloop
    simp only
    refine ⟨j, by omega, hj5, ?_, ?_, Or.inl ⟨hj4, fun k hk => hj3 k (by omega) hk⟩⟩
    · rw [hj5, tlb_read_set _ _ _ _ (by omega), if_pos rfl]
    · intro k hk
      rw [hj5, tlb_read_set _ _ _ _ (by omega), if_neg (fun h => hk h.symm)]
  | none =>
    simp only
    refine ⟨rand, hrand, rfl, ?_, ?_, Or.inr ⟨fun k hk => h2 hloop k (by omega) (by omega), rfl⟩⟩
    · unfold tlb_random
      rw [tlb_read_set _ _ _ _ (by omega), if_pos rfl]
    · intro k hk
      unfold tlb_random
      rw [tlb_read_set _ _ _ _ (by omega), if_neg (fun h => hk h.symm)]

/-! ## `vm_fault` -/

theorem land_PAGE_FRAME_idem (x : Nat) : (x &&& PAGE_FRAME) &&& PAGE_FRAME = x &&& PAGE_FRAME := by
  rw [Nat.and_assoc, Nat.and_self]

/-- The physical address `vm_fault` computes from page-aligned values is page-aligned. -/
theorem vm_fault_paddr_aligned (x vb p : Nat) (hvb : vb &&& PAGE_FRAME = vb)
    (hp : p &&& PAGE_FRAME = p) :
    ((((x &&& PAGE_FRAME) + 2 ^ 32 - vb) % 2 ^ 32 + p) % 2 ^ 32) &&& PAGE_FRAME
      = (((x &&& PAGE_FRAME) + 2 ^ 32 - vb) % 2 ^ 32 + p) % 2 ^ 32 := by
  obtain ⟨h1, h2⟩ := (land_PAGE_FRAME_eq_iff _).1 (land_PAGE_FRAME_idem x)
  obtain ⟨h3, h4⟩ := (land_PAGE_FRAME_eq_iff _).1 hvb
  obtain ⟨h5, h6⟩ := (land_PAGE_FRAME_eq_iff _).1 hp
  rw [land_PAGE_FRAME_eq_iff]
  generalize x &&& PAGE_FRAME = fa at h1 h2 ⊢
  omega

theorem stackbase_aligned : stackbase &&& PAGE_FRAME = stackbase := by decide

theorem vm_fault_install_eq (as : addrspace) (tlb : TLB) (rand fa paddr : Nat) (text : Bool)
    (h : paddr &&& PAGE_FRAME = paddr) :
    vm_fault_install as tlb rand fa paddr text =
      some (0, tlb_install tlb rand fa
        (vm_fault_entrylo paddr (as.as_loadelf_complete && text))) := by
  unfold vm_fault_install
  rw [if_neg (fun hne => hne h)]

/-- What `vm_fault` does for a read miss or a write miss on a set-up address space: the
three ranges are tested in order and the first that matches gives the physical address. -/
theorem vm_fault_resolve (as : addrspace) (p1 p2 p3 : Nat) (hset : set_up as p1 p2 p3)
    (faulttype : Int) (hft : faulttype = VM_FAULT_READ ∨ faulttype = VM_FAULT_WRITE)
    (fa0 : Nat) (tlb : TLB) (rand : Nat) :
    vm_fault faulttype fa0 (some (some as)) tlb rand =
      if as.as_vbase1 ≤ fa0 &&& PAGE_FRAME ∧ fa0 &&& PAGE_FRAME < vtop1 as then
        some (0, tlb_install tlb rand (fa0 &&& PAGE_FRAME)
          (vm_fault_entrylo
            ((((fa0 &&& PAGE_FRAME) + 2 ^ 32 - as.as_vbase1) % 2 ^ 32 + p1) % 2 ^ 32)
            as.as_loadelf_complete))
      else if as.as_vbase2 ≤ fa0 &&& PAGE_FRAME ∧ fa0 &&& PAGE_FRAME < vtop2 as then
        some (0, tlb_install tlb rand (fa0 &&& PAGE_FRAME)
          (vm_fault_entrylo
            ((((fa0 &&& PAGE_FRAME) + 2 ^ 32 - as.as_vbase2) % 2 ^ 32 + p2) % 2 ^ 32) false))
      else if stackbase ≤ fa0 &&& PAGE_FRAME ∧ fa0 &&& PAGE_FRAME < stacktop then
        some (0, tlb_install tlb rand (fa0 &&& PAGE_FRAME)
          (vm_fault_entrylo
            ((((fa0 &&& PAGE_FRAME) + 2 ^ 32 - stackbase) % 2 ^ 32 + p3) % 2 ^ 32) false))
      else some (EFAULT, tlb) := by
  obtain ⟨a1, a2, a3, a4, a5, a6, s1, s2, s3, q1, q2, q3⟩ := hset
  have hro : faulttype ≠ VM_FAULT_READONLY := by
    rcases hft with h | h <;> rw [h] <;> decide
  have hk : ¬ (as.as_vbase1 = 0 ∨ as.as_npages1 = 0 ∨ as.as_vbase2 = 0 ∨ as.as_npages2 = 0 ∨
      as.as_vbase1 &&& PAGE_FRAME ≠ as.as_vbase1 ∨
      as.as_vbase2 &&& PAGE_FRAME ≠ as.as_vbase2) := by
    rintro (h | h | h | h | h | h)
    · exact a1 h
    · exact a2 h
    · exact a3 h
    · exact a4 h
    · exact h a5
    · exact h a6
  unfold vm_fault
  simp only [if_neg hro, if_pos hft, if_neg hk, s1, s2, s3]
  rw [vm_fault_install_eq as tlb rand _ _ true (vm_fault_paddr_aligned fa0 _ p1 a5 q1),
    vm_fault_install_eq as tlb rand _ _ false (vm_fault_paddr_aligned fa0 _ p2 a6 q2),
    vm_fault_install_eq as tlb rand _ _ false
      (vm_fault_paddr_aligned fa0 _ p3 stackbase_aligned q3)]
  simp only [Bool.and_true, Bool.and_false]

/-- C17: for every set-up address space and every read-miss or write-miss fault,
`vm_fault` page-aligns the address and tests it against the code segment range, then the
data segment range, then the stack range `[USERSTACK - 12*PAGE_SIZE, USERSTACK)`, in that
order; the first range that matches gives the physical address (aligned address - region
base) + the first frame of the region, for which an entry is installed and 0 returned; an
address in none of the three ranges returns `EFAULT` and leaves the translation cache as it
was. -/
theorem vm_fault_matches_regions_in_order (as : addrspace) (p1 p2 p3 : Nat)
    (hset : set_up as p1 p2 p3) (faulttype : Int)
    (hft : faulttype = VM_FAULT_READ ∨ faulttype = VM_FAULT_WRITE)
    (fa0 fa : Nat) (hfa : fa = fa0 &&& PAGE_FRAME) (tlb : TLB) (rand : Nat) :
    stackbase = USERSTACK - 12 * PAGE_SIZE ∧ stacktop = USERSTACK ∧
    vm_fault faulttype fa0 (some (some as)) tlb rand =
      if as.as_vbase1 ≤ fa ∧ fa < vtop1 as then
        some (0, tlb_install tlb rand fa
          (vm_fault_entrylo (((fa + 2 ^ 32 - as.as_vbase1) % 2 ^ 32 + p1) % 2 ^ 32)
            as.as_loadelf_complete))
      else if as.as_vbase2 ≤ fa ∧ fa < vtop2 as then
        some (0, tlb_install tlb rand fa
          (vm_fault_entrylo (((fa + 2 ^ 32 - as.as_vbase2) % 2 ^ 32 + p2) % 2 ^ 32) false))
      else if stackbase ≤ fa ∧ fa < stacktop then
        some (0, tlb_install tlb rand fa
          (vm_fault_entrylo (((fa + 2 ^ 32 - stackbase) % 2 ^ 32 + p3) % 2 ^ 32) false))
      else some (EFAULT, tlb) := by
  subst hfa
  exact ⟨by decide, rfl, vm_fault_resolve as p1 p2 p3 hset faulttype hft fa0 tlb rand⟩

/-- C20: for every faulting address, every process and address-space state (no current
process included) and every translation cache, `vm_fault` returns `EFAULT` when the fault
kind is `VM_FAULT_READONLY` and `EINVAL` when it is none of `VM_FAULT_READONLY`,
`VM_FAULT_READ`, `VM_FAULT_WRITE`, and in both cases the translation cache is unchanged. -/
theorem vm_fault_rejects_fault_kinds (faulttype : Int) (fa0 : Nat)
    (curproc : Option (Option addrspace)) (tlb : TLB) (rand : Nat) :
    (faulttype = VM_FAULT_READONLY →
      vm_fault faulttype fa0 curproc tlb rand = some (EFAULT, tlb)) ∧
    (faulttype ≠ VM_FAULT_READONLY → faulttype ≠ VM_FAULT_READ →
      faulttype ≠ VM_FAULT_WRITE →
      vm_fault faulttype fa0 curproc tlb rand = some (EINVAL, tlb)) := by
  constructor
  · intro h
    unfold vm_fault
    simp only [h, if_true]
  · intro h1 h2 h3
    unfold vm_fault
    simp only [h1, h2, h3, if_false, or_self]

theorem code_ne_zero_of_eq (c : Int) (hc : c ≠ 0) (a b : TLB)
    (h : (some (c, a) : Option (Int × TLB)) = some (0, b)) : False := by
  simp only [Option.some.injEq, Prod.mk.injEq] at h
  exact hc h.1

/-- The end of `vm_fault` when it returns 0: one slot holds the new entry, which is valid
and has the write-enable bit clear exactly for the code segment of a space whose loading
is complete. -/
theorem vm_fault_install_success (as : addrspace) (tlb tlb1 : TLB) (rand fa paddr : Nat)
    (text : Bool) (hlen : tlb.length = NUM_TLB) (hrand : rand < NUM_TLB)
    (hres : vm_fault_install as tlb rand fa paddr text = some (0, tlb1)) :
    ∃ slot, slot < NUM_TLB ∧
      tlb_read tlb1 slot = (fa, vm_fault_entrylo paddr (as.as_loadelf_complete && text)) ∧
      (∀ k, k ≠ slot → tlb_read tlb1 k = tlb_read tlb k) ∧
      (((tlb_read tlb slot).2 &&& TLBLO_VALID = 0 ∧
          ∀ k, k < slot → (tlb_read tlb k).2 &&& TLBLO_VALID ≠ 0) ∨
        ((∀ k, k < NUM_TLB → (tlb_read tlb k).2 &&& TLBLO_VALID ≠ 0) ∧ slot = rand)) ∧
      (tlb_read tlb1 slot).2 &&& TLBLO_VALID ≠ 0 ∧
      ((tlb_read tlb1 slot).2 &&& TLBLO_DIRTY = 0 ↔
        (text = true ∧ as.as_loadelf_complete = true)) := by
  unfold vm_fault_install at hres
  by_cases hal : paddr &&& PAGE_FRAME ≠ paddr
  · rw [if_pos hal] at hres
    exact absurd hres (by simp)
  · rw [if_neg hal] at hres
    simp only [Option.some.injEq, Prod.mk.injEq, true_and] at hres
    obtain ⟨slot, h1, -, h3, h4, h5⟩ :=
      tlb_install_spec tlb rand fa
        (vm_fault_entrylo paddr (as.as_loadelf_complete && text)) hlen hrand
    rw [hres] at h3 h4
    refine ⟨slot, h1, h3, h4, h5, ?_, ?_⟩
    · rw [h3]
      exact vm_fault_entrylo_valid _ _
    · rw [h3]
      simp only
      rw [vm_fault_entrylo_dirty]
      simp only [Bool.and_eq_true]
      exact And.comm

/-- C18: for every fault that `vm_fault` resolves (it returns 0), on a translation cache of
`NUM_TLB` slots, one slot holds the new entry for the page-aligned address and every other
slot is unchanged; the slot is the lowest one that was not valid, or the one `tlb_random`
picks when all were valid; in both cases the entry is valid and its write-enable bit is
clear if and only if the address lies in the code segment range and the flag
`as_loadelf_complete` is set. An address outside the code range and inside the data range
maps to (aligned address - `as_vbase2`) + the first frame of segment 2, writable. -/
theorem vm_fault_entry_valid_and_protection (faulttype : Int) (fa0 : Nat)
    (curproc : Option (Option addrspace)) (tlb tlb1 : TLB) (rand : Nat)
    (hlen : tlb.length = NUM_TLB) (hrand : rand < NUM_TLB)
    (hres : vm_fault faulttype fa0 curproc tlb rand = some (0, tlb1)) :
    ∃ as slot paddr, curproc = some (some as) ∧ slot < NUM_TLB ∧
      tlb_read tlb1 slot = (fa0 &&& PAGE_FRAME,
        vm_fault_entrylo paddr (as.as_loadelf_complete &&
          decide (as.as_vbase1 ≤ fa0 &&& PAGE_FRAME ∧ fa0 &&& PAGE_FRAME < vtop1 as))) ∧
      (∀ k, k ≠ slot → tlb_read tlb1 k = tlb_read tlb k) ∧
      (((tlb_read tlb slot).2 &&& TLBLO_VALID = 0 ∧
          ∀ k, k < slot → (tlb_read tlb k).2 &&& TLBLO_VALID ≠ 0) ∨
        ((∀ k, k < NUM_TLB → (tlb_read tlb k).2 &&& TLBLO_VALID ≠ 0) ∧ slot = rand)) ∧
      (tlb_read tlb1 slot).2 &&& TLBLO_VALID ≠ 0 ∧
      ((tlb_read tlb1 slot).2 &&& TLBLO_DIRTY = 0 ↔
        ((as.as_vbase1 ≤ fa0 &&& PAGE_FRAME ∧ fa0 &&& PAGE_FRAME < vtop1 as) ∧
          as.as_loadelf_complete = true)) ∧
      (¬ (as.as_vbase1 ≤ fa0 &&& PAGE_FRAME ∧ fa0 &&& PAGE_FRAME < vtop1 as) →
        as.as_vbase2 ≤ fa0 &&& PAGE_FRAME → fa0 &&& PAGE_FRAME < vtop2 as →
        ∃ p2, first_slot as.as_pbase2 = some p2 ∧
          paddr = (((fa0 &&& PAGE_FRAME) + 2 ^ 32 - as.as_vbase2) % 2 ^ 32 + p2) % 2 ^ 32 ∧
          (tlb_read tlb1 slot).2 &&& TLBLO_DIRTY ≠ 0) := by
  unfold vm_fault at hres
  simp only at hres
  by_cases hro : faulttype = VM_FAULT_READONLY
  · rw [if_pos hro] at hres
    exact (code_ne_zero_of_eq EFAULT (by decide) _ _ hres).elim
  rw [if_neg hro] at hres
  by_cases hft : faulttype = VM_FAULT_READ ∨ faulttype = VM_FAULT_WRITE
  swap
  · rw [if_neg hft] at hres
    exact (code_ne_zero_of_eq EINVAL (by decide) _ _ hres).elim
  rw [if_pos hft] at hres
  rcases curproc with _ | _ | as
  · exact (code_ne_zero_of_eq EFAULT (by decide) _ _ hres).elim
  · exact (code_ne_zero_of_eq EFAULT (by decide) _ _ hres).elim
  simp only at hres
  by_cases hk : as.as_vbase1 = 0 ∨ as.as_npages1 = 0 ∨ as.as_vbase2 = 0 ∨ as.as_npages2 = 0 ∨
      as.as_vbase1 &&& PAGE_FRAME ≠ as.as_vbase1 ∨ as.as_vbase2 &&& PAGE_FRAME ≠ as.as_vbase2
  · rw [if_pos hk] at hres
    exact absurd hres (by simp)
  rw [if_neg hk] at hres
  by_cases h1 : as.as_vbase1 ≤ fa0 &&& PAGE_FRAME ∧ fa0 &&& PAGE_FRAME < vtop1 as
  · rw [if_pos h1] at hres
    cases hs : first_slot as.as_pbase1 with
    | none => rw [hs] at hres; exact absurd hres (by simp)
    | some p =>
      rw [hs] at hres
      obtain ⟨slot, g1, g2, g3, g4, g5, g6⟩ :=
        vm_fault_install_success as tlb tlb1 rand _ _ true hlen hrand hres
      refine ⟨as, slot, (((fa0 &&& PAGE_FRAME) + 2 ^ 32 - as.as_vbase1) % 2 ^ 32 + p) % 2 ^ 32,
        rfl, g1, ?_, g3, g4, g5, ?_, fun hn => absurd h1 hn⟩
      · rw [g2]
        simp only [h1, and_self, decide_True]
      · rw [g6]
        simp only [h1, and_self, true_and]
  rw [if_neg h1] at hres
  by_cases h2 : as.as_vbase2 ≤ fa0 &&& PAGE_FRAME ∧ fa0 &&& PAGE_FRAME < vtop2 as
  · rw [if_pos h2] at hres
    cases hs : first_slot as.as_pbase2 with
    | none => rw [hs] at hres; exact absurd hres (by simp)
    | some p =>
      rw [hs] at hres
      obtain ⟨slot, g1, g2, g3, g4, g5, g6⟩ :=
        vm_fault_install_success as tlb tlb1 rand _ _ false hlen hrand hres
      refine ⟨as, slot, (((fa0 &&& PAGE_FRAME) + 2 ^ 32 - as.as_vbase2) % 2 ^ 32 + p) % 2 ^ 32,
        rfl, g1, ?_, g3, g4, g5, ?_, fun _ _ _ => ⟨p, hs, rfl, ?_⟩⟩
      · rw [g2]
        simp only [h1, decide_False]
      · rw [g6]
        simp only [h1, false_and, Bool.false_eq_true]
      · intro hd
        have := g6.1 hd
        simp at this
  rw [if_neg h2] at hres
  by_cases h3 : stackbase ≤ fa0 &&& PAGE_FRAME ∧ fa0 &&& PAGE_FRAME < stacktop
  · rw [if_pos h3] at hres
    cases hs : first_slot as.as_stackpbase with
    | none => rw [hs] at hres; exact absurd hres (by simp)
    | some p =>
      rw [hs] at hres
      obtain ⟨slot, g1, g2, g3, g4, g5, g6⟩ :=
        vm_fault_install_success as tlb tlb1 rand _ _ false hlen hrand hres
      refine ⟨as, slot, (((fa0 &&& PAGE_FRAME) + 2 ^ 32 - stackbase) % 2 ^ 32 + p) % 2 ^ 32,
        rfl, g1, ?_, g3, g4, g5, ?_, fun _ ha hb => absurd ⟨ha, hb⟩ h2⟩
      · rw [g2]
        simp only [h1, decide_False]
      · rw [g6]
        simp only [h1, false_and, Bool.false_eq_true]
  · rw [if_neg h3] at hres
    exact (code_ne_zero_of_eq EFAULT (by decide) _ _ hres).elim

/-- C19 (as amended): for every set-up address space whose flag `as_loadelf_complete` is
set and every address in its code segment range, a write-miss fault (`VM_FAULT_WRITE`)
does what a read-miss fault does: it returns 0 and installs an entry that is valid and has
the write-enable bit clear; the fault of kind `VM_FAULT_READONLY` at that address is the
one that returns `EFAULT`, and it installs nothing. -/
theorem vm_fault_code_segment_after_load (as : addrspace) (p1 p2 p3 : Nat)
    (hset : set_up as p1 p2 p3) (hdone : as.as_loadelf_complete = true)
    (fa0 fa : Nat) (hfa : fa = fa0 &&& PAGE_FRAME)
    (hin : as.as_vbase1 ≤ fa ∧ fa < vtop1 as) (tlb : TLB) (rand : Nat) :
    vm_fault VM_FAULT_WRITE fa0 (some (some as)) tlb rand =
      some (0, tlb_install tlb rand fa
        (vm_fault_entrylo (((fa + 2 ^ 32 - as.as_vbase1) % 2 ^ 32 + p1) % 2 ^ 32) true)) ∧
    vm_fault VM_FAULT_READ fa0 (some (some as)) tlb rand =
      vm_fault VM_FAULT_WRITE fa0 (some (some as)) tlb rand ∧
    vm_fault_entrylo (((fa + 2 ^ 32 - as.as_vbase1) % 2 ^ 32 + p1) % 2 ^ 32) true
      &&& TLBLO_VALID ≠ 0 ∧
    vm_fault_entrylo (((fa + 2 ^ 32 - as.as_vbase1) % 2 ^ 32 + p1) % 2 ^ 32) true
      &&& TLBLO_DIRTY = 0 ∧
    vm_fault VM_FAULT_READONLY fa0 (some (some as)) tlb rand = some (EFAULT, tlb) := by
  subst hfa
  have hw := vm_fault_resolve as p1 p2 p3 hset VM_FAULT_WRITE (Or.inr rfl) fa0 tlb rand
  have hr := vm_fault_resolve as p1 p2 p3 hset VM_FAULT_READ (Or.inl rfl) fa0 tlb rand
  rw [if_pos hin, hdone] at hw hr
  refine ⟨hw, hr.trans hw.symm, vm_fault_entrylo_valid _ _,
    (vm_fault_entrylo_dirty _ _).2 rfl, ?_⟩
  unfold vm_fault
  simp only [if_true]

/-- A write-miss fault in the code segment of `sample_as_complete`: `vm_fault` returns 0,
not `EFAULT`, and installs a read-only entry in slot 0. -/
theorem vm_fault_write_miss_in_code_returns_zero :
    vm_fault VM_FAULT_WRITE 0x400010 (some (some sample_as_complete)) sample_tlb 0
      = some (0, tlb_write sample_tlb 0x400000 0x43200 0) ∧
    sample_as_complete.as_loadelf_complete = true ∧
    (sample_as_complete.as_vbase1 ≤ 0x400010 ∧ 0x400010 < vtop1 sample_as_complete) ∧
    vm_fault VM_FAULT_WRITE 0x400010 (some (some sample_as_complete)) sample_tlb 0
      ≠ some (EFAULT, sample_tlb) := by
  decide

/-! ## `as_copy` -/

/-- The function `as_prepare_load` changes nothing but the three frame arrays. -/
theorem as_prepare_load_keeps_fields (s s1 : Coremap) (as as1 : addrspace)
    (k : Option (List Nat)) (c : Int) (h : as_prepare_load s as k = some (c, s1, as1)) :
    as1.as_vbase1 = as.as_vbase1 ∧ as1.as_npages1 = as.as_npages1 ∧
    as1.as_vbase2 = as.as_vbase2 ∧ as1.as_npages2 = as.as_npages2 ∧
    as1.as_loadelf_complete = as.as_loadelf_complete := by
  unfold as_prepare_load at h
  simp only at h
  split at h
  · exact absurd h (by simp)
  · simp only [Option.some.injEq, Prod.mk.injEq] at h
    obtain ⟨-, -, rfl⟩ := h
    exact ⟨rfl, rfl, rfl, rfl, rfl⟩
  · split at h
    · exact absurd h (by simp)
    · simp only [Option.some.injEq, Prod.mk.injEq] at h
      obtain ⟨-, -, rfl⟩ := h
      exact ⟨rfl, rfl, rfl, rfl, rfl⟩
    · split at h
      · simp only [Option.some.injEq, Prod.mk.injEq] at h
        obtain ⟨-, -, rfl⟩ := h
        exact ⟨rfl, rfl, rfl, rfl, rfl⟩
      · split at h
        · exact absurd h (by simp)
        · simp only [Option.some.injEq, Prod.mk.injEq] at h
          obtain ⟨-, -, rfl⟩ := h
          exact ⟨rfl, rfl, rfl, rfl, rfl⟩
        · simp only [Option.some.injEq, Prod.mk.injEq] at h
          obtain ⟨-, -, rfl⟩ := h
          exact ⟨rfl, rfl, rfl, rfl, rfl⟩

/-- On an address space whose three frame arrays have one slot per page, `as_destroy`
calls `free_kpages` on every slot in turn. -/
theorem as_destroy_full (s : Coremap) (as : addrspace) (b1 b2 b3 : List Nat)
    (h1 : as.as_pbase1 = some b1) (hl1 : b1.length = as.as_npages1)
    (h2 : as.as_pbase2 = some b2) (hl2 : b2.length = as.as_npages2)
    (h3 : as.as_stackpbase = some b3) (hl3 : b3.length = DUMBVM_STACKPAGES)
    (hn1 : as.as_npages1 < 2 ^ 31) (hn2 : as.as_npages2 < 2 ^ 31) :
    as_destroy s as =
      { cm := ((b1 ++ b2 ++ b3).map PADDR_TO_KVADDR).foldl free_kpages s,
        released := (b1 ++ b2 ++ b3).map PADDR_TO_KVADDR,
        bad_read := false } := by
  have e1 : (to_int as.as_npages1).toNat = b1.length := by rw [to_int_toNat _ hn1, hl1]
  have e2 : (to_int as.as_npages2).toNat = b2.length := by rw [to_int_toNat _ hn2, hl2]
  unfold as_destroy
  simp only [e1, e2, h1, h2, h3]
  rw [← hl3, destroy_loop_all, destroy_loop_all, destroy_loop_all]
  simp only [Bool.false_eq_true, if_false, List.nil_append, List.map_append,
    List.foldl_append, List.append_assoc]

/-- What `as_copy` does when the directory has fewer free entries than the duplicate
needs: it calls `as_destroy` on the duplicate, whose slots are `R`. -/
theorem as_copy_failure (s : Coremap) (old : addrspace) (a1 a2 a3 st : List Nat)
    (hwf : s.wf) (htab : valid_page_num s ≤ 1024)
    (hl1 : a1.length = old.as_npages1) (hl2 : a2.length = old.as_npages2)
    (hl3 : a3.length = DUMBVM_STACKPAGES) (hst : st.length = DUMBVM_STACKPAGES)
    (hn1 : old.as_npages1 < 2 ^ 31) (hn2 : old.as_npages2 < 2 ^ 31)
    (hfew : free_count s < old.as_npages1 + old.as_npages2 + DUMBVM_STACKPAGES) :
    ∃ (L R : List Nat), all_free s L ∧ L.length = free_count s ∧
      R.take L.length = L.map (frame_paddr s) ∧
      as_copy s old true (some a1) (some a2) (some a3) (some st) =
        some { code := ENOMEM,
               cm := (R.map PADDR_TO_KVADDR).foldl free_kpages (mark_used s L),
               ret := none, released := R.map PADDR_TO_KVADDR, bad_read := false,
               table_overwritten := false } := by
  obtain ⟨L, as1, b1, b2, b3, heq, hne, hlen, hfr, -, -, hb1, hbl1, hb2, hbl2, hbl3, hstk1,
      hstk2, hcat⟩ :=
    as_prepare_load_failure s
      { as_create with
        as_vbase1 := old.as_vbase1, as_npages1 := old.as_npages1,
        as_vbase2 := old.as_vbase2, as_npages2 := old.as_npages2,
        as_pbase1 := some a1, as_pbase2 := some a2, as_stackpbase := some a3 }
      a1 a2 st hwf htab rfl hl1 rfl hl2 hst hn1 hn2 hfew
  obtain ⟨-, k1, -, k2, -⟩ := as_prepare_load_keeps_fields _ _ _ _ _ _ heq
  simp only at hbl1 hbl2 hstk1 hstk2 hcat k1 k2
  have hcopy : ∀ b, as1.as_stackpbase = some b → b.length = DUMBVM_STACKPAGES →
      as_copy s old true (some a1) (some a2) (some a3) (some st) =
        some { code := ENOMEM,
               cm := ((b1 ++ b2 ++ b).map PADDR_TO_KVADDR).foldl free_kpages (mark_used s L),
               ret := none, released := (b1 ++ b2 ++ b).map PADDR_TO_KVADDR,
               bad_read := false, table_overwritten := false } := by
    intro b hb hbl
    have hd := as_destroy_full (mark_used s L) as1 b1 b2 b hb1 (by rw [hbl1, k1])
      hb2 (by rw [hbl2, k2]) hb hbl (by rw [k1]; exact hn1) (by rw [k2]; exact hn2)
    unfold as_copy
    simp only [Bool.true_eq_false, if_false, heq, hne, ne_eq, not_false_eq_true, if_true, hd]
  by_cases hk : free_count s < old.as_npages1 + old.as_npages2
  · obtain ⟨hs1, hs2⟩ := hstk1 hk
    subst hs2
    refine ⟨L, b1 ++ b2 ++ a3, hfr, hlen, ?_, hcopy a3 hs1 hl3⟩
    have h12 : L.length ≤ (b1 ++ b2).length := by
      rw [List.length_append, hbl1, hbl2, hlen]; omega
    have hb3 : (b1 ++ b2 ++ b3).take L.length = (b1 ++ b2).take L.length :=
      List.take_append_of_le_length h12
    rw [List.take_append_of_le_length h12, ← hb3, hcat,
      List.take_append_of_le_length (by simp), List.take_of_length_le (by simp)]
  · have hs := hstk2 (by omega)
    refine ⟨L, b1 ++ b2 ++ b3, hfr, hlen, ?_, hcopy b3 hs hbl3⟩
    rw [hcat, List.take_append_of_le_length (by simp), List.take_of_length_le (by simp)]

/-- C12 (as amended): on a well-formed directory of at most 1024 entries that satisfies the
run invariant and whose last entry is not free, when there are fewer free entries than the
duplicate needs, `as_copy` returns `ENOMEM` without setting `*ret`, and it calls
`as_destroy` on the partially built duplicate itself: its first calls of `free_kpages` are
on the frames reserved so far, in order, which takes the directory back to its state before
`as_copy`; the calls that follow start from that state. The frames reserved lie after the
page of the table and inside the range. -/
theorem as_copy_enomem_destroys_duplicate (s : Coremap) (old : addrspace)
    (a1 a2 a3 st : List Nat) (hwf : s.wf) (htab : valid_page_num s ≤ 1024)
    (hlast : cm_read s.coremap (valid_page_num s - 1) ≠ 0) (hinv : run_invariant s.coremap)
    (hl1 : a1.length = old.as_npages1) (hl2 : a2.length = old.as_npages2)
    (hl3 : a3.length = DUMBVM_STACKPAGES) (hst : st.length = DUMBVM_STACKPAGES)
    (hn1 : old.as_npages1 < 2 ^ 31) (hn2 : old.as_npages2 < 2 ^ 31)
    (hfew : free_count s < old.as_npages1 + old.as_npages2 + DUMBVM_STACKPAGES) :
    ∃ (L : List Nat) (r : CopyResult), all_free s L ∧ L.length = free_count s ∧
      (∀ j, j ∈ L → coremap_table_end s ≤ frame_paddr s j ∧
        frame_paddr s j + PAGE_SIZE ≤ s.coremap_lastaddr) ∧
      as_copy s old true (some a1) (some a2) (some a3) (some st) = some r ∧
      r.code = ENOMEM ∧ r.ret = none ∧ r.table_overwritten = false ∧
      r.released.take L.length = L.map (fun j => PADDR_TO_KVADDR (frame_paddr s j)) ∧
      (L.map (fun j => PADDR_TO_KVADDR (frame_paddr s j))).foldl free_kpages (mark_used s L)
        = s ∧
      r.cm = (r.released.drop L.length).foldl free_kpages s := by
  obtain ⟨L, R, hfr, hlen, htake, heq⟩ :=
    as_copy_failure s old a1 a2 a3 st hwf htab hl1 hl2 hl3 hst hn1 hn2 hfew
  have hfold := foldl_free_kpages_marked s hwf hinv L hfr
  have htk : (R.map PADDR_TO_KVADDR).take L.length
      = L.map (fun j => PADDR_TO_KVADDR (frame_paddr s j)) := by
    rw [← List.map_take, htake, List.map_map]
    rfl
  refine ⟨L, _, hfr, hlen, ?_, heq, rfl, rfl, rfl, htk, hfold, ?_⟩
  · intro j hj
    obtain ⟨hjl, hj0⟩ := hfr.2 j hj
    rw [hwf.2.2] at hjl
    have hne : j ≠ valid_page_num s - 1 := fun h => hlast (h ▸ hj0)
    have hp := (frame_paddr_eq s hwf j hjl).1
    have hv := valid_page_num_eq s hwf
    have hd := Nat.div_mul_le_self (s.coremap_lastaddr - s.coremap_firstaddr) 4096
    rw [← hv] at hd
    have h1 := hwf.1
    unfold coremap_table_end SIZEOF_INT PAGE_SIZE
    omega
  · show (R.map PADDR_TO_KVADDR).foldl free_kpages (mark_used s L) = _
    conv_lhs => rw [← List.take_append_drop L.length (R.map PADDR_TO_KVADDR)]
    rw [List.foldl_append, htk, hfold]

/-- On `sample_coremap40_tight`, which has three free frames, none of them the last,
`as_copy` of `sample_as_loaded` fails: inside it `as_prepare_load` reserves the three free
frames `0x54000`, `0x55000`, `0x56000`, and `as_copy` itself then calls `free_kpages` 17
times, first on these three frames, so that they are free again when `as_copy` returns
`ENOMEM`: the directory is the one before the call. -/
theorem as_copy_enomem_frees_reserved_frames :
    as_copy sample_coremap40_tight sample_as_loaded true (some [0, 0, 0]) (some [0, 0])
        (some sample_stack) (some sample_stack)
      = some { code := ENOMEM, cm := sample_coremap40_tight, ret := none,
               released := PADDR_TO_KVADDR 0x54000 :: PADDR_TO_KVADDR 0x55000 ::
                 PADDR_TO_KVADDR 0x56000 :: List.replicate 14 (PADDR_TO_KVADDR 0),
               bad_read := false, table_overwritten := false } ∧
    free_count sample_coremap40_tight = 3 ∧
    (as_prepare_load sample_coremap40_tight
        { as_create with
          as_vbase1 := 0x400000, as_npages1 := 3, as_vbase2 := 0x10000000, as_npages2 := 2,
          as_pbase1 := some [0, 0, 0], as_pbase2 := some [0, 0],
          as_stackpbase := some sample_stack }
        (some sample_stack)).map (fun r => (r.1, free_count r.2.1, r.2.2.as_pbase1))
      = some (ENOMEM, 0, some [0x54000, 0x55000, 0x56000]) := by
  decide

/-- On a well-formed directory of at most 1024 entries in which the frames of the source
address space are allocated, when `as_copy` returns 0 (frame arrays from `kmalloc` with one slot per
page), the duplicate it hands back has the virtual base and the page count of the source
for both segments, its three frame arrays are filled, and every frame address in them
differs from every frame address in the three frame arrays of the source. -/
theorem as_copy_duplicate_shares_no_frame (s : Coremap) (old : addrspace) (kas : Bool)
    (a1 a2 st : List Nat) (k3 : Option (List Nat)) (r : CopyResult) (hwf : s.wf)
    (htab : valid_page_num s ≤ 1024)
    (hloaded : ∀ y, y ∈ frames_of old →
      ∃ j, j < s.coremap.length ∧ (y = frame_paddr s j ∧ cm_read s.coremap j ≠ 0))
    (hl1 : a1.length = old.as_npages1) (hl2 : a2.length = old.as_npages2)
    (hst : st.length = DUMBVM_STACKPAGES)
    (hn1 : old.as_npages1 < 2 ^ 31) (hn2 : old.as_npages2 < 2 ^ 31)
    (hres : as_copy s old kas (some a1) (some a2) k3 (some st) = some r)
    (hcode : r.code = 0) :
    ∃ new b1 b2 b3, r.ret = some new ∧
      new.as_vbase1 = old.as_vbase1 ∧ new.as_npages1 = old.as_npages1 ∧
      new.as_vbase2 = old.as_vbase2 ∧ new.as_npages2 = old.as_npages2 ∧
      new.as_pbase1 = some b1 ∧ b1.length = old.as_npages1 ∧
      new.as_pbase2 = some b2 ∧ b2.length = old.as_npages2 ∧
      new.as_stackpbase = some b3 ∧ b3.length = DUMBVM_STACKPAGES ∧
      ∀ x, x ∈ frames_of new → ∀ y, y ∈ frames_of old → x ≠ y := by
  unfold as_copy at hres
  cases kas with
  | false =>
    simp only [if_true, Option.some.injEq] at hres
    rw [← hres] at hcode
    exact absurd hcode (show (ENOMEM : Int) ≠ 0 by decide)
  | true =>
    simp only [Bool.true_eq_false, if_false] at hres
    by_cases hen : old.as_npages1 + old.as_npages2 + DUMBVM_STACKPAGES ≤ free_count s
    · obtain ⟨L1, L2, L3, hL1, hL2, hL3, hfr, heq⟩ :=
        as_prepare_load_success s
          { as_create with
            as_vbase1 := old.as_vbase1, as_npages1 := old.as_npages1,
            as_vbase2 := old.as_vbase2, as_npages2 := old.as_npages2,
            as_pbase1 := some a1, as_pbase2 := some a2, as_stackpbase := k3 }
          a1 a2 st hwf htab rfl hl1 rfl hl2 hst hen
      rw [heq] at hres
      simp only [ne_eq, not_true_eq_false, if_false, reduceCtorEq, or_self] at hres
      split at hres
      · exact absurd hres (by simp)
      · simp only [Option.some.injEq] at hres
        subst hres
        refine ⟨_, L1.map (frame_paddr s), L2.map (frame_paddr s), L3.map (frame_paddr s),
          rfl, rfl, rfl, rfl, rfl, rfl, by simp [hL1], rfl, by simp [hL2], rfl, by simp [hL3],
          ?_⟩
        intro x hx y hy hxy
        have hx2 : x ∈ (L1 ++ L2 ++ L3).map (frame_paddr s) := by
          simpa [frames_of] using hx
        rw [List.mem_map] at hx2
        obtain ⟨j, hj, rfl⟩ := hx2
        obtain ⟨j2, hj2, rfl, hused⟩ := hloaded y hy
        have := frame_paddr_injOn s hwf j j2 (hfr.2 j hj).1 hj2 hxy
        subst this
        exact hused (hfr.2 j hj).2
    · obtain ⟨L, as1, -, -, -, heq, hne, -⟩ :=
        as_prepare_load_failure s
          { as_create with
            as_vbase1 := old.as_vbase1, as_npages1 := old.as_npages1,
            as_vbase2 := old.as_vbase2, as_npages2 := old.as_npages2,
            as_pbase1 := some a1, as_pbase2 := some a2, as_stackpbase := k3 }
          a1 a2 st hwf htab rfl hl1 rfl hl2 hst hn1 hn2 (Nat.lt_of_not_le hen)
      rw [heq] at hres
      simp only [ne_eq, hne, not_false_eq_true, if_true, Option.some.injEq] at hres
      rw [← hres] at hcode
      exact absurd hcode (show (ENOMEM : Int) ≠ 0 by decide)

/-! ## The segment and fault theorems at sample states -/

/-- Copying `sample_as_loaded` on `sample_coremap40`. -/
theorem as_copy_duplicate_shares_no_frame_witness :
    sample_coremap40.wf ∧ valid_page_num sample_coremap40 ≤ 1024 ∧
   
    (∀ y, y ∈ frames_of sample_as_loaded →
      ∃ j, j < sample_coremap40.coremap.length ∧
        (y = frame_paddr sample_coremap40 j ∧ cm_read sample_coremap40.coremap j ≠ 0)) ∧
    as_copy sample_coremap40 sample_as_loaded true (some [0, 0, 0]) (some [0, 0])
      (some sample_stack) (some sample_stack) = some sample_copy ∧
    sample_copy.code = 0 ∧
    ∃ new b1 b2 b3, sample_copy.ret = some new ∧
      new.as_vbase1 = sample_as_loaded.as_vbase1 ∧
      new.as_npages1 = sample_as_loaded.as_npages1 ∧
      new.as_vbase2 = sample_as_loaded.as_vbase2 ∧
      new.as_npages2 = sample_as_loaded.as_npages2 ∧
      new.as_pbase1 = some b1 ∧ b1.length = sample_as_loaded.as_npages1 ∧
      new.as_pbase2 = some b2 ∧ b2.length = sample_as_loaded.as_npages2 ∧
      new.as_stackpbase = some b3 ∧ b3.length = DUMBVM_STACKPAGES ∧
      ∀ x, x ∈ frames_of new → ∀ y, y ∈ frames_of sample_as_loaded → x ≠ y :=
  ⟨by decide, by decide, by decide, by decide, by decide,
    as_copy_duplicate_shares_no_frame sample_coremap40 sample_as_loaded true [0, 0, 0] [0, 0]
      sample_stack (some sample_stack) sample_copy (by decide) (by decide) (by decide)
      (by decide) (by decide) (by decide) (by decide) (by decide) (by decide) (by decide)⟩

/-- Copying `sample_as_loaded` on `sample_coremap40_tight`, which has three free frames. -/
theorem as_copy_enomem_destroys_duplicate_witness :
    sample_coremap40_tight.wf ∧ valid_page_num sample_coremap40_tight ≤ 1024 ∧
    cm_read sample_coremap40_tight.coremap (valid_page_num sample_coremap40_tight - 1) ≠ 0 ∧
    run_invariant sample_coremap40_tight.coremap ∧
    free_count sample_coremap40_tight
      < sample_as_loaded.as_npages1 + sample_as_loaded.as_npages2 + DUMBVM_STACKPAGES ∧
    ∃ (L : List Nat) (r : CopyResult), all_free sample_coremap40_tight L ∧
      L.length = free_count sample_coremap40_tight ∧
      (∀ j, j ∈ L → coremap_table_end sample_coremap40_tight
          ≤ frame_paddr sample_coremap40_tight j ∧
        frame_paddr sample_coremap40_tight j + PAGE_SIZE
          ≤ sample_coremap40_tight.coremap_lastaddr) ∧
      as_copy sample_coremap40_tight sample_as_loaded true (some [0, 0, 0]) (some [0, 0])
        (some sample_stack) (some sample_stack) = some r ∧
      r.code = ENOMEM ∧ r.ret = none ∧ r.table_overwritten = false ∧
      r.released.take L.length
        = L.map (fun j => PADDR_TO_KVADDR (frame_paddr sample_coremap40_tight j)) ∧
      (L.map (fun j => PADDR_TO_KVADDR (frame_paddr sample_coremap40_tight j))).foldl
        free_kpages (mark_used sample_coremap40_tight L) = sample_coremap40_tight ∧
      r.cm = (r.released.drop L.length).foldl free_kpages sample_coremap40_tight :=
  ⟨by decide, by decide, by decide, by decide, by decide,
    as_copy_enomem_destroys_duplicate sample_coremap40_tight sample_as_loaded [0, 0, 0] [0, 0]
      sample_stack sample_stack (by decide) (by decide) (by decide) (by decide) (by decide)
      (by decide) (by decide) (by decide) (by decide) (by decide) (by decide)⟩

/-- A region of `0x2000` bytes at `0x400123` on a fresh address space: 3 pages from
`0x400000`. -/
theorem as_define_region_records_aligned_range_witness :
    (0x400123 : Nat) < 2 ^ 32 ∧ 0x400123 % PAGE_SIZE + 0x2000 + PAGE_SIZE - 1 < 2 ^ 32 ∧
    as_create.as_vbase1 = 0 ∧
    as_define_region as_create 0x400123 0x2000 (some [0, 0, 0])
      = some (0, { as_create with
          as_vbase1 := 0x400000, as_npages1 := 3, as_pbase1 := some [0, 0, 0] }) ∧
    ∃ as1, as_define_region as_create 0x400123 0x2000 (some [0, 0, 0]) = some (0, as1) ∧
      (as_create.as_vbase1 = 0 →
        as1.as_vbase1 = 0x400123 / PAGE_SIZE * PAGE_SIZE ∧
        as1.as_npages1 = (0x400123 % PAGE_SIZE + 0x2000 + (PAGE_SIZE - 1)) / PAGE_SIZE ∧
        as1.as_pbase1 = some [0, 0, 0] ∧
        as1.as_vbase2 = as_create.as_vbase2 ∧ as1.as_npages2 = as_create.as_npages2 ∧
        as1.as_pbase2 = as_create.as_pbase2) ∧
      (as_create.as_vbase1 ≠ 0 →
        as1.as_vbase2 = 0x400123 / PAGE_SIZE * PAGE_SIZE ∧
        as1.as_npages2 = (0x400123 % PAGE_SIZE + 0x2000 + (PAGE_SIZE - 1)) / PAGE_SIZE ∧
        as1.as_pbase2 = some [0, 0, 0] ∧
        as1.as_vbase1 = as_create.as_vbase1 ∧ as1.as_npages1 = as_create.as_npages1 ∧
        as1.as_pbase1 = as_create.as_pbase1) ∧
      as1.as_stackpbase = as_create.as_stackpbase ∧
      as1.as_loadelf_complete = as_create.as_loadelf_complete ∧
      (0x400123 / PAGE_SIZE * PAGE_SIZE) % PAGE_SIZE = 0 ∧
      0x400123 / PAGE_SIZE * PAGE_SIZE ≤ 0x400123 ∧
      0x400123 + 0x2000 ≤ 0x400123 / PAGE_SIZE * PAGE_SIZE
        + (0x400123 % PAGE_SIZE + 0x2000 + (PAGE_SIZE - 1)) / PAGE_SIZE * PAGE_SIZE ∧
      ∀ b m, b % PAGE_SIZE = 0 → b ≤ 0x400123 → 0x400123 + 0x2000 ≤ b + m * PAGE_SIZE →
        b ≤ 0x400123 / PAGE_SIZE * PAGE_SIZE ∧
        0x400123 / PAGE_SIZE * PAGE_SIZE
          + (0x400123 % PAGE_SIZE + 0x2000 + (PAGE_SIZE - 1)) / PAGE_SIZE * PAGE_SIZE
          ≤ b + m * PAGE_SIZE :=
  ⟨by decide, by decide, by decide, by decide,
    as_define_region_records_aligned_range as_create 0x400123 0x2000 (some [0, 0, 0])
      (by decide) (by decide) (Or.inl (by decide))⟩

/-- A read miss at `0x10000010`, in the second segment of `sample_as_complete`. -/
theorem vm_fault_matches_regions_in_order_witness :
    set_up sample_as_complete 0x43000 0x46000 0x48000 ∧
    (0x10000000 : Nat) = 0x10000010 &&& PAGE_FRAME ∧
    vm_fault VM_FAULT_READ 0x10000010 (some (some sample_as_complete)) sample_tlb 0
      = some (0, tlb_write sample_tlb 0x10000000 0x46600 0) ∧
    (stackbase = USERSTACK - 12 * PAGE_SIZE ∧ stacktop = USERSTACK ∧
    vm_fault VM_FAULT_READ 0x10000010 (some (some sample_as_complete)) sample_tlb 0 =
      if sample_as_complete.as_vbase1 ≤ 0x10000000 ∧ 0x10000000 < vtop1 sample_as_complete then
        some (0, tlb_install sample_tlb 0 0x10000000
          (vm_fault_entrylo
            (((0x10000000 + 2 ^ 32 - sample_as_complete.as_vbase1) % 2 ^ 32 + 0x43000) % 2 ^ 32)
            sample_as_complete.as_loadelf_complete))
      else if sample_as_complete.as_vbase2 ≤ 0x10000000 ∧
          0x10000000 < vtop2 sample_as_complete then
        some (0, tlb_install sample_tlb 0 0x10000000
          (vm_fault_entrylo
            (((0x10000000 + 2 ^ 32 - sample_as_complete.as_vbase2) % 2 ^ 32 + 0x46000) % 2 ^ 32)
            false))
      else if stackbase ≤ 0x10000000 ∧ 0x10000000 < stacktop then
        some (0, tlb_install sample_tlb 0 0x10000000
          (vm_fault_entrylo (((0x10000000 + 2 ^ 32 - stackbase) % 2 ^ 32 + 0x48000) % 2 ^ 32)
            false))
      else some (EFAULT, sample_tlb)) :=
  ⟨by decide, by decide, by decide,
    vm_fault_matches_regions_in_order sample_as_complete 0x43000 0x46000 0x48000 (by decide)
      VM_FAULT_READ (Or.inl rfl) 0x10000010 0x10000000 (by decide) sample_tlb 0⟩

/-- A read miss at the first byte of the second segment of `sample_as_complete`, on a full
translation cache: the slot `tlb_random` picks gets a writable entry for the first frame
of that segment. -/
theorem vm_fault_entry_valid_and_protection_witness :
    sample_tlb_full.length = NUM_TLB ∧ 5 < NUM_TLB ∧
    vm_fault VM_FAULT_READ 0x10000000 (some (some sample_as_complete)) sample_tlb_full 5
      = some (0, tlb_write sample_tlb_full 0x10000000 (0x46000 ||| TLBLO_DIRTY ||| TLBLO_VALID) 5) ∧
    ∃ as slot paddr, some (some sample_as_complete) = some (some as) ∧ slot < NUM_TLB ∧
      tlb_read (tlb_write sample_tlb_full 0x10000000 (0x46000 ||| TLBLO_DIRTY ||| TLBLO_VALID) 5)
          slot = (0x10000000 &&& PAGE_FRAME,
        vm_fault_entrylo paddr (as.as_loadelf_complete &&
          decide (as.as_vbase1 ≤ 0x10000000 &&& PAGE_FRAME ∧
            0x10000000 &&& PAGE_FRAME < vtop1 as))) ∧
      (∀ k, k ≠ slot →
        tlb_read (tlb_write sample_tlb_full 0x10000000
          (0x46000 ||| TLBLO_DIRTY ||| TLBLO_VALID) 5) k = tlb_read sample_tlb_full k) ∧
      (((tlb_read sample_tlb_full slot).2 &&& TLBLO_VALID = 0 ∧
          ∀ k, k < slot → (tlb_read sample_tlb_full k).2 &&& TLBLO_VALID ≠ 0) ∨
        ((∀ k, k < NUM_TLB → (tlb_read sample_tlb_full k).2 &&& TLBLO_VALID ≠ 0) ∧ slot = 5)) ∧
      (tlb_read (tlb_write sample_tlb_full 0x10000000
        (0x46000 ||| TLBLO_DIRTY ||| TLBLO_VALID) 5) slot).2 &&& TLBLO_VALID ≠ 0 ∧
      ((tlb_read (tlb_write sample_tlb_full 0x10000000
          (0x46000 ||| TLBLO_DIRTY ||| TLBLO_VALID) 5) slot).2 &&& TLBLO_DIRTY = 0 ↔
        ((as.as_vbase1 ≤ 0x10000000 &&& PAGE_FRAME ∧ 0x10000000 &&& PAGE_FRAME < vtop1 as) ∧
          as.as_loadelf_complete = true)) ∧
      (¬ (as.as_vbase1 ≤ 0x10000000 &&& PAGE_FRAME ∧ 0x10000000 &&& PAGE_FRAME < vtop1 as) →
        as.as_vbase2 ≤ 0x10000000 &&& PAGE_FRAME → 0x10000000 &&& PAGE_FRAME < vtop2 as →
        ∃ p2, first_slot as.as_pbase2 = some p2 ∧
          paddr = (((0x10000000 &&& PAGE_FRAME) + 2 ^ 32 - as.as_vbase2) % 2 ^ 32 + p2)
            % 2 ^ 32 ∧
          (tlb_read (tlb_write sample_tlb_full 0x10000000
            (0x46000 ||| TLBLO_DIRTY ||| TLBLO_VALID) 5) slot).2 &&& TLBLO_DIRTY ≠ 0) :=
  ⟨by decide, by decide, by decide,
    vm_fault_entry_valid_and_protection VM_FAULT_READ 0x10000000
      (some (some sample_as_complete)) sample_tlb_full
      (tlb_write sample_tlb_full 0x10000000 (0x46000 ||| TLBLO_DIRTY ||| TLBLO_VALID) 5) 5
      (by decide) (by decide) (by decide)⟩

/-- The three fault kinds at `0x400010`, in the code segment of `sample_as_complete`. -/
theorem vm_fault_code_segment_after_load_witness :
    set_up sample_as_complete 0x43000 0x46000 0x48000 ∧
    sample_as_complete.as_loadelf_complete = true ∧
    (0x400000 : Nat) = 0x400010 &&& PAGE_FRAME ∧
    (sample_as_complete.as_vbase1 ≤ 0x400000 ∧ 0x400000 < vtop1 sample_as_complete) ∧
    (vm_fault VM_FAULT_WRITE 0x400010 (some (some sample_as_complete)) sample_tlb 0 =
      some (0, tlb_install sample_tlb 0 0x400000
        (vm_fault_entrylo
          (((0x400000 + 2 ^ 32 - sample_as_complete.as_vbase1) % 2 ^ 32 + 0x43000) % 2 ^ 32)
          true)) ∧
    vm_fault VM_FAULT_READ 0x400010 (some (some sample_as_complete)) sample_tlb 0 =
      vm_fault VM_FAULT_WRITE 0x400010 (some (some sample_as_complete)) sample_tlb 0 ∧
    vm_fault_entrylo
        (((0x400000 + 2 ^ 32 - sample_as_complete.as_vbase1) % 2 ^ 32 + 0x43000) % 2 ^ 32) true
      &&& TLBLO_VALID ≠ 0 ∧
    vm_fault_entrylo
        (((0x400000 + 2 ^ 32 - sample_as_complete.as_vbase1) % 2 ^ 32 + 0x43000) % 2 ^ 32) true
      &&& TLBLO_DIRTY = 0 ∧
    vm_fault VM_FAULT_READONLY 0x400010 (some (some sample_as_complete)) sample_tlb 0
      = some (EFAULT, sample_tlb)) :=
  ⟨by decide, by decide, by decide, by decide,
    vm_fault_code_segment_after_load sample_as_complete 0x43000 0x46000 0x48000 (by decide)
      (by decide) 0x400010 0x400000 (by decide) (by decide) sample_tlb 0⟩

/-- A fault of kind `VM_FAULT_READONLY` and a fault of the unknown kind 7, with no current
process. -/
theorem vm_fault_rejects_fault_kinds_witness :
    vm_fault VM_FAULT_READONLY 0x400010 none sample_tlb 0 = some (EFAULT, sample_tlb) ∧
    (7 : Int) ≠ VM_FAULT_READONLY ∧ (7 : Int) ≠ VM_FAULT_READ ∧ (7 : Int) ≠ VM_FAULT_WRITE ∧
    vm_fault 7 0x400010 none sample_tlb 0 = some (EINVAL, sample_tlb) :=
  ⟨(vm_fault_rejects_fault_kinds VM_FAULT_READONLY 0x400010 none sample_tlb 0).1 rfl,
    by decide, by decide, by decide,
    (vm_fault_rejects_fault_kinds 7 0x400010 none sample_tlb 0).2 (by decide) (by decide)
      (by decide)⟩

/-! ## Faults outside the segments -/

/-- C21 (as amended): for every set-up address space and every address that lies between
the end of the data segment and the start of the stack region
(`as_vbase2 + as_npages2 * PAGE_SIZE <= address < USERSTACK - 12 * PAGE_SIZE`) and outside
the code segment range, a read-miss or write-miss fault handled by `vm_fault` returns
`EFAULT` and leaves the translation cache as it was. -/
theorem vm_fault_hole_returns_efault (as : addrspace) (p1 p2 p3 : Nat)
    (hset : set_up as p1 p2 p3) (faulttype : Int)
    (hft : faulttype = VM_FAULT_READ ∨ faulttype = VM_FAULT_WRITE) (fa0 : Nat)
    (hlo : as.as_vbase2 + as.as_npages2 * PAGE_SIZE ≤ fa0)
    (hhi : fa0 < USERSTACK - 12 * PAGE_SIZE)
    (hcode : ¬ (as.as_vbase1 ≤ fa0 ∧ fa0 < as.as_vbase1 + as.as_npages1 * PAGE_SIZE))
    (tlb : TLB) (rand : Nat) :
    vm_fault faulttype fa0 (some (some as)) tlb rand = some (EFAULT, tlb) := by
  rw [vm_fault_resolve as p1 p2 p3 hset faulttype hft fa0 tlb rand]
  obtain ⟨-, -, -, -, a5, a6, -⟩ := hset
  obtain ⟨b1, b2⟩ := (land_PAGE_FRAME_eq_iff _).1 a5
  obtain ⟨c1, c2⟩ := (land_PAGE_FRAME_eq_iff _).1 a6
  unfold USERSTACK PAGE_SIZE at hhi
  unfold PAGE_SIZE at hlo hcode
  have hfa := land_PAGE_FRAME fa0 (by omega)
  have h1 : ¬ (as.as_vbase1 ≤ fa0 &&& PAGE_FRAME ∧ fa0 &&& PAGE_FRAME < vtop1 as) := by
    rw [hfa]
    unfold vtop1 PAGE_SIZE
    omega
  have h2 : ¬ (as.as_vbase2 ≤ fa0 &&& PAGE_FRAME ∧ fa0 &&& PAGE_FRAME < vtop2 as) := by
    rw [hfa]
    unfold vtop2 PAGE_SIZE
    omega
  have h3 : ¬ (stackbase ≤ fa0 &&& PAGE_FRAME ∧ fa0 &&& PAGE_FRAME < stacktop) := by
    rw [hfa]
    unfold stackbase stacktop USERSTACK DUMBVM_STACKPAGES PAGE_SIZE
    omega
  rw [if_neg h1, if_neg h2, if_neg h3]

/-- The two segments of `sample_as_swapped` are recorded
by two calls of `as_define_region`, the higher one first; the address `0x10000000` lies
between the end of the second segment and the start of the stack region, and a read miss
there returns 0 with an entry installed, not `EFAULT`. -/
theorem vm_fault_above_data_segment_returns_zero :
    as_define_region as_create 0x10000000 0x3000 (some [0, 0, 0]) =
      some (0, sample_as_one_region) ∧
    (as_define_region sample_as_one_region 0x400000 0x2000 (some [0, 0])).map
        (fun r => (r.1, r.2.as_vbase1, r.2.as_npages1, r.2.as_vbase2, r.2.as_npages2)) =
      some (0, sample_as_swapped.as_vbase1, sample_as_swapped.as_npages1,
        sample_as_swapped.as_vbase2, sample_as_swapped.as_npages2) ∧
    set_up sample_as_swapped 0x43000 0x46000 0x48000 ∧
    sample_as_swapped.as_vbase2 + sample_as_swapped.as_npages2 * PAGE_SIZE ≤ 0x10000000 ∧
    0x10000000 < USERSTACK - 12 * PAGE_SIZE ∧
    vm_fault VM_FAULT_READ 0x10000000 (some (some sample_as_swapped)) sample_tlb 0 =
      some (0, tlb_write sample_tlb 0x10000000 (0x43000 ||| TLBLO_DIRTY ||| TLBLO_VALID) 0) ∧
    vm_fault VM_FAULT_READ 0x10000000 (some (some sample_as_swapped)) sample_tlb 0 ≠
      some (EFAULT, sample_tlb) := by
  refine ⟨by decide, by decide, by decide, by decide, by decide, by decide, by decide⟩

/-- A read miss at `0x20000004`, between the data segment of `sample_as_loaded` and the
stack region. -/
theorem vm_fault_hole_returns_efault_witness :
    set_up sample_as_loaded 0x43000 0x46000 0x48000 ∧
    (VM_FAULT_READ = VM_FAULT_READ ∨ VM_FAULT_READ = VM_FAULT_WRITE) ∧
    sample_as_loaded.as_vbase2 + sample_as_loaded.as_npages2 * PAGE_SIZE ≤ 0x20000004 ∧
    0x20000004 < USERSTACK - 12 * PAGE_SIZE ∧
    ¬ (sample_as_loaded.as_vbase1 ≤ 0x20000004 ∧
      0x20000004 < sample_as_loaded.as_vbase1 + sample_as_loaded.as_npages1 * PAGE_SIZE) ∧
    vm_fault VM_FAULT_READ 0x20000004 (some (some sample_as_loaded)) sample_tlb 0 =
      some (EFAULT, sample_tlb) :=
  ⟨by decide, by decide, by decide, by decide, by decide,
    vm_fault_hole_returns_efault sample_as_loaded 0x43000 0x46000 0x48000 (by decide)
      VM_FAULT_READ (by decide) 0x20000004 (by decide) (by decide) (by decide) sample_tlb 0⟩

/-! ## `as_activate` and `as_deactivate` -/

/-- The loop of `as_activate` writes the invalid entry of each slot it visits and no other
slot. -/
theorem as_activate_loop_spec : ∀ (fuel i : Nat) (tlb : TLB), i + fuel ≤ tlb.length →
    (as_activate_loop fuel i tlb).length = tlb.length ∧
    ∀ k, tlb_read (as_activate_loop fuel i tlb) k =
      if i ≤ k ∧ k < i + fuel then (TLBHI_INVALID k, TLBLO_INVALID) else tlb_read tlb k := by
  intro fuel
  induction fuel with
  | zero =>
    intro i tlb _
    refine ⟨rfl, fun k => ?_⟩
    rw [if_neg (by omega)]
    rfl
  | succ fuel ih =>
    intro i tlb h
    unfold as_activate_loop tlb_write
    obtain ⟨h1, h2⟩ := ih (i + 1) (tlb.set i (TLBHI_INVALID i, TLBLO_INVALID))
      (by rw [List.length_set]; omega)
    refine ⟨by rw [h1, List.length_set], fun k => ?_⟩
    rw [h2 k, tlb_read_set tlb i k _ (by omega)]
    by_cases hki : i = k
    · subst hki
      rw [if_neg (by omega), if_pos rfl, if_pos (by omega)]
    · rw [if_neg hki]
      by_cases h3 : i + 1 ≤ k ∧ k < i + 1 + fuel
      · rw [if_pos h3, if_pos (by omega)]
      · rw [if_neg h3, if_neg (by omega)]

/-- C22 (as amended): after every call of `as_activate` made while the current process has
an address space, whatever that address space is, all `NUM_TLB` slots of the translation
cache hold invalid entries (slot `i` holds `TLBHI_INVALID(i)`, `TLBLO_INVALID()`, valid bit
clear) and the rest of the state is unchanged; when the current process has no address
space `as_activate` returns at once and changes nothing; `as_deactivate` leaves the
translation cache and all other state unchanged. -/
theorem as_activate_invalidates_every_slot (k : KernelState)
    (hlen : k.tlb.length = NUM_TLB) :
    (∀ as, k.curproc_as = some as →
      (as_activate k).cm = k.cm ∧ (as_activate k).curproc_as = k.curproc_as ∧
      (as_activate k).tlb.length = NUM_TLB ∧
      ∀ i, i < NUM_TLB →
        tlb_read (as_activate k).tlb i = (TLBHI_INVALID i, TLBLO_INVALID) ∧
        (tlb_read (as_activate k).tlb i).2 &&& TLBLO_VALID = 0) ∧
    (k.curproc_as = none → as_activate k = k) ∧
    as_deactivate k = k := by
  refine ⟨fun as has => ?_, fun hnone => ?_, rfl⟩
  · obtain ⟨h1, h2⟩ := as_activate_loop_spec NUM_TLB 0 k.tlb (by omega)
    have htlb : (as_activate k).tlb = as_activate_loop NUM_TLB 0 k.tlb := by
      unfold as_activate
      rw [has]
    have hcm : (as_activate k).cm = k.cm := by
      unfold as_activate
      rw [has]
    have hcur : (as_activate k).curproc_as = k.curproc_as := by
      unfold as_activate
      rw [has]
    refine ⟨hcm, hcur, by rw [htlb, h1, hlen], fun i hi => ?_⟩
    have hr : tlb_read (as_activate k).tlb i = (TLBHI_INVALID i, TLBLO_INVALID) := by
      rw [htlb, h2 i, if_pos (by omega)]
    refine ⟨hr, ?_⟩
    rw [hr]
    exact Nat.zero_and TLBLO_VALID
  · unfold as_activate
    rw [hnone]

/-- A call of `as_activate` made by a kernel thread, which
has no address space, leaves slot 0 of the translation cache valid. -/
theorem as_activate_of_kernel_thread_keeps_entries :
    sample_kernel_thread.tlb.length = NUM_TLB ∧
    sample_kernel_thread.curproc_as = none ∧
    as_activate sample_kernel_thread = sample_kernel_thread ∧
    (tlb_read (as_activate sample_kernel_thread).tlb 0).2 &&& TLBLO_VALID ≠ 0 := by
  refine ⟨by decide, by decide, by decide, by decide⟩

/-- A call of `as_activate` when the current process has the address space
`sample_as_loaded` and all 64 slots are valid. -/
theorem as_activate_invalidates_every_slot_witness :
    sample_user_process.tlb.length = NUM_TLB ∧
    sample_user_process.curproc_as = some sample_as_loaded ∧
    ((as_activate sample_user_process).cm = sample_user_process.cm ∧
      (as_activate sample_user_process).curproc_as = sample_user_process.curproc_as ∧
      (as_activate sample_user_process).tlb.length = NUM_TLB ∧
      ∀ i, i < NUM_TLB →
        tlb_read (as_activate sample_user_process).tlb i = (TLBHI_INVALID i, TLBLO_INVALID) ∧
        (tlb_read (as_activate sample_user_process).tlb i).2 &&& TLBLO_VALID = 0) :=
  ⟨by decide, by decide,
    (as_activate_invalidates_every_slot sample_user_process (by decide)).1 sample_as_loaded
      (by decide)⟩

/-! ## Frames of a segment that are not adjacent -/

/-- C23 (the code does not do this): after bootstrap, two reservations of one frame and
the release of the first, entry 0 of the directory is free and entry 1 is allocated (its
frame is `0x42000`). `as_prepare_load` then succeeds on a space whose first segment has 2
pages and records the frames `0x41000` and `0x43000` for them: slot 1 does not hold the
first frame plus `PAGE_SIZE`. A read miss on page 1 of that segment makes `vm_fault` install
the frame `0x42000`, which is not the frame recorded for page 1 and belongs to the other
reservation. -/
theorem vm_fault_maps_page_to_frame_of_other_reservation :
    (alloc_kpages (vm_bootstrap 0x40000 0x54000) 1).1 = PADDR_TO_KVADDR 0x41000 ∧
    (alloc_kpages (alloc_kpages (vm_bootstrap 0x40000 0x54000) 1).2 1).1
      = PADDR_TO_KVADDR 0x42000 ∧
    free_kpages (alloc_kpages (alloc_kpages (vm_bootstrap 0x40000 0x54000) 1).2 1).2
      (PADDR_TO_KVADDR 0x41000) = sample_coremap_gap ∧
    (as_prepare_load sample_coremap_gap sample_as_small (some sample_stack)).map
      (fun r => (r.1, r.2.2)) = some (0, sample_as_small_loaded) ∧
    sample_as_small_loaded.as_pbase1 = some [0x41000, 0x43000] ∧
    (0x43000 : Nat) ≠ 0x41000 + 1 * PAGE_SIZE ∧
    vm_fault VM_FAULT_READ (0x400000 + 1 * PAGE_SIZE) (some (some sample_as_small_loaded))
        sample_tlb 0 =
      some (0, tlb_write sample_tlb 0x401000 (0x42000 ||| TLBLO_DIRTY ||| TLBLO_VALID) 0) := by
  refine ⟨by decide, by decide, by decide, by decide, by decide, by decide, by decide⟩

/-! ## The scan of `coremap_stealmem` and the scan of the specification -/

theorem count_unused_loop_eq (cm : List Int) : ∀ fuel i c,
    count_unused_loop cm fuel i c = c + reserve_run_length cm fuel i := by
  intro fuel
  induction fuel with
  | zero => intro i c; rfl
  | succ fuel ih =>
    intro i c
    unfold count_unused_loop reserve_run_length
    by_cases h : cm_read cm i = 0
    · rw [if_pos h, if_pos h, ih]
      omega
    · rw [if_neg h, if_neg h]
      rfl

/-- At a free entry the run length of the specification is what `coremap_stealmem`
counts: 1 for the entry and `count_unused` for those after it. -/
theorem reserve_run_length_eq (s : Coremap) (i : Nat) (hi : i < valid_page_num s)
    (h0 : cm_read s.coremap i = 0) :
    reserve_run_length s.coremap (valid_page_num s - i) i = 1 + count_unused s i := by
  unfold count_unused
  rw [count_unused_loop_eq, show valid_page_num s - i = (valid_page_num s - (i + 1)) + 1 by omega]
  conv_lhs => unfold reserve_run_length
  rw [if_pos h0]
  omega

theorem reserve_run_length_le (cm : List Int) : ∀ fuel i,
    reserve_run_length cm fuel i ≤ fuel := by
  intro fuel
  induction fuel with
  | zero => intro i; exact le_refl _
  | succ fuel ih =>
    intro i
    unfold reserve_run_length
    by_cases h : cm_read cm i = 0
    · rw [if_pos h]
      have := ih (i + 1)
      omega
    · rw [if_neg h]
      omega

/-- Inside a free run, the run that starts `d` entries later is `d` entries shorter. -/
theorem reserve_run_length_inside (cm : List Int) : ∀ d fuel i,
    d < reserve_run_length cm fuel i →
    cm_read cm (i + d) = 0 ∧
      reserve_run_length cm (fuel - d) (i + d) = reserve_run_length cm fuel i - d := by
  intro d
  induction d with
  | zero =>
    intro fuel i h
    refine ⟨?_, rfl⟩
    cases fuel with
    | zero => exact absurd h (by simp [reserve_run_length])
    | succ fuel =>
      unfold reserve_run_length at h
      by_cases h0 : cm_read cm i = 0
      · exact h0
      · rw [if_neg h0] at h
        omega
  | succ d ih =>
    intro fuel i h
    cases fuel with
    | zero => exact absurd h (by simp [reserve_run_length])
    | succ fuel =>
      have hstep : reserve_run_length cm (fuel + 1) i =
          if cm_read cm i = 0 then 1 + reserve_run_length cm fuel (i + 1) else 0 := by
        conv_lhs => unfold reserve_run_length
      by_cases h0 : cm_read cm i = 0
      · rw [hstep, if_pos h0] at h ⊢
        obtain ⟨h1, h2⟩ := ih fuel (i + 1) (by omega)
        rw [show i + (d + 1) = i + 1 + d by omega, show fuel + 1 - (d + 1) = fuel - d by omega]
        exact ⟨h1, by omega⟩
      · rw [hstep, if_neg h0] at h
        omega

theorem reserve_write_markers_eq (cm : List Int) (i n : Nat) :
    reserve_write_markers cm i n = write_to_coremap cm n i := by
  obtain ⟨h1, h2⟩ := write_to_coremap_spec cm n i
  apply cm_ext
  · rw [h1]
    simp [reserve_write_markers]
  · intro k hk
    have hk2 : k < cm.length := by simpa [reserve_write_markers] using hk
    rw [h2 k, cm_read_eq_getElem _ k hk]
    simp only [reserve_write_markers, List.getElem_map, List.getElem_range]
    by_cases hc : i ≤ k ∧ k < i + n
    · rw [if_pos hc, if_pos ⟨hc.1, hc.2, hk2⟩]
    · rw [if_neg hc, if_neg (fun h => hc ⟨h.1, h.2.1⟩)]

theorem coremap_stealmem_loop_step (s : Coremap) (n fuel i : Nat) :
    coremap_stealmem_loop s n (fuel + 1) i =
      if cm_read s.coremap i = 0 then
        if 1 + count_unused s i ≥ n then
          (frame_paddr s i, { s with coremap := write_to_coremap s.coremap n i })
        else coremap_stealmem_loop s n fuel (i + 1)
      else coremap_stealmem_loop s n fuel (i + 1) := by
  conv_lhs => unfold coremap_stealmem_loop

theorem reserve_scan_step (s : Coremap) (n fuel i : Nat) :
    reserve_scan s n (fuel + 1) i =
      if valid_page_num s ≤ i then (0, s)
      else if cm_read s.coremap i = 0 then
        if n ≤ reserve_run_length s.coremap (valid_page_num s - i) i then
          (frame_paddr s i, { s with coremap := reserve_write_markers s.coremap i n })
        else reserve_scan s n fuel (i + reserve_run_length s.coremap (valid_page_num s - i) i)
      else reserve_scan s n fuel (i + 1) := by
  conv_lhs => unfold reserve_scan

/-- When the free run at entry `i` is too short, the loop of `coremap_stealmem` fails its
test at every entry of the run, so it goes on after the run as the scan of the
specification does. -/
theorem coremap_stealmem_loop_skip (s : Coremap) (n i : Nat) (hi : i < valid_page_num s)
    (hshort : reserve_run_length s.coremap (valid_page_num s - i) i < n) : ∀ d,
    d ≤ reserve_run_length s.coremap (valid_page_num s - i) i →
    coremap_stealmem_loop s n (valid_page_num s - i) i =
      coremap_stealmem_loop s n (valid_page_num s - (i + d)) (i + d) := by
  intro d
  induction d with
  | zero => intro _; rfl
  | succ d ih =>
    intro hd
    rw [ih (by omega)]
    obtain ⟨h1, h2⟩ := reserve_run_length_inside s.coremap d (valid_page_num s - i) i (by omega)
    have hle := reserve_run_length_le s.coremap (valid_page_num s - i) i
    have hj : i + d < valid_page_num s := by omega
    rw [show valid_page_num s - i - d = valid_page_num s - (i + d) by omega,
      reserve_run_length_eq s (i + d) hj h1] at h2
    rw [show valid_page_num s - (i + d) = (valid_page_num s - (i + (d + 1))) + 1 by omega,
      coremap_stealmem_loop_step, if_pos h1, if_neg (by omega)]
    rfl

/-- The scan of the specification from entry `i` gives what the loop of `coremap_stealmem`
gives from entry `i`. -/
theorem reserve_scan_eq (s : Coremap) (n : Nat) : ∀ fuel i,
    valid_page_num s - i ≤ fuel →
    reserve_scan s n fuel i = coremap_stealmem_loop s n (valid_page_num s - i) i := by
  intro fuel
  induction fuel with
  | zero =>
    intro i h
    rw [show valid_page_num s - i = 0 by omega]
    rfl
  | succ fuel ih =>
    intro i h
    rw [reserve_scan_step]
    by_cases hi : valid_page_num s ≤ i
    · rw [if_pos hi, show valid_page_num s - i = 0 by omega]
      rfl
    · rw [if_neg hi]
      have hi2 : i < valid_page_num s := by omega
      by_cases h0 : cm_read s.coremap i = 0
      · rw [if_pos h0]
        have hrl := reserve_run_length_eq s i hi2 h0
        by_cases hn : n ≤ reserve_run_length s.coremap (valid_page_num s - i) i
        · rw [if_pos hn, show valid_page_num s - i = (valid_page_num s - (i + 1)) + 1 by omega,
            coremap_stealmem_loop_step, if_pos h0, if_pos (by omega),
            reserve_write_markers_eq]
        · rw [if_neg hn, ih _ (by omega)]
          exact (coremap_stealmem_loop_skip s n i hi2 (by omega) _ (le_refl _)).symm
      · rw [if_neg h0, ih (i + 1) (by omega),
          show valid_page_num s - i = (valid_page_num s - (i + 1)) + 1 by omega,
          coremap_stealmem_loop_step, if_neg h0]

/-- C24: for every directory state and every `n`, `coremap_stealmem(n)` returns the same
address and leaves the same directory as the scan the specification describes
(`reserve`), which on finding a maximal free run that is too short goes on past the end of
that whole run instead of examining each position inside it again. -/
theorem coremap_stealmem_refines_reserve (s : Coremap) (n : Nat) :
    coremap_stealmem s n = reserve s n := by
  unfold coremap_stealmem reserve
  rw [reserve_scan_eq s n (valid_page_num s) 0 (by omega)]
  rfl

/-! ## The slot `vm_fault` writes -/

/-- The two ways `vm_fault` installs an entry: `tlb_write` into the lowest slot that is not
valid, or `tlb_random` when all `NUM_TLB` slots are valid. -/
theorem tlb_install_cases (tlb : TLB) (rand ehi elo : Nat) :
    (∃ slot, slot < NUM_TLB ∧ (tlb_read tlb slot).2 &&& TLBLO_VALID = 0 ∧
      (∀ k, k < slot → (tlb_read tlb k).2 &&& TLBLO_VALID ≠ 0) ∧
      tlb_install tlb rand ehi elo = tlb_write tlb ehi elo slot) ∨
    ((∀ k, k < NUM_TLB → (tlb_read tlb k).2 &&& TLBLO_VALID ≠ 0) ∧
      tlb_install tlb rand ehi elo = tlb_random tlb ehi elo rand) := by
  obtain ⟨h1, h2⟩ := vm_fault_tlb_loop_spec tlb ehi elo NUM_TLB 0
  unfold tlb_install
  cases hloop : vm_fault_tlb_loop tlb ehi elo NUM_TLB 0 with
  | some t =>
    obtain ⟨j, -, hj2, hj3, hj4, hj5⟩ := h1 t hloop
    left
    exact ⟨j, by omega, hj4, fun k hk => hj3 k (by omega) hk, hj5⟩
  | none =>
    right
    exact ⟨fun k hk => h2 hloop k (by omega) (by omega), rfl⟩

/-- A read miss or write miss whose aligned address lies in one of the three ranges of a
set-up address space is resolved: `vm_fault` returns 0 with an entry installed for the
aligned address. -/
theorem vm_fault_resolved_form (as : addrspace) (p1 p2 p3 : Nat) (hset : set_up as p1 p2 p3)
    (faulttype : Int) (hft : faulttype = VM_FAULT_READ ∨ faulttype = VM_FAULT_WRITE)
    (fa0 : Nat)
    (hin : (as.as_vbase1 ≤ fa0 &&& PAGE_FRAME ∧ fa0 &&& PAGE_FRAME < vtop1 as) ∨
      (as.as_vbase2 ≤ fa0 &&& PAGE_FRAME ∧ fa0 &&& PAGE_FRAME < vtop2 as) ∨
      (stackbase ≤ fa0 &&& PAGE_FRAME ∧ fa0 &&& PAGE_FRAME < stacktop))
    (tlb : TLB) (rand : Nat) :
    ∃ paddr ro, vm_fault faulttype fa0 (some (some as)) tlb rand =
      some (0, tlb_install tlb rand (fa0 &&& PAGE_FRAME) (vm_fault_entrylo paddr ro)) := by
  rw [vm_fault_resolve as p1 p2 p3 hset faulttype hft fa0 tlb rand]
  by_cases h1 : as.as_vbase1 ≤ fa0 &&& PAGE_FRAME ∧ fa0 &&& PAGE_FRAME < vtop1 as
  · rw [if_pos h1]
    exact ⟨_, _, rfl⟩
  · rw [if_neg h1]
    by_cases h2 : as.as_vbase2 ≤ fa0 &&& PAGE_FRAME ∧ fa0 &&& PAGE_FRAME < vtop2 as
    · rw [if_pos h2]
      exact ⟨_, _, rfl⟩
    · rw [if_neg h2]
      have h3 : stackbase ≤ fa0 &&& PAGE_FRAME ∧ fa0 &&& PAGE_FRAME < stacktop := by
        rcases hin with h | h | h
        · exact absurd h h1
        · exact absurd h h2
        · exact h
      rw [if_pos h3]
      exact ⟨_, _, rfl⟩

/-- C25: for every translation cache of `NUM_TLB` slots and every fault `vm_fault`
resolves (a read miss or write miss on a set-up address space whose aligned address lies in
one of the three ranges): if at least one slot is invalid, the new entry is written into
the lowest-indexed invalid slot and every other slot is left unchanged; if all slots are
valid, the entry is written by `tlb_random`; in both cases `vm_fault` returns 0 and the
entry is a valid one for the aligned address. -/
theorem vm_fault_writes_first_invalid_slot_or_random (as : addrspace) (p1 p2 p3 : Nat)
    (hset : set_up as p1 p2 p3) (faulttype : Int)
    (hft : faulttype = VM_FAULT_READ ∨ faulttype = VM_FAULT_WRITE) (fa0 : Nat)
    (hin : (as.as_vbase1 ≤ fa0 &&& PAGE_FRAME ∧ fa0 &&& PAGE_FRAME < vtop1 as) ∨
      (as.as_vbase2 ≤ fa0 &&& PAGE_FRAME ∧ fa0 &&& PAGE_FRAME < vtop2 as) ∨
      (stackbase ≤ fa0 &&& PAGE_FRAME ∧ fa0 &&& PAGE_FRAME < stacktop))
    (tlb : TLB) (hlen : tlb.length = NUM_TLB) (rand : Nat) :
    ∃ elo, elo &&& TLBLO_VALID ≠ 0 ∧
      (vm_fault faulttype fa0 (some (some as)) tlb rand).map Prod.fst = some 0 ∧
      ((∃ k, k < NUM_TLB ∧ (tlb_read tlb k).2 &&& TLBLO_VALID = 0) →
        ∃ slot, slot < NUM_TLB ∧ (tlb_read tlb slot).2 &&& TLBLO_VALID = 0 ∧
          (∀ k, k < slot → (tlb_read tlb k).2 &&& TLBLO_VALID ≠ 0) ∧
          vm_fault faulttype fa0 (some (some as)) tlb rand =
            some (0, tlb_write tlb (fa0 &&& PAGE_FRAME) elo slot) ∧
          tlb_read (tlb_write tlb (fa0 &&& PAGE_FRAME) elo slot) slot
            = (fa0 &&& PAGE_FRAME, elo) ∧
          ∀ k, k ≠ slot →
            tlb_read (tlb_write tlb (fa0 &&& PAGE_FRAME) elo slot) k = tlb_read tlb k) ∧
      ((∀ k, k < NUM_TLB → (tlb_read tlb k).2 &&& TLBLO_VALID ≠ 0) →
        vm_fault faulttype fa0 (some (some as)) tlb rand =
          some (0, tlb_random tlb (fa0 &&& PAGE_FRAME) elo rand)) := by
  obtain ⟨paddr, ro, hv⟩ := vm_fault_resolved_form as p1 p2 p3 hset faulttype hft fa0 hin tlb rand
  refine ⟨vm_fault_entrylo paddr ro, vm_fault_entrylo_valid paddr ro, by rw [hv]; rfl, ?_, ?_⟩
  · rintro ⟨k0, hk0, hk0v⟩
    rcases tlb_install_cases tlb rand (fa0 &&& PAGE_FRAME) (vm_fault_entrylo paddr ro) with
      ⟨slot, hs1, hs2, hs3, hs4⟩ | ⟨hall, -⟩
    · refine ⟨slot, hs1, hs2, hs3, by rw [hv, hs4], ?_, ?_⟩
      · unfold tlb_write
        rw [tlb_read_set tlb slot slot _ (by omega), if_pos rfl]
      · intro k hk
        unfold tlb_write
        rw [tlb_read_set tlb slot k _ (by omega), if_neg (fun h => hk h.symm)]
    · exact absurd hk0v (hall k0 hk0)
  · intro hall
    rcases tlb_install_cases tlb rand (fa0 &&& PAGE_FRAME) (vm_fault_entrylo paddr ro) with
      ⟨slot, hs1, hs2, -, -⟩ | ⟨-, hr⟩
    · exact absurd hs2 (hall slot hs1)
    · rw [hv, hr]

/-- A read miss at `0x10000000`, in the data segment of `sample_as_loaded`, with a
translation cache whose 64 slots are all valid and `tlb_random` picking slot 5. -/
theorem vm_fault_writes_first_invalid_slot_or_random_witness :
    set_up sample_as_loaded 0x43000 0x46000 0x48000 ∧
    (VM_FAULT_READ = VM_FAULT_READ ∨ VM_FAULT_READ = VM_FAULT_WRITE) ∧
    ((sample_as_loaded.as_vbase1 ≤ 0x10000000 &&& PAGE_FRAME ∧
        0x10000000 &&& PAGE_FRAME < vtop1 sample_as_loaded) ∨
      (sample_as_loaded.as_vbase2 ≤ 0x10000000 &&& PAGE_FRAME ∧
        0x10000000 &&& PAGE_FRAME < vtop2 sample_as_loaded) ∨
      (stackbase ≤ 0x10000000 &&& PAGE_FRAME ∧ 0x10000000 &&& PAGE_FRAME < stacktop)) ∧
    sample_tlb_full.length = NUM_TLB ∧
    (∀ k, k < NUM_TLB → (tlb_read sample_tlb_full k).2 &&& TLBLO_VALID ≠ 0) ∧
    ∃ elo, elo &&& TLBLO_VALID ≠ 0 ∧
      (vm_fault VM_FAULT_READ 0x10000000 (some (some sample_as_loaded)) sample_tlb_full 5).map
        Prod.fst = some 0 ∧
      ((∃ k, k < NUM_TLB ∧ (tlb_read sample_tlb_full k).2 &&& TLBLO_VALID = 0) →
        ∃ slot, slot < NUM_TLB ∧ (tlb_read sample_tlb_full slot).2 &&& TLBLO_VALID = 0 ∧
          (∀ k, k < slot → (tlb_read sample_tlb_full k).2 &&& TLBLO_VALID ≠ 0) ∧
          vm_fault VM_FAULT_READ 0x10000000 (some (some sample_as_loaded)) sample_tlb_full 5 =
            some (0, tlb_write sample_tlb_full (0x10000000 &&& PAGE_FRAME) elo slot) ∧
          tlb_read (tlb_write sample_tlb_full (0x10000000 &&& PAGE_FRAME) elo slot) slot
            = (0x10000000 &&& PAGE_FRAME, elo) ∧
          ∀ k, k ≠ slot →
            tlb_read (tlb_write sample_tlb_full (0x10000000 &&& PAGE_FRAME) elo slot) k
              = tlb_read sample_tlb_full k) ∧
      ((∀ k, k < NUM_TLB → (tlb_read sample_tlb_full k).2 &&& TLBLO_VALID ≠ 0) →
        vm_fault VM_FAULT_READ 0x10000000 (some (some sample_as_loaded)) sample_tlb_full 5 =
          some (0, tlb_random sample_tlb_full (0x10000000 &&& PAGE_FRAME) elo 5)) :=
  ⟨by decide, by decide, by decide, by decide, by decide,
    vm_fault_writes_first_invalid_slot_or_random sample_as_loaded 0x43000 0x46000 0x48000
      (by decide) VM_FAULT_READ (by decide) 0x10000000 (by decide) sample_tlb_full (by decide) 5⟩

/-! ## Where `free_kpages` starts and stops -/

/-- What a call of `free_kpages` does to the table, in terms of the index `count` it
computes: the entries from `count - 1` (from 0 when `count` is 0, the store at index -1
being below the table) up to `e` are cleared, where the entries from `count` up to `e` all
held more than 1 and `e` is the end of the table or an entry that holds at most 1. -/
theorem free_kpages_describe (s : Coremap) (addr count : Nat)
    (hcount : ((KVADDR_TO_PADDR addr + 2 ^ 32 - s.coremap_firstaddr) % 2 ^ 32) / PAGE_SIZE
      = count)
    (hle : count ≤ valid_page_num s) :
    ∃ e, count ≤ e ∧ e ≤ valid_page_num s ∧
      (∀ k, count ≤ k → k < e → 1 < cm_read s.coremap k) ∧
      (e = valid_page_num s ∨ cm_read s.coremap e ≤ 1) ∧
      free_kpages s addr = { s with coremap := clear_range s.coremap (count - 1) e } := by
  cases count with
  | zero =>
    have hex : ∃ e, e = valid_page_num s ∨ cm_read s.coremap e ≤ 1 :=
      ⟨valid_page_num s, Or.inl rfl⟩
    have hfind := Nat.find_spec hex
    have hmin : ∀ k, k < Nat.find hex → 1 < cm_read s.coremap k := by
      intro k hk
      have := Nat.find_min hex hk
      push_neg at this
      omega
    have hfle : Nat.find hex ≤ valid_page_num s := Nat.find_min' hex (Or.inl rfl)
    refine ⟨Nat.find hex, Nat.zero_le _, hfle, fun k _ hk => hmin k hk, hfind, ?_⟩
    unfold free_kpages
    simp only [hcount]
    have e2 : ((valid_page_num s : Int) - (((0 : Nat) : Int) - 1)).toNat
        = valid_page_num s + 1 := by omega
    rw [e2]
    unfold free_kpages_loop
    simp only [true_or, if_true]
    have hw : cm_write_int s.coremap (((0 : Nat) : Int) - 1) 0 = s.coremap := by
      unfold cm_write_int
      simp
    rw [hw, show (((0 : Nat) : Int) - 1 + 1) = ((0 : Nat) : Int) by simp]
    rw [free_kpages_loop_tail (((0 : Nat) : Int) - 1) (valid_page_num s) 0 s.coremap
      (Nat.find hex) (by simp) (by omega) (by omega) (fun k _ hk => hmin k hk)
      (by
        rcases hfind with h | h
        · left; omega
        · right; exact h)]
  | succ c =>
    have hc : c < valid_page_num s := by omega
    have hex : ∃ e, c < e ∧ (e = valid_page_num s ∨ cm_read s.coremap e ≤ 1) :=
      ⟨valid_page_num s, hc, Or.inl rfl⟩
    have hfind := Nat.find_spec hex
    have hmin : ∀ k, c < k → k < Nat.find hex → 1 < cm_read s.coremap k := by
      intro k hk1 hk
      have := Nat.find_min hex hk
      push_neg at this
      have := this hk1
      omega
    have hfle : Nat.find hex ≤ valid_page_num s := Nat.find_min' hex ⟨hc, Or.inl rfl⟩
    refine ⟨Nat.find hex, by omega, hfle, fun k hk1 hk2 => hmin k (by omega) hk2, hfind.2, ?_⟩
    rw [Nat.add_sub_cancel]
    exact free_kpages_eq s addr c (Nat.find hex) hcount hfind.1 hfle hmin hfind.2

/-- The index `free_kpages` computes for an address inside the managed region. -/
theorem free_kpages_count_in_region (s : Coremap) (hwf : s.wf) (addr : Nat)
    (hin : s.coremap_firstaddr ≤ KVADDR_TO_PADDR addr ∧
      KVADDR_TO_PADDR addr < s.coremap_lastaddr) :
    ((KVADDR_TO_PADDR addr + 2 ^ 32 - s.coremap_firstaddr) % 2 ^ 32) / PAGE_SIZE
        = (KVADDR_TO_PADDR addr - s.coremap_firstaddr) / PAGE_SIZE ∧
      (KVADDR_TO_PADDR addr - s.coremap_firstaddr) / PAGE_SIZE ≤ valid_page_num s := by
  have h1 := valid_page_num_eq s hwf
  have h2 := hwf.2.1
  obtain ⟨h3, h4⟩ := hin
  generalize KVADDR_TO_PADDR addr = p at h3 h4 ⊢
  rw [h1]
  unfold PAGE_SIZE
  omega

/-- C26: for every well-formed directory, (1) for every address inside the managed region
`free_kpages` starts at the slot one before the computed index
`count = (address - coremap_firstaddr) / PAGE_SIZE`, clears that first slot whatever value
it holds, then clears each following slot while its value is greater than 1 and stops at
the first following slot `e` that holds at most 1 (0 or 1 for the values a directory
holds) or at the end of the table; nothing else changes; (2) consequently a release at the
address of the `m`-th frame (`m > 1`) of a run of `k` frames that starts at entry `i`
frees only the frames `m..k` of that run and leaves the frames `1..m-1` allocated. -/
theorem free_kpages_starts_one_slot_before_index (s : Coremap) (hwf : s.wf) :
    (∀ addr, s.coremap_firstaddr ≤ KVADDR_TO_PADDR addr →
      KVADDR_TO_PADDR addr < s.coremap_lastaddr →
      ∃ count e : Nat, count = (KVADDR_TO_PADDR addr - s.coremap_firstaddr) / PAGE_SIZE ∧
        count ≤ e ∧ e ≤ valid_page_num s ∧
        (∀ k, count ≤ k → k < e → 1 < cm_read s.coremap k) ∧
        (e < valid_page_num s → cm_read s.coremap e ≤ 1) ∧
        (e < valid_page_num s → 0 ≤ cm_read s.coremap e →
          cm_read s.coremap e = 0 ∨ cm_read s.coremap e = 1) ∧
        (free_kpages s addr).coremap_firstaddr = s.coremap_firstaddr ∧
        (free_kpages s addr).coremap_lastaddr = s.coremap_lastaddr ∧
        (free_kpages s addr).coremap.length = s.coremap.length ∧
        ∀ k : Nat, cm_read (free_kpages s addr).coremap k =
          if (count : Int) - 1 ≤ (k : Int) ∧ k < e then 0 else cm_read s.coremap k) ∧
    (∀ i k m, 1 < m → m ≤ k → i + k ≤ valid_page_num s →
      (∀ j, j < k → cm_read s.coremap (i + j) = ((j + 1 : Nat) : Int)) →
      (i + k < valid_page_num s → cm_read s.coremap (i + k) ≤ 1) →
      (∀ x, cm_read (free_kpages s (PADDR_TO_KVADDR (frame_paddr s (i + m - 1)))).coremap x =
        if i + m - 1 ≤ x ∧ x < i + k then 0 else cm_read s.coremap x) ∧
      (∀ j, j < m - 1 →
        cm_read (free_kpages s (PADDR_TO_KVADDR (frame_paddr s (i + m - 1)))).coremap (i + j)
          = ((j + 1 : Nat) : Int))) := by
  constructor
  · intro addr h1 h2
    obtain ⟨hc1, hc2⟩ := free_kpages_count_in_region s hwf addr ⟨h1, h2⟩
    obtain ⟨e, he1, he2, he3, he4, he5⟩ := free_kpages_describe s addr _ hc1 hc2
    refine ⟨_, e, rfl, he1, he2, he3, ?_, ?_, by rw [he5], by rw [he5], ?_, ?_⟩
    · intro hlt
      rcases he4 with h | h
      · omega
      · exact h
    · intro hlt hnn
      rcases he4 with h | h
      · omega
      · omega
    · rw [he5]
      exact length_clear_range _ _ _
    · intro k
      rw [he5]
      simp only
      rw [cm_read_clear_range]
      by_cases hk : (KVADDR_TO_PADDR addr - s.coremap_firstaddr) / PAGE_SIZE - 1 ≤ k ∧ k < e
      · rw [if_pos hk, if_pos ⟨by omega, hk.2⟩]
      · by_cases hk2 : k < e
        · rw [if_neg hk, if_neg (by omega)]
        · rw [if_neg hk, if_neg (fun h => hk2 h.2)]
  · intro i k m hm hmk hik hrun hstop
    have hfree : free_kpages s (PADDR_TO_KVADDR (frame_paddr s (i + m - 1))) =
        { s with coremap := clear_range s.coremap (i + m - 1) (i + k) } :=
      free_kpages_eq s _ (i + m - 1) (i + k)
        (free_count_of_frame s hwf (i + m - 1) (by omega)) (by omega) hik
        (by
          intro x hx1 hx2
          have := hrun (x - i) (by omega)
          rw [show i + (x - i) = x by omega] at this
          rw [this]
          push_cast
          omega)
        (by
          by_cases hlt : i + k < valid_page_num s
          · exact Or.inr (hstop hlt)
          · exact Or.inl (by omega))
    refine ⟨fun x => ?_, fun j hj => ?_⟩
    · rw [hfree]
      exact cm_read_clear_range _ _ _ _
    · rw [hfree]
      simp only
      rw [cm_read_clear_range, if_neg (by omega)]
      exact hrun j (by omega)

/-- A release on `sample_coremap_run3` at the address of the second frame of the run of 3
frames that starts at entry 0. -/
theorem free_kpages_starts_one_slot_before_index_witness :
    sample_coremap_run3.wf ∧
    sample_coremap_run3.coremap_firstaddr ≤ KVADDR_TO_PADDR 0x80042000 ∧
    KVADDR_TO_PADDR 0x80042000 < sample_coremap_run3.coremap_lastaddr ∧
    (1 < 2 ∧ 2 ≤ 3 ∧ 0 + 3 ≤ valid_page_num sample_coremap_run3 ∧
      (∀ j, j < 3 → cm_read sample_coremap_run3.coremap (0 + j) = ((j + 1 : Nat) : Int)) ∧
      (0 + 3 < valid_page_num sample_coremap_run3 →
        cm_read sample_coremap_run3.coremap (0 + 3) ≤ 1)) ∧
    PADDR_TO_KVADDR (frame_paddr sample_coremap_run3 (0 + 2 - 1)) = 0x80042000 ∧
    (free_kpages sample_coremap_run3 0x80042000).coremap = [1, 0, 0, 1, 0, 0] ∧
    (∃ count e : Nat,
      count = (KVADDR_TO_PADDR 0x80042000 - sample_coremap_run3.coremap_firstaddr) / PAGE_SIZE ∧
        count ≤ e ∧ e ≤ valid_page_num sample_coremap_run3 ∧
        (∀ k, count ≤ k → k < e → 1 < cm_read sample_coremap_run3.coremap k) ∧
        (e < valid_page_num sample_coremap_run3 → cm_read sample_coremap_run3.coremap e ≤ 1) ∧
        (e < valid_page_num sample_coremap_run3 → 0 ≤ cm_read sample_coremap_run3.coremap e →
          cm_read sample_coremap_run3.coremap e = 0 ∨
            cm_read sample_coremap_run3.coremap e = 1) ∧
        (free_kpages sample_coremap_run3 0x80042000).coremap_firstaddr
          = sample_coremap_run3.coremap_firstaddr ∧
        (free_kpages sample_coremap_run3 0x80042000).coremap_lastaddr
          = sample_coremap_run3.coremap_lastaddr ∧
        (free_kpages sample_coremap_run3 0x80042000).coremap.length
          = sample_coremap_run3.coremap.length ∧
        ∀ k : Nat, cm_read (free_kpages sample_coremap_run3 0x80042000).coremap k =
          if (count : Int) - 1 ≤ (k : Int) ∧ k < e then 0
          else cm_read sample_coremap_run3.coremap k) ∧
    ((∀ x, cm_read (free_kpages sample_coremap_run3
          (PADDR_TO_KVADDR (frame_paddr sample_coremap_run3 (0 + 2 - 1)))).coremap x =
        if 0 + 2 - 1 ≤ x ∧ x < 0 + 3 then 0 else cm_read sample_coremap_run3.coremap x) ∧
      (∀ j, j < 2 - 1 →
        cm_read (free_kpages sample_coremap_run3
          (PADDR_TO_KVADDR (frame_paddr sample_coremap_run3 (0 + 2 - 1)))).coremap (0 + j)
          = ((j + 1 : Nat) : Int))) :=
  ⟨by decide, by decide, by decide,
    ⟨by decide, by decide, by decide, by decide, by decide⟩, by decide, by decide,
    (free_kpages_starts_one_slot_before_index sample_coremap_run3 (by decide)).1 0x80042000
      (by decide) (by decide),
    (free_kpages_starts_one_slot_before_index sample_coremap_run3 (by decide)).2 0 3 2
      (by decide) (by decide) (by decide) (by decide) (by decide)⟩

/-! ## The frames and the bounds of the region -/

/-- C27 (the code does not do this): after `vm_bootstrap` on the range
`[0x40000, 0x44000)` the directory has 4 entries; `coremap_stealmem(4)` hands out the run
that starts at `0x41000`, whose end `0x41000 + 4 * PAGE_SIZE` lies past
`coremap_lastaddr`; and on `sample_coremap_full`, a directory of the same range with only
its last entry free, `coremap_stealmem(1)` hands out the frame that starts at
`coremap_lastaddr` itself. -/
theorem coremap_stealmem_run_ends_past_lastaddr :
    (vm_bootstrap 0x40000 0x44000).wf ∧
    valid_page_num (vm_bootstrap 0x40000 0x44000) = 4 ∧
    coremap_stealmem (vm_bootstrap 0x40000 0x44000) 4 =
      (0x41000, { coremap := [1, 2, 3, 4], coremap_firstaddr := 0x40000,
                  coremap_lastaddr := 0x44000 }) ∧
    (vm_bootstrap 0x40000 0x44000).coremap_lastaddr < 0x41000 + 4 * PAGE_SIZE ∧
    sample_coremap_full.wf ∧
    (coremap_stealmem sample_coremap_full 1).1 = sample_coremap_full.coremap_lastaddr ∧
    sample_coremap_full.coremap_lastaddr <
      (coremap_stealmem sample_coremap_full 1).1 + 1 * PAGE_SIZE := by
  refine ⟨by decide, by decide, by decide, by decide, by decide, by decide, by decide⟩

/-- C28 (the code does not do this): after `vm_bootstrap` on the range
`[0x100000, 0x600000)` the directory has 1280 entries, so the table occupies the bytes from
`0x100000` up to `0x101400`; the first frame `coremap_stealmem` hands out starts at
`0x101000`, inside the table: its first bytes are the entries 1024 to 1279. -/
theorem coremap_stealmem_returns_frame_inside_table :
    (vm_bootstrap 0x100000 0x600000).wf ∧
    valid_page_num (vm_bootstrap 0x100000 0x600000) = 1280 ∧
    coremap_table_end (vm_bootstrap 0x100000 0x600000) = 0x101400 ∧
    (coremap_stealmem (vm_bootstrap 0x100000 0x600000) 1).1 = 0x101000 ∧
    (vm_bootstrap 0x100000 0x600000).coremap_firstaddr ≤ 0x101000 ∧
    0x101000 < coremap_table_end (vm_bootstrap 0x100000 0x600000) ∧
    (vm_bootstrap 0x100000 0x600000).coremap_firstaddr + SIZEOF_INT * 1024 = 0x101000 := by
  have hv : valid_page_num (vm_bootstrap 0x100000 0x600000) = 1280 := by decide
  have hrun : free_run (vm_bootstrap 0x100000 0x600000) 0 1 := by
    refine ⟨by rw [hv]; decide, fun k _ => ?_⟩
    rw [vm_bootstrap_coremap]
    exact cm_read_replicate _ _
  have hsteal := coremap_stealmem_at (vm_bootstrap 0x100000 0x600000) 1 0 (le_refl _) hrun
    (fun j hj => absurd hj (Nat.not_lt_zero j))
  refine ⟨?_, hv, by decide, ?_, by decide, by decide, by decide⟩
  · refine ⟨by decide, by decide, ?_⟩
    rw [vm_bootstrap_coremap]
    exact List.length_replicate _ _
  · rw [hsteal]
    decide

/-! ## Releasing an address twice -/

/-- When the index `free_kpages` computes lies more than one past the table, the loop does
not run. -/
theorem free_kpages_beyond (s : Coremap) (addr : Nat)
    (h : valid_page_num s <
      ((KVADDR_TO_PADDR addr + 2 ^ 32 - s.coremap_firstaddr) % 2 ^ 32) / PAGE_SIZE) :
    free_kpages s addr = s := by
  unfold free_kpages
  simp only
  have e2 : ((valid_page_num s : Int) -
      (((((KVADDR_TO_PADDR addr + 2 ^ 32 - s.coremap_firstaddr) % 2 ^ 32) / PAGE_SIZE : Nat)
        : Int) - 1)).toNat = 0 := by
    omega
  rw [e2]
  rfl

theorem clear_range_clear_range (cm : List Int) (a e e2 : Nat) (h : e2 ≤ e) :
    clear_range (clear_range cm a e) a e2 = clear_range cm a e := by
  apply cm_ext
  · rw [length_clear_range]
  · intro k _
    rw [cm_read_clear_range]
    by_cases hk : a ≤ k ∧ k < e2
    · rw [if_pos hk, cm_read_clear_range, if_pos ⟨hk.1, by omega⟩]
    · rw [if_neg hk]

/-- C29: for every directory (well-formed or not) and every address (inside the managed
region or not), `free_kpages` is idempotent: releasing the same address twice in a row
leaves the directory exactly as a single release does, so the second release of a double
free frees no frame at all, in particular none of an adjacent run. -/
theorem free_kpages_idempotent (s : Coremap) (addr : Nat) :
    free_kpages (free_kpages s addr) addr = free_kpages s addr := by
  obtain ⟨c, hc⟩ : ∃ c,
      ((KVADDR_TO_PADDR addr + 2 ^ 32 - s.coremap_firstaddr) % 2 ^ 32) / PAGE_SIZE = c :=
    ⟨_, rfl⟩
  by_cases hle : c ≤ valid_page_num s
  · obtain ⟨e, he1, he2, he3, he4, he5⟩ := free_kpages_describe s addr c hc hle
    rw [he5]
    obtain ⟨e2, hf1, hf2, hf3, hf4, hf5⟩ :=
      free_kpages_describe { s with coremap := clear_range s.coremap (c - 1) e } addr c hc hle
    rw [hf5]
    simp only at hf3 ⊢
    have hee : e2 ≤ e := by
      by_contra hlt
      have h1 := hf3 e he1 (by omega)
      rw [cm_read_clear_range, if_neg (by omega)] at h1
      rcases he4 with h | h
      · have : e2 ≤ valid_page_num s := hf2
        omega
      · omega
    rw [clear_range_clear_range _ _ _ _ hee]
  · have hb := free_kpages_beyond s addr (by omega)
    rw [hb]
    exact hb

/-! ## `sys_fork` after a failed `as_copy` -/

/-- The codes `as_copy` returns: 0 or `ENOMEM`. -/
theorem as_copy_code (s : Coremap) (old : addrspace) (kas : Bool)
    (k1 k2 k3 k4 : Option (List Nat)) (r : CopyResult)
    (h : as_copy s old kas k1 k2 k3 k4 = some r) : r.code = 0 ∨ r.code = ENOMEM := by
  unfold as_copy at h
  by_cases h1 : kas = false
  · rw [if_pos h1] at h
    simp only [Option.some.injEq] at h
    rw [← h]
    exact Or.inr rfl
  · rw [if_neg h1] at h
    simp only at h
    generalize as_prepare_load s _ k4 = pl at h
    rcases pl with _ | ⟨code, s1, new1⟩
    · exact absurd h (by simp)
    · simp only at h
      by_cases hcode : code ≠ 0
      · rw [if_pos hcode] at h
        simp only [Option.some.injEq] at h
        rw [← h]
        exact Or.inr rfl
      · rw [if_neg hcode] at h
        split_ifs at h
        simp only [Option.some.injEq] at h
        rw [← h]
        exact Or.inl rfl

/-- C30 (the code does not do this): on `sample_coremap20_loaded`, which has one free
frame, `as_copy` of `sample_as_loaded` returns `ENOMEM`, which is not 0 and is not the
value 1 that `sys_fork` compares `err1` with; `sys_fork` in that state, with the other calls
succeeding, goes on: the child is added to the children, the trap frame is copied,
`thread_fork` is called and 0 is returned to the parent, for a child whose address space
was never set. The same happens when `as_copy` fails at once because `as_create` has
returned NULL. -/
theorem sys_fork_goes_on_after_as_copy_enomem :
    (as_copy sample_coremap20_loaded sample_as_loaded true (some [0, 0, 0]) (some [0, 0])
        (some sample_stack) (some sample_stack)).map (fun r => r.code) = some ENOMEM ∧
    ENOMEM ≠ 0 ∧ ENOMEM ≠ 1 ∧
    sys_fork sample_coremap20_loaded sample_as_loaded 5 (some 5) true (some [0, 0, 0])
        (some [0, 0]) (some sample_stack) (some sample_stack) true true 0 =
      some { code := 0, retval := some 5, cm := sample_coremap20_loaded, child_as := none,
             child_registered := true, trapframe_copied := true, thread_forked := true } ∧
    (as_copy sample_coremap20_loaded sample_as_loaded false none none none none).map
        (fun r => r.code) = some ENOMEM ∧
    sys_fork sample_coremap20_loaded sample_as_loaded 5 (some 5) false none none none none
        true true 0 =
      some { code := 0, retval := some 5, cm := sample_coremap20_loaded, child_as := none,
             child_registered := true, trapframe_copied := true, thread_forked := true } := by
  refine ⟨by decide, by decide, by decide, by decide, by decide, by decide⟩

/-- Whatever non-zero code `as_copy` returns, `sys_fork` does not take the branch it has for
a failed copy: with the other calls succeeding it registers the child, copies the trap
frame, forks the thread and returns 0. -/
theorem sys_fork_of_failed_copy (s : Coremap) (curproc_as : addrspace) (pid_counter pid : Int)
    (kas : Bool) (k1 k2 k3 k4 : Option (List Nat)) (err2 : Int) (r : CopyResult)
    (hcopy : as_copy s curproc_as kas k1 k2 k3 k4 = some r) (hfail : r.code ≠ 0)
    (hmin : PID_MIN ≤ pid_counter) (hmax : pid_counter ≤ PID_MAX) (herr2 : err2 ≠ 1) :
    sys_fork s curproc_as pid_counter (some pid) kas k1 k2 k3 k4 true true err2 =
      some { code := 0, retval := some pid, cm := r.cm, child_as := r.ret,
             child_registered := true, trapframe_copied := true, thread_forked := true } := by
  have hcode : r.code ≠ 1 := by
    rcases as_copy_code s curproc_as kas k1 k2 k3 k4 r hcopy with h | h
    · exact absurd h hfail
    · rw [h]
      decide
  unfold sys_fork
  rw [if_neg (by omega), if_neg (by omega)]
  simp only [hcopy]
  rw [if_neg hcode, if_neg (by decide), if_neg (by decide), if_neg herr2]

/-! ## The intersection -/

theorem int_to_dir_dir_to_int (dir : Direction) : int_to_dir (dir_to_int dir) = dir := by
  cases dir <;> rfl

theorem dir_to_int_lt (dir : Direction) : dir_to_int dir < 4 := by
  cases dir <;> decide

theorem dir_to_int_inj (a b : Direction) (h : dir_to_int a = dir_to_int b) : a = b := by
  rw [← int_to_dir_dir_to_int a, ← int_to_dir_dir_to_int b, h]

/-- The answer of `checkConflict` does not depend on the order of the two vehicles. -/
theorem checkConflict_symm (o1 d1 o2 d2 : Direction) :
    checkConflict o1 d1 o2 d2 = checkConflict o2 d2 o1 d1 := by
  cases o1 <;> cases d1 <;> cases o2 <;> cases d2 <;> rfl

theorem checkConflict_same_origin (o d1 d2 : Direction) : checkConflict o d1 o d2 = true := by
  unfold checkConflict
  rw [if_pos rfl]

/-- The inner loop of `couldEnter` answers true exactly when every occupied entry of the
row it visits passes `checkConflict`. -/
theorem couldEnter_inner_spec (m : Intersection) (o d : Direction) (i : Nat) : ∀ fuel j,
    couldEnter_inner m o d i fuel j = true ↔
      ∀ k, j ≤ k → k < j + fuel → 0 < m i k →
        checkConflict o d (int_to_dir i) (int_to_dir k) = true := by
  intro fuel
  induction fuel with
  | zero =>
    intro j
    constructor
    · intro _ k h1 h2
      omega
    · intro _
      rfl
  | succ fuel ih =>
    intro j
    unfold couldEnter_inner
    by_cases hbad : m i j > 0 ∧ checkConflict o d (int_to_dir i) (int_to_dir j) = false
    · rw [if_pos hbad]
      constructor
      · intro h
        exact absurd h (by decide)
      · intro h
        have := h j (le_refl _) (by omega) hbad.1
        rw [hbad.2] at this
        exact this
    · rw [if_neg hbad, ih (j + 1)]
      constructor
      · intro h k hk1 hk2 hpos
        by_cases hkj : k = j
        · subst hkj
          by_contra hc
          exact hbad ⟨hpos, by simpa using hc⟩
        · exact h k (by omega) (by omega) hpos
      · intro h k hk1 hk2 hpos
        exact h k (by omega) (by omega) hpos

/-- The outer loop of `couldEnter` answers true exactly when every occupied entry of the
rows it visits passes `checkConflict`. -/
theorem couldEnter_outer_spec (m : Intersection) (o d : Direction) : ∀ fuel i,
    couldEnter_outer m o d fuel i = true ↔
      ∀ a, i ≤ a → a < i + fuel → ∀ k, k < 4 → 0 < m a k →
        checkConflict o d (int_to_dir a) (int_to_dir k) = true := by
  intro fuel
  induction fuel with
  | zero =>
    intro i
    constructor
    · intro _ a h1 h2
      omega
    · intro _
      rfl
  | succ fuel ih =>
    intro i
    unfold couldEnter_outer
    by_cases hrow : couldEnter_inner m o d i 4 0 = false
    · rw [if_pos hrow]
      constructor
      · intro h
        exact absurd h (by decide)
      · intro h
        have : couldEnter_inner m o d i 4 0 = true :=
          (couldEnter_inner_spec m o d i 4 0).2
            (fun k _ hk2 hpos => h i (le_refl _) (by omega) k (by omega) hpos)
        rw [hrow] at this
        exact this
    · rw [if_neg hrow, ih (i + 1)]
      have hrow2 : couldEnter_inner m o d i 4 0 = true := by simpa using hrow
      have hspec := (couldEnter_inner_spec m o d i 4 0).1 hrow2
      constructor
      · intro h a ha1 ha2 k hk hpos
        by_cases hai : a = i
        · subst hai
          exact hspec k (Nat.zero_le _) (by omega) hpos
        · exact h a (by omega) (by omega) k hk hpos
      · intro h a ha1 ha2 k hk hpos
        exact h a (by omega) (by omega) k hk hpos

/-- The function `couldEnter` answers true exactly when the vehicle passes `checkConflict`
with every vehicle that is inside. -/
theorem couldEnter_spec (m : Intersection) (o d : Direction) :
    couldEnter m o d = true ↔
      ∀ o2 d2, 0 < m (dir_to_int o2) (dir_to_int d2) → checkConflict o d o2 d2 = true := by
  unfold couldEnter
  rw [couldEnter_outer_spec]
  constructor
  · intro h o2 d2 hpos
    have := h (dir_to_int o2) (Nat.zero_le _) (by have := dir_to_int_lt o2; omega)
      (dir_to_int d2) (dir_to_int_lt d2) hpos
    rwa [int_to_dir_dir_to_int, int_to_dir_dir_to_int] at this
  · intro h a _ ha k hk hpos
    have h1 : dir_to_int (int_to_dir a) = a := by
      have : a = 0 ∨ a = 1 ∨ a = 2 ∨ a = 3 := by omega
      rcases this with h | h | h | h <;> subst h <;> rfl
    have h2 : dir_to_int (int_to_dir k) = k := by
      have : k = 0 ∨ k = 1 ∨ k = 2 ∨ k = 3 := by omega
      rcases this with h | h | h | h <;> subst h <;> rfl
    exact h (int_to_dir a) (int_to_dir k) (by rw [h1, h2]; exact hpos)

theorem inter_write_apply (m : Intersection) (i j : Nat) (v : Int) (a b : Nat) :
    inter_write m i j v a b = if a = i ∧ b = j then v else m a b := rfl

/-- What `intersection_before_entry` hands back: nothing while `couldEnter` is false, and
otherwise the array with the count of the vehicle incremented. -/
theorem intersection_before_entry_some (m m1 : Intersection) (o d : Direction)
    (h : intersection_before_entry m o d = some m1) :
    couldEnter m o d = true ∧
      m1 = inter_write m (dir_to_int o) (dir_to_int d) (m (dir_to_int o) (dir_to_int d) + 1) := by
  unfold intersection_before_entry at h
  simp only at h
  by_cases hc : couldEnter m o d = false
  · rw [if_pos hc] at h
    exact absurd h (by simp)
  · rw [if_neg hc] at h
    simp only [Option.some.injEq] at h
    exact ⟨by simpa using hc, h.symm⟩

theorem intersection_before_entry_of_couldEnter (m : Intersection) (o d : Direction)
    (h : couldEnter m o d = true) :
    intersection_before_entry m o d =
      some (inter_write m (dir_to_int o) (dir_to_int d)
        (m (dir_to_int o) (dir_to_int d) + 1)) := by
  unfold intersection_before_entry
  simp only
  rw [if_neg (by rw [h]; decide)]

/-- C31: in the intersection state machine whose state is the array `numVehiclesInInter`
(all zero after `intersection_sync_init`), whose entry step is the increment of
`intersection_before_entry`, made only when `couldEnter(origin, destination)` is true, and
whose exit step is the decrement of `intersection_after_exit` for a vehicle that is
inside, every reachable state satisfies: all counts are non-negative, and any two
vehicles `(o1, d1)`, `(o2, d2)` inside together pass `checkConflict(o1, d1, o2, d2)`, which
is true exactly for the same origin, or exactly opposite paths, or different destinations
with at least one right turn. -/
theorem intersection_vehicles_inside_are_compatible (m : Intersection) (h : Reachable m) :
    (∀ i j, 0 ≤ m i j) ∧
    (∀ o1 d1 o2 d2, 0 < m (dir_to_int o1) (dir_to_int d1) →
      0 < m (dir_to_int o2) (dir_to_int d2) → checkConflict o1 d1 o2 d2 = true) ∧
    (∀ o1 d1 o2 d2, checkConflict o1 d1 o2 d2 = true ↔
      (o1 = o2 ∨ (o1 = d2 ∧ d1 = o2) ∨
        (d1 ≠ d2 ∧ (checkTurnRight o1 d1 = true ∨ checkTurnRight o2 d2 = true)))) := by
  refine ⟨?_, ?_, ?_⟩
  · induction h with
    | init => intro i j; exact le_refl _
    | entry m m1 o d _ hstep ih =>
      obtain ⟨-, hm1⟩ := intersection_before_entry_some m m1 o d hstep
      intro i j
      rw [hm1, inter_write_apply]
      by_cases hc : i = dir_to_int o ∧ j = dir_to_int d
      · rw [if_pos hc]
        have := ih (dir_to_int o) (dir_to_int d)
        omega
      · rw [if_neg hc]
        exact ih i j
    | exit m o d _ hpos ih =>
      intro i j
      unfold intersection_after_exit
      rw [inter_write_apply]
      by_cases hc : i = dir_to_int o ∧ j = dir_to_int d
      · rw [if_pos hc]
        omega
      · rw [if_neg hc]
        exact ih i j
  · induction h with
    | init =>
      intro o1 d1 o2 d2 h1
      exact absurd h1 (lt_irrefl _)
    | entry m m1 o d _ hstep ih =>
      obtain ⟨hce, hm1⟩ := intersection_before_entry_some m m1 o d hstep
      have hspec := (couldEnter_spec m o d).1 hce
      intro o1 d1 o2 d2 h1 h2
      rw [hm1, inter_write_apply] at h1 h2
      by_cases hc1 : dir_to_int o1 = dir_to_int o ∧ dir_to_int d1 = dir_to_int d
      · have e1 := dir_to_int_inj _ _ hc1.1
        have e2 := dir_to_int_inj _ _ hc1.2
        subst e1 e2
        by_cases hc2 : dir_to_int o2 = dir_to_int o1 ∧ dir_to_int d2 = dir_to_int d1
        · have e3 := dir_to_int_inj _ _ hc2.1
          subst e3
          exact checkConflict_same_origin _ _ _
        · rw [if_neg hc2] at h2
          exact hspec o2 d2 h2
      · rw [if_neg hc1] at h1
        by_cases hc2 : dir_to_int o2 = dir_to_int o ∧ dir_to_int d2 = dir_to_int d
        · have e1 := dir_to_int_inj _ _ hc2.1
          have e2 := dir_to_int_inj _ _ hc2.2
          subst e1 e2
          rw [checkConflict_symm]
          exact hspec o1 d1 h1
        · rw [if_neg hc2] at h2
          exact ih o1 d1 o2 d2 h1 h2
    | exit m o d _ hpos ih =>
      have hle : ∀ a b, 0 < intersection_after_exit m o d a b → 0 < m a b := by
        intro a b hab
        unfold intersection_after_exit at hab
        rw [inter_write_apply] at hab
        by_cases hc : a = dir_to_int o ∧ b = dir_to_int d
        · rw [if_pos hc] at hab
          rw [hc.1, hc.2]
          omega
        · rw [if_neg hc] at hab
          exact hab
      intro o1 d1 o2 d2 h1 h2
      exact ih o1 d1 o2 d2 (hle _ _ h1) (hle _ _ h2)
  · intro o1 d1 o2 d2
    cases o1 <;> cases d1 <;> cases o2 <;> cases d2 <;> decide

/-- The state `sample_inter2` is reached by two entries, a vehicle from north to south and
then a vehicle from south to north; in the state between them a vehicle from east to west
has to wait. -/
theorem intersection_vehicles_inside_are_compatible_witness :
    Reachable sample_inter2 ∧
    couldEnter sample_inter1 Direction.east Direction.west = false ∧
    (intersection_before_entry sample_inter1 Direction.east Direction.west).isNone = true ∧
    ((∀ i j, 0 ≤ sample_inter2 i j) ∧
      (∀ o1 d1 o2 d2, 0 < sample_inter2 (dir_to_int o1) (dir_to_int d1) →
        0 < sample_inter2 (dir_to_int o2) (dir_to_int d2) →
        checkConflict o1 d1 o2 d2 = true) ∧
      (∀ o1 d1 o2 d2, checkConflict o1 d1 o2 d2 = true ↔
        (o1 = o2 ∨ (o1 = d2 ∧ d1 = o2) ∨
          (d1 ≠ d2 ∧ (checkTurnRight o1 d1 = true ∨ checkTurnRight o2 d2 = true))))) :=
  have h1 : Reachable sample_inter1 :=
    Reachable.entry intersection_sync_init sample_inter1 Direction.north Direction.south
      Reachable.init
      (intersection_before_entry_of_couldEnter intersection_sync_init Direction.north
        Direction.south (by decide))
  have h2 : Reachable sample_inter2 :=
    Reachable.entry sample_inter1 sample_inter2 Direction.south Direction.north h1
      (intersection_before_entry_of_couldEnter sample_inter1 Direction.south
        Direction.north (by decide))
  ⟨h2, by decide, by decide, intersection_vehicles_inside_are_compatible sample_inter2 h2⟩

/-! ## Directories of more than 1024 entries: frames that lie in the table -/

/-- A reservation of one frame takes the lowest free entry. -/
theorem getppages_one_at (s : Coremap) (i : Nat) (hi : i < valid_page_num s)
    (h0 : cm_read s.coremap i = 0) (hmin : ∀ j, j < i → cm_read s.coremap j ≠ 0) :
    getppages s 1 = (frame_paddr s i, { s with coremap := s.coremap.set i 1 }) := by
  unfold getppages
  have hrun : free_run s i 1 := by
    refine ⟨by omega, fun k hk => ?_⟩
    have : k = 0 := by omega
    subst this
    exact h0
  rw [coremap_stealmem_at s 1 i (le_refl _) hrun
    (fun j hj hr => hmin j hj (by simpa using hr.2 0 (by omega)))]
  simp [write_to_coremap, write_to_coremap_loop]

theorem prepare_loop_step (fuel i : Nat) (s : Coremap) (arr : List Nat) :
    prepare_loop (fuel + 1) i s arr =
      if i < arr.length then
        if (getppages s 1).1 = 0 then some (false, (getppages s 1).2, arr.set i (getppages s 1).1)
        else
          prepare_loop fuel (i + 1) (as_zero_region (getppages s 1).2 (getppages s 1).1 1)
            (arr.set i (getppages s 1).1)
      else none := by
  conv_lhs => unfold prepare_loop

theorem cm_read_replicate_append (n : Nat) (v : Int) (l : List Int) (j : Nat) (hj : j < n) :
    cm_read (List.replicate n v ++ l) j = v := by
  unfold cm_read
  rw [List.getD_eq_getElem?_getD, List.getElem?_append_left (by simpa using hj)]
  simp [hj]

theorem prepare_segment_succ (np : Nat) (s : Coremap) (a : List Nat) :
    prepare_segment (np + 1) s (some a) =
      match prepare_loop (np + 1) 0 s a with
      | none => none
      | some (ok, s1, a1) => some (ok, s1, some a1) := rfl

theorem prepare_segment_of_loop (np : Nat) (s s1 : Coremap) (a a1 : List Nat) (ok : Bool)
    (h : prepare_loop (np + 1) 0 s a = some (ok, s1, a1)) :
    prepare_segment (np + 1) s (some a) = some (ok, s1, some a1) := by
  rw [prepare_segment_succ, h]

/-- The function `as_prepare_load` when its three loops run to their end. -/
theorem as_prepare_load_of_segments (s s1 s2 s3 : Coremap) (as : addrspace) (st : List Nat)
    (a1 a2 st1 : Option (List Nat))
    (h1 : prepare_segment (to_int as.as_npages1).toNat s as.as_pbase1 = some (true, s1, a1))
    (h2 : prepare_segment (to_int as.as_npages2).toNat s1 as.as_pbase2 = some (true, s2, a2))
    (h3 : prepare_segment DUMBVM_STACKPAGES s2 (some st) = some (true, s3, st1)) :
    as_prepare_load s as (some st) =
      some (0, s3, { as with as_pbase1 := a1, as_pbase2 := a2, as_stackpbase := st1 }) := by
  unfold as_prepare_load
  simp only [h1, h2, h3]

/-- Zero-filling a frame that starts at or after the end of the table leaves the directory
as it is. -/
theorem as_zero_region_above_table (s : Coremap) (paddr npages : Nat)
    (hp : s.coremap_firstaddr + SIZEOF_INT * s.coremap.length ≤ paddr) :
    as_zero_region s paddr npages = s := by
  unfold as_zero_region
  rw [zero_entries_below _ _ _ _ _ (by rw [Nat.zero_add]; exact hp)]

theorem set_replicate_run (a m : Nat) (rest : List Int) :
    (List.replicate a (1 : Int) ++ (List.replicate (m + 1) 0 ++ rest)).set a 1 =
      List.replicate (a + 1) 1 ++ (List.replicate m 0 ++ rest) := by
  rw [List.set_append, if_neg (by simp), List.length_replicate, Nat.sub_self,
    List.replicate_succ, List.cons_append, List.set_cons_zero, List.replicate_succ',
    List.append_assoc, List.singleton_append]

theorem cm_read_replicate_append_at (a : Nat) (v w : Int) (m : Nat) (rest : List Int) :
    cm_read (List.replicate a v ++ (List.replicate (m + 1) w ++ rest)) a = w := by
  unfold cm_read
  rw [List.getD_eq_getElem?_getD, List.getElem?_append_right (by simp)]
  simp [List.replicate_succ]

/-- A loop of `as_prepare_load` that has run `n` iterations to the end goes on with the
iterations that remain. -/
theorem prepare_loop_add (m : Nat) : ∀ (n i : Nat) (s s1 : Coremap) (arr arr1 : List Nat),
    prepare_loop n i s arr = some (true, s1, arr1) →
    prepare_loop (n + m) i s arr = prepare_loop m (i + n) s1 arr1 := by
  intro n
  induction n with
  | zero =>
    intro i s s1 arr arr1 h
    simp only [prepare_loop, Option.some.injEq, Prod.mk.injEq, true_and] at h
    rw [h.1, h.2, Nat.zero_add, Nat.add_zero]
  | succ n ih =>
    intro i s s1 arr arr1 h
    rw [prepare_loop_step n i s arr] at h
    rw [show n + 1 + m = (n + m) + 1 by omega, prepare_loop_step (n + m) i s arr]
    by_cases h1 : i < arr.length
    · rw [if_pos h1] at h ⊢
      by_cases h2 : (getppages s 1).1 = 0
      · rw [if_pos h2] at h
        simp at h
      · rw [if_neg h2] at h ⊢
        rw [ih (i + 1) _ s1 _ arr1 h, show i + 1 + n = i + (n + 1) by omega]
    · rw [if_neg h1] at h
      simp at h

/-- A loop of `as_prepare_load` on a directory in which the entries before `a` are
allocated runs of one frame, the `m` entries from `a` on are free, and the frame of entry
`a` starts after the table: `n ≤ m` iterations reserve the frames of the entries `a` to
`a + n - 1`, and the zero-fills leave the directory as it is. -/
theorem prepare_loop_run : ∀ (n a m i : Nat) (rest : List Int) (first last : Nat)
    (arr : List Nat),
    (Coremap.mk (List.replicate a 1 ++ (List.replicate m 0 ++ rest)) first last).wf →
    n ≤ m → i + n ≤ arr.length →
    SIZEOF_INT * (a + m + rest.length) ≤ (a + 1) * PAGE_SIZE →
    prepare_loop n i (Coremap.mk (List.replicate a 1 ++ (List.replicate m 0 ++ rest)) first last)
        arr =
      some (true,
        Coremap.mk (List.replicate (a + n) 1 ++ (List.replicate (m - n) 0 ++ rest)) first last,
        set_slots arr i ((List.range n).map (fun k => first + (a + 1 + k) * PAGE_SIZE))) := by
  intro n
  induction n with
  | zero =>
    intro a m i rest first last arr _ _ _ _
    simp [prepare_loop, set_slots]
  | succ n ih =>
    intro a m i rest first last arr hwf hn hi htab
    obtain ⟨m, rfl⟩ : ∃ m1, m = m1 + 1 := ⟨m - 1, by omega⟩
    have hlen : (List.replicate a (1 : Int) ++ (List.replicate (m + 1) 0 ++ rest)).length
        = a + (m + 1) + rest.length := by
      simp only [List.length_append, List.length_replicate]
      omega
    have hv : valid_page_num
        (Coremap.mk (List.replicate a 1 ++ (List.replicate (m + 1) 0 ++ rest)) first last)
          = a + (m + 1) + rest.length := by
      rw [← hwf.2.2]
      exact hlen
    have hf := (frame_paddr_eq _ hwf a (by rw [hv]; omega)).1
    have hg : getppages
        (Coremap.mk (List.replicate a 1 ++ (List.replicate (m + 1) 0 ++ rest)) first last) 1
          = (first + (a + 1) * PAGE_SIZE,
            Coremap.mk (List.replicate (a + 1) 1 ++ (List.replicate m 0 ++ rest)) first last) := by
      rw [getppages_one_at _ a (by rw [hv]; omega) (cm_read_replicate_append_at a 1 0 m rest)
        (fun j hj => by
          show cm_read (List.replicate a 1 ++ (List.replicate (m + 1) 0 ++ rest)) j ≠ 0
          rw [cm_read_replicate_append a 1 _ j hj]
          decide), hf]
      show (_, Coremap.mk
        ((List.replicate a 1 ++ (List.replicate (m + 1) 0 ++ rest)).set a 1) first last) = _
      rw [set_replicate_run]
      rfl
    have hwf1 :
        (Coremap.mk (List.replicate (a + 1) 1 ++ (List.replicate m 0 ++ rest)) first last).wf := by
      refine ⟨hwf.1, hwf.2.1, ?_⟩
      show _ = valid_page_num
        (Coremap.mk (List.replicate a 1 ++ (List.replicate (m + 1) 0 ++ rest)) first last)
      rw [hv]
      simp only [List.length_append, List.length_replicate]
      omega
    rw [prepare_loop_step, if_pos (by omega), hg]
    simp only
    rw [if_neg (by unfold PAGE_SIZE; omega),
      as_zero_region_above_table _ _ _ (by
        simp only [List.length_append, List.length_replicate]
        unfold SIZEOF_INT PAGE_SIZE at *
        omega),
      ih (a + 1) m (i + 1) rest first last _ hwf1 (by omega)
        (by rw [List.length_set]; omega)
        (by unfold SIZEOF_INT PAGE_SIZE at *; omega),
      List.range_succ_eq_map, List.map_cons, List.map_map]
    simp only [set_slots, Nat.add_zero]
    have e1 : a + 1 + n = a + (n + 1) := by omega
    have e2 : m + 1 - (n + 1) = m - n := by omega
    have e3 : ((fun k => first + (a + 1 + k) * PAGE_SIZE) ∘ Nat.succ)
        = fun k => first + (a + 1 + 1 + k) * PAGE_SIZE := by
      funext k
      simp only [Function.comp, Nat.succ_eq_add_one]
      congr 2
      omega
    rw [e1, e2, e3]

theorem cm_read_append_replicate (l : List Int) (n : Nat) (v : Int) (j : Nat)
    (h1 : l.length ≤ j) (h2 : j < l.length + n) : cm_read (l ++ List.replicate n v) j = v := by
  unfold cm_read
  rw [List.getD_eq_getElem?_getD, List.getElem?_append_right h1, List.getElem?_replicate,
    if_pos (by omega)]
  rfl

/-! ### The directory `sample_coremap_big16` -/

/-- The first iteration of `as_prepare_load` on `sample_coremap_big16`: the reservation
takes entry 0, and the zero-fill of its frame `0x101000` clears the entries 1024 to 1279. -/
theorem prepare_loop_big16_first :
    prepare_loop 1 0 sample_coremap_big16 [0, 0, 0] =
      some (true,
        Coremap.mk (List.replicate 1 1 ++
          (List.replicate 15 0 ++ (List.replicate 1008 1 ++ List.replicate 256 0)))
          0x100000 0x600000,
        [0x101000, 0, 0]) := by
  decide!

theorem prepare_segment_big16_first :
    prepare_segment 3 sample_coremap_big16 (some [0, 0, 0]) =
      some (true,
        Coremap.mk (List.replicate 3 1 ++
          (List.replicate 13 0 ++ (List.replicate 1008 1 ++ List.replicate 256 0)))
          0x100000 0x600000,
        some [0x101000, 0x102000, 0x103000]) :=
  prepare_segment_of_loop 2 _ _ _ _ _
    ((prepare_loop_add 2 1 0 _ _ _ _ prepare_loop_big16_first).trans
      (prepare_loop_run 2 1 15 1 _ _ _ _ (by decide!) (by decide) (by decide) (by decide!)))

theorem prepare_segment_big16_second :
    prepare_segment 2
        (Coremap.mk (List.replicate 3 1 ++
          (List.replicate 13 0 ++ (List.replicate 1008 1 ++ List.replicate 256 0)))
          0x100000 0x600000) (some [0, 0]) =
      some (true,
        Coremap.mk (List.replicate 5 1 ++
          (List.replicate 11 0 ++ (List.replicate 1008 1 ++ List.replicate 256 0)))
          0x100000 0x600000,
        some [0x104000, 0x105000]) :=
  prepare_segment_of_loop 1 _ _ _ _ _
    (prepare_loop_run 2 3 13 0 _ _ _ _ (by decide!) (by decide) (by decide) (by decide!))

/-- The first 11 iterations of the stack loop of `as_prepare_load` on
`sample_coremap_big16`: they take the entries 5 to 15, after which the lowest free entry is
entry 1024. -/
theorem prepare_loop_big16_stack11 :
    prepare_loop 11 0
        (Coremap.mk (List.replicate 5 1 ++
          (List.replicate 11 0 ++ (List.replicate 1008 1 ++ List.replicate 256 0)))
          0x100000 0x600000) sample_stack =
      some (true, sample_coremap_big16_stack11,
        [0x106000, 0x107000, 0x108000, 0x109000, 0x10a000, 0x10b000, 0x10c000, 0x10d000,
          0x10e000, 0x10f000, 0x110000, 0]) := by
  rw [show sample_coremap_big16_stack11 =
    Coremap.mk (List.replicate 16 1 ++
      (List.replicate 0 0 ++ (List.replicate 1008 1 ++ List.replicate 256 0)))
      0x100000 0x600000 by decide!]
  exact prepare_loop_run 11 5 11 0 _ _ _ _ (by decide!) (by decide) (by decide) (by decide!)

/-- The last iteration of the stack loop of `as_prepare_load` on `sample_coremap_big16`:
the reservation takes entry 1024, whose frame is `0x501000`. -/
theorem prepare_loop_big16_last :
    prepare_loop 1 (0 + 11) sample_coremap_big16_stack11
        [0x106000, 0x107000, 0x108000, 0x109000, 0x10a000, 0x10b000, 0x10c000, 0x10d000,
          0x10e000, 0x10f000, 0x110000, 0] =
      some (true, sample_coremap_big16_loaded,
        [0x106000, 0x107000, 0x108000, 0x109000, 0x10a000, 0x10b000, 0x10c000, 0x10d000,
          0x10e000, 0x10f000, 0x110000, 0x501000]) := by
  have hg := getppages_one_at sample_coremap_big16_stack11 1024 (by decide!) (by decide!)
    (fun j hj => by
      show cm_read (List.replicate 1024 1 ++ List.replicate 256 0) j ≠ 0
      rw [cm_read_replicate_append 1024 1 _ j hj]
      decide)
  rw [prepare_loop_step 0 (0 + 11), if_pos (by decide), hg]
  simp only
  rw [if_neg (by decide)]
  decide!

theorem prepare_segment_big16_stack :
    prepare_segment 12
        (Coremap.mk (List.replicate 5 1 ++
          (List.replicate 11 0 ++ (List.replicate 1008 1 ++ List.replicate 256 0)))
          0x100000 0x600000) (some sample_stack) =
      some (true, sample_coremap_big16_loaded,
        some [0x106000, 0x107000, 0x108000, 0x109000, 0x10a000, 0x10b000, 0x10c000, 0x10d000,
          0x10e000, 0x10f000, 0x110000, 0x501000]) :=
  prepare_segment_of_loop 11 _ _ _ _ _
    ((prepare_loop_add 1 11 0 _ _ _ _ prepare_loop_big16_stack11).trans
      prepare_loop_big16_last)

/-- The function `as_prepare_load` on `sample_coremap_big16`, which has 16 free entries,
for an address space of 3 + 2 pages: the first reservation takes entry 0, whose frame
`0x101000` holds the entries 1024 to 1279; the zero-fill of that frame clears them; the
entries 1 to 15 are taken next, and the 17th reservation finds entry 1024 free. -/
theorem as_prepare_load_big16 (as : addrspace) (hn1 : as.as_npages1 = 3)
    (hp1 : as.as_pbase1 = some [0, 0, 0]) (hn2 : as.as_npages2 = 2)
    (hp2 : as.as_pbase2 = some [0, 0]) :
    as_prepare_load sample_coremap_big16 as (some sample_stack) =
      some (0, sample_coremap_big16_loaded,
        { as with
          as_pbase1 := some [0x101000, 0x102000, 0x103000],
          as_pbase2 := some [0x104000, 0x105000],
          as_stackpbase := some [0x106000, 0x107000, 0x108000, 0x109000, 0x10a000, 0x10b000,
            0x10c000, 0x10d000, 0x10e000, 0x10f000, 0x110000, 0x501000] }) := by
  have t1 : (to_int 3).toNat = 3 := by decide
  have t2 : (to_int 2).toNat = 2 := by decide
  exact as_prepare_load_of_segments _ _ _ _ as sample_stack _ _ _
    (by rw [hn1, hp1, t1]; exact prepare_segment_big16_first)
    (by rw [hn2, hp2, t2]; exact prepare_segment_big16_second) prepare_segment_big16_stack

/-! ### The directory `sample_coremap_big17` -/

/-- The first iteration of `as_prepare_load` on `sample_coremap_big17`: the reservation
takes entry 0, and the zero-fill of its frame `0x101000` clears the entries 1024 to 1279. -/
theorem prepare_loop_big17_first :
    prepare_loop 1 0 sample_coremap_big17 [0, 0, 0] =
      some (true,
        Coremap.mk (List.replicate 1 1 ++
          (List.replicate 16 0 ++ (List.replicate 1007 1 ++ List.replicate 256 0)))
          0x100000 0x600000,
        [0x101000, 0, 0]) := by
  decide!

theorem prepare_segment_big17_first :
    prepare_segment 3 sample_coremap_big17 (some [0, 0, 0]) =
      some (true,
        Coremap.mk (List.replicate 3 1 ++
          (List.replicate 14 0 ++ (List.replicate 1007 1 ++ List.replicate 256 0)))
          0x100000 0x600000,
        some [0x101000, 0x102000, 0x103000]) :=
  prepare_segment_of_loop 2 _ _ _ _ _
    ((prepare_loop_add 2 1 0 _ _ _ _ prepare_loop_big17_first).trans
      (prepare_loop_run 2 1 16 1 _ _ _ _ (by decide!) (by decide) (by decide) (by decide!)))

theorem prepare_segment_big17_second :
    prepare_segment 2
        (Coremap.mk (List.replicate 3 1 ++
          (List.replicate 14 0 ++ (List.replicate 1007 1 ++ List.replicate 256 0)))
          0x100000 0x600000) (some [0, 0]) =
      some (true,
        Coremap.mk (List.replicate 5 1 ++
          (List.replicate 12 0 ++ (List.replicate 1007 1 ++ List.replicate 256 0)))
          0x100000 0x600000,
        some [0x104000, 0x105000]) :=
  prepare_segment_of_loop 1 _ _ _ _ _
    (prepare_loop_run 2 3 14 0 _ _ _ _ (by decide!) (by decide) (by decide) (by decide!))

theorem prepare_segment_big17_stack :
    prepare_segment 12
        (Coremap.mk (List.replicate 5 1 ++
          (List.replicate 12 0 ++ (List.replicate 1007 1 ++ List.replicate 256 0)))
          0x100000 0x600000) (some sample_stack) =
      some (true,
        Coremap.mk (List.replicate 17 1 ++
          (List.replicate 0 0 ++ (List.replicate 1007 1 ++ List.replicate 256 0)))
          0x100000 0x600000,
        some [0x106000, 0x107000, 0x108000, 0x109000, 0x10a000, 0x10b000, 0x10c000, 0x10d000,
          0x10e000, 0x10f000, 0x110000, 0x111000]) :=
  prepare_segment_of_loop 11 _ _ _ _ _
    (prepare_loop_run 12 5 12 0 _ _ _ _ (by decide!) (by decide) (by decide) (by decide!))

theorem sample_coremap_big17_loaded_eq :
    Coremap.mk (List.replicate 17 1 ++
      (List.replicate 0 0 ++ (List.replicate 1007 1 ++ List.replicate 256 0)))
      0x100000 0x600000 = sample_coremap_big17_loaded := by
  decide!

/-- The function `as_prepare_load` on `sample_coremap_big17` for `sample_as`: the first
reservation takes entry 0, whose frame `0x101000` holds the entries 1024 to 1279; the
zero-fill of that frame clears them; the entries 1 to 16 are taken next. -/
theorem as_prepare_load_big17 :
    as_prepare_load sample_coremap_big17 sample_as (some sample_stack) =
      some (0, sample_coremap_big17_loaded, sample_as_big17_loaded) := by
  rw [← sample_coremap_big17_loaded_eq]
  exact as_prepare_load_of_segments _ _ _ _ sample_as sample_stack _ _ _
    prepare_segment_big17_first prepare_segment_big17_second prepare_segment_big17_stack

/-! ### `as_destroy` and `as_copy` on these directories, and what the loads show -/

theorem as_destroy_big17 :
    as_destroy sample_coremap_big17_loaded sample_as_big17_loaded =
      { cm := sample_coremap_big17_destroyed,
        released := [0x80101000, 0x80102000, 0x80103000, 0x80104000, 0x80105000, 0x80106000,
          0x80107000, 0x80108000, 0x80109000, 0x8010a000, 0x8010b000, 0x8010c000, 0x8010d000,
          0x8010e000, 0x8010f000, 0x80110000, 0x80111000],
        bad_read := false } := by
  decide!

/-- The function `as_copy` when `as_prepare_load` on the duplicate returns 0 with three
frame arrays and the frame arrays of the source have a slot for every page. -/
theorem as_copy_of_as_prepare_load (s s1 : Coremap) (old new1 : addrspace)
    (k1 k2 k3 k4 : Option (List Nat)) (b1 b2 b3 : List Nat)
    (h : as_prepare_load s
      { as_create with
        as_vbase1 := old.as_vbase1, as_npages1 := old.as_npages1,
        as_vbase2 := old.as_vbase2, as_npages2 := old.as_npages2,
        as_pbase1 := k1, as_pbase2 := k2, as_stackpbase := k3 } k4 = some (0, s1, new1))
    (h1 : new1.as_pbase1 = some b1) (h2 : new1.as_pbase2 = some b2)
    (h3 : new1.as_stackpbase = some b3)
    (r1 : slots_readable (to_int old.as_npages1).toNat old.as_pbase1 = true)
    (r2 : slots_readable (to_int old.as_npages2).toNat old.as_pbase2 = true)
    (r3 : slots_readable DUMBVM_STACKPAGES old.as_stackpbase = true) :
    as_copy s old true k1 k2 k3 k4 =
      some { code := 0, cm := s1, ret := some new1, released := [], bad_read := false,
             table_overwritten :=
               memmove_hits_table s1 (to_int old.as_npages1).toNat (some b1) ||
               memmove_hits_table s1 (to_int old.as_npages2).toNat (some b2) ||
               memmove_hits_table s1 DUMBVM_STACKPAGES (some b3) } := by
  unfold as_copy
  simp only [h, h1, h2, h3, r1, r2, r3, Bool.true_eq_false, if_false, ne_eq, not_true_eq_false,
    reduceCtorEq, or_self]

/-- C7 (the code does not do this): on `sample_coremap_big17`, a well-formed directory of
1280 entries with exactly the 17 free entries that `sample_as` needs, `as_prepare_load`
returns 0 and records the frames of the entries 0 to 16, but the number of free entries
does not drop by 17: the frame of entry 0 starts at `0x101000`, inside the table, and
zero-filling it clears the entries 1024 to 1279, which were allocated, so that 256 entries
are free afterwards. -/
theorem as_prepare_load_clears_entries_in_first_frame :
    sample_coremap_big17.wf ∧
    free_count sample_coremap_big17 = 17 ∧
    sample_as.as_npages1 + sample_as.as_npages2 + DUMBVM_STACKPAGES = 17 ∧
    as_prepare_load sample_coremap_big17 sample_as (some sample_stack) =
      some (0, sample_coremap_big17_loaded, sample_as_big17_loaded) ∧
    free_count sample_coremap_big17_loaded = 256 ∧
    frame_paddr sample_coremap_big17 0 = 0x101000 ∧
    page_in_table sample_coremap_big17 0x101000 = true ∧
    (∀ k, k < 256 → cm_read sample_coremap_big17.coremap (1024 + k) = 1 ∧
      cm_read sample_coremap_big17_loaded.coremap (1024 + k) = 0) :=
  ⟨by decide!, by decide!, by decide!, as_prepare_load_big17, by decide!, by decide!,
    by decide!, fun k hk =>
      ⟨cm_read_append_replicate (List.replicate 17 0) 1263 1 (1024 + k)
          (by rw [List.length_replicate]; omega) (by rw [List.length_replicate]; omega),
        cm_read_append_replicate (List.replicate 1024 1) 256 0 (1024 + k)
          (by rw [List.length_replicate]; omega) (by rw [List.length_replicate]; omega)⟩⟩

/-- C8 (the code does not do this): on `sample_coremap_big16`, a well-formed directory of
1280 entries with 16 free entries, one fewer than the 17 that `sample_as` needs,
`as_prepare_load` does not return `ENOMEM`: it returns 0. Zero-filling the frame of entry 0,
which starts at `0x101000` inside the table, clears the entries 1024 to 1279, which were
allocated, and the 17th reservation takes entry 1024, whose frame `0x501000` ends up in the
last slot of the stack array. -/
theorem as_prepare_load_returns_zero_with_too_few_free_frames :
    sample_coremap_big16.wf ∧
    free_count sample_coremap_big16 = 16 ∧
    sample_as.as_npages1 + sample_as.as_npages2 + DUMBVM_STACKPAGES = 17 ∧
    as_prepare_load sample_coremap_big16 sample_as (some sample_stack) =
      some (0, sample_coremap_big16_loaded, sample_as_big16_loaded) ∧
    page_in_table sample_coremap_big16 0x101000 = true ∧
    cm_read sample_coremap_big16.coremap 1024 = 1 ∧
    frame_paddr sample_coremap_big16 1024 = 0x501000 ∧
    (sample_as_big16_loaded.as_stackpbase.getD []).getD 11 0 = 0x501000 :=
  ⟨by decide!, by decide!, by decide!, as_prepare_load_big16 sample_as rfl rfl rfl rfl,
    by decide!, by decide!, by decide!, by decide!⟩

/-- C10 (the code does not do this): on `sample_coremap_big17`, a well-formed directory of
1280 entries, `as_prepare_load` on `sample_as` returns 0, and `as_destroy` then calls
`free_kpages` on the 17 frames, but the directory it leaves is not the one before
`as_prepare_load`: the entries 1024 to 1279, allocated before, were cleared when the frame
of entry 0 was zero-filled and stay free, so that 273 entries are free instead of 17. -/
theorem as_destroy_does_not_restore_entries_in_first_frame :
    sample_coremap_big17.wf ∧
    as_prepare_load sample_coremap_big17 sample_as (some sample_stack) =
      some (0, sample_coremap_big17_loaded, sample_as_big17_loaded) ∧
    (as_destroy sample_coremap_big17_loaded sample_as_big17_loaded).cm =
      sample_coremap_big17_destroyed ∧
    (as_destroy sample_coremap_big17_loaded sample_as_big17_loaded).bad_read = false ∧
    (as_destroy sample_coremap_big17_loaded sample_as_big17_loaded).released.length = 17 ∧
    sample_coremap_big17_destroyed ≠ sample_coremap_big17 ∧
    free_count sample_coremap_big17 = 17 ∧
    free_count sample_coremap_big17_destroyed = 273 ∧
    cm_read sample_coremap_big17.coremap 1024 = 1 ∧
    cm_read sample_coremap_big17_destroyed.coremap 1024 = 0 :=
  ⟨by decide!, as_prepare_load_big17, congrArg DestroyTrace.cm as_destroy_big17,
    congrArg DestroyTrace.bad_read as_destroy_big17,
    congrArg (fun t => t.released.length) as_destroy_big17, by decide!, by decide!,
    by decide!, by decide!, by decide!⟩

/-- C11 (the code does not do this): on `sample_coremap_big16`, a well-formed directory of
1280 entries in which the 17 frames of the source `sample_as_high` are the frames of the
allocated entries 1024 to 1040, `as_copy` returns 0 and hands back a duplicate with the
bases and page counts of the source, but the duplicate shares the frame `0x501000` with the
source: inside `as_copy`, `as_prepare_load` zero-fills the frame of entry 0, which clears
the entries of the source, and its 17th reservation takes entry 1024. The copy loops then
store into the frame at `0x101000`, which holds entries of the table. -/
theorem as_copy_duplicate_shares_frame_with_source :
    sample_coremap_big16.wf ∧
    frames_of sample_as_high =
      (List.range 17).map (fun k => frame_paddr sample_coremap_big16 (1024 + k)) ∧
    (∀ k, k < 17 → cm_read sample_coremap_big16.coremap (1024 + k) = 1) ∧
    as_copy sample_coremap_big16 sample_as_high true (some [0, 0, 0]) (some [0, 0])
      (some sample_stack) (some sample_stack) = some sample_copy_big16 ∧
    sample_copy_big16.code = 0 ∧
    sample_copy_big16.ret = some sample_as_big16_loaded ∧
    sample_as_big16_loaded.as_vbase1 = sample_as_high.as_vbase1 ∧
    sample_as_big16_loaded.as_npages1 = sample_as_high.as_npages1 ∧
    sample_as_big16_loaded.as_vbase2 = sample_as_high.as_vbase2 ∧
    sample_as_big16_loaded.as_npages2 = sample_as_high.as_npages2 ∧
    0x501000 ∈ frames_of sample_as_big16_loaded ∧
    0x501000 ∈ frames_of sample_as_high ∧
    sample_copy_big16.table_overwritten = true :=
  ⟨by decide!, by decide!, by decide!,
    as_copy_of_as_prepare_load sample_coremap_big16 sample_coremap_big16_loaded
      sample_as_high sample_as_big16_loaded (some [0, 0, 0]) (some [0, 0]) (some sample_stack)
      (some sample_stack) [0x101000, 0x102000, 0x103000] [0x104000, 0x105000]
      [0x106000, 0x107000, 0x108000, 0x109000, 0x10a000, 0x10b000, 0x10c000, 0x10d000,
        0x10e000, 0x10f000, 0x110000, 0x501000]
      (as_prepare_load_big16 _ rfl rfl rfl rfl) rfl rfl rfl rfl rfl rfl,
    rfl, rfl, rfl, rfl, rfl, rfl, by decide!, by decide!, rfl⟩

end DumbVM
